import Mathlib

/-!
# Vulkan texture cache of xenia: a shallow embedding

Source: `src/xenia/gpu/vulkan/texture_cache.cc`.

Conventions of the embedding.

* A `Texture*` is a natural number.  `new Texture()` hands out the next unused
  number, so a number names one allocation for ever (an address that the C++
  allocator reuses after `delete` is a different texture here).
* The heap is a total function from texture numbers to records.  `delete` is
  recorded in the log `deleted_textures`; the record itself stays readable.
  Reading a deleted texture is undefined in C++; the embedding reads the record
  as `FreeTexture` left it.
* `std::unordered_map<uint64_t, T*>` is an association list with the iteration
  order of the list; `find`, `operator[]` and `erase(key)` act on the first
  entry with the key.
* Host objects (images, views, device memory, the staging buffer) are not part
  of the state; the outcome of host calls is an argument of the operation.
* Fences are natural numbers and `signaled f` tells whether the status of the
  fence `f` is `VK_SUCCESS`.
-/

namespace xe.gpu.vulkan

/-! ## Data model -/

/-- Texture dimensionality (`Dimension` of the guest texture descriptions). -/
inductive Dimension where
  | k1D
  | k2D
  | k3D
  | kCube
  deriving DecidableEq, Repr

/-- Guest endianness tag (`Endian`); the four tags `TextureSwap` switches on. -/
inductive Endian where
  | kUnspecified
  | k8in16
  | k8in32
  | k16in32
  deriving DecidableEq, Repr

/-- The `size_2d` member of `TextureInfo`: the fields this file reads. -/
structure Size2D where
  logical_width : Nat
  logical_height : Nat
  block_width : Nat
  block_height : Nat
  input_width : Nat
  input_height : Nat
  input_pitch : Nat
  output_width : Nat
  output_height : Nat
  output_pitch : Nat
  deriving DecidableEq, Repr

/-- The `format_info` record a `TextureInfo` points to: the fields this file reads. -/
structure FormatInfo where
  format : Nat
  block_width : Nat
  block_height : Nat
  bits_per_pixel : Nat
  deriving DecidableEq, Repr

/-- The texture description `TextureInfo` (declared in `texture_info.h`); its
`operator==` compares all fields. -/
structure TextureInfo where
  guest_address : Nat
  input_length : Nat
  dimension : Dimension
  width : Nat
  height : Nat
  depth : Nat
  format_info : FormatInfo
  endianness : Endian
  is_tiled : Bool
  output_length : Nat
  size_2d : Size2D
  deriving DecidableEq, Repr

/-- The cache entry `TextureCache::Texture`: the members the cache logic reads
or writes.  `access_watch_handle = 0` means that no watch is stored. -/
structure Texture where
  texture_info : TextureInfo
  is_full_texture : Bool
  access_watch_handle : Nat
  pending_invalidation : Bool
  in_flight_fence : Option Nat
  deriving DecidableEq, Repr

/-- Modelled from the spec: a write-watch registered with the memory system
(`RegisterWriteWatch(address, length, callback, context, payload) -> handle`).
`texture` is the payload; `resolve` tells which of the two callbacks of the
cache was registered: the one of `DemandResolveTexture` (`true`) or the one of
`Demand` (`false`). -/
structure Watch where
  handle : Nat
  texture : Nat
  resolve : Bool
  deriving DecidableEq, Repr

/-- The state of a `TextureCache` together with the write-watches the memory
system holds for it and two logs of host releases. -/
structure Cache where
  /-- the heap of `Texture` objects -/
  tex : Nat → Texture
  /-- the number the next `new Texture()` returns -/
  next_texture : Nat
  textures_ : List (Nat × Nat)
  resolve_textures_ : List Nat
  pending_delete_textures_ : List Nat
  /-- the two buffers `invalidated_textures_sets_[0]` and `[1]` -/
  invalidated_textures_sets_0 : List Nat
  invalidated_textures_sets_1 : List Nat
  /-- which buffer `invalidated_textures_` points to: `false` is `[0]` -/
  invalidated_textures_ : Bool
  invalidated_resolve_textures_ : List Nat
  in_flight_sets_ : List (Nat × Nat)
  /-- the watches registered with the memory system -/
  watches : List Watch
  /-- the handle the next registration returns -/
  next_watch : Nat
  /-- log of `delete texture` in `FreeTexture` -/
  deleted_textures : List Nat
  /-- log of `vkFreeDescriptorSets` -/
  freed_sets : List Nat

/-- A zero-initialised `Texture`, as `new Texture()` produces it. -/
def Texture.zero (texture_info : TextureInfo) : Texture :=
  { texture_info := texture_info
    is_full_texture := false
    access_watch_handle := 0
    pending_invalidation := false
    in_flight_fence := none }

/-- An all-zero description, the content of the heap where nothing was allocated. -/
def TextureInfo.zero : TextureInfo :=
  { guest_address := 0, input_length := 0, dimension := Dimension.k1D
    width := 0, height := 0, depth := 0
    format_info := ⟨0, 0, 0, 0⟩
    endianness := Endian.kUnspecified, is_tiled := false, output_length := 0
    size_2d := ⟨0, 0, 0, 0, 0, 0, 0, 0, 0, 0⟩ }

/-- The cache right after the constructor: every table and list is empty and
`invalidated_textures_` points to `invalidated_textures_sets_[0]`. -/
def Cache.empty : Cache :=
  { tex := fun _ => Texture.zero TextureInfo.zero
    next_texture := 0
    textures_ := []
    resolve_textures_ := []
    pending_delete_textures_ := []
    invalidated_textures_sets_0 := []
    invalidated_textures_sets_1 := []
    invalidated_textures_ := false
    invalidated_resolve_textures_ := []
    in_flight_sets_ := []
    watches := []
    next_watch := 1
    deleted_textures := []
    freed_sets := [] }

/-! ## The hash map operations the cache uses -/

/-- The part of the table `find(key)` starts iterating at: the entries from
the first one with the key on (empty when the key is absent, as `end()`). -/
def mapFind (key : Nat) : List (Nat × Nat) → List (Nat × Nat)
  | [] => []
  | e :: l => if e.1 = key then e :: l else mapFind key l

/-- The table after `m[key] = value`: the entry with the key is overwritten,
or a new entry is added when there is none. -/
def mapAssign (key value : Nat) : List (Nat × Nat) → List (Nat × Nat)
  | [] => [(key, value)]
  | e :: l => if e.1 = key then (key, value) :: l else e :: mapAssign key value l

/-- The table after `m.erase(key)`. -/
def mapErase (key : Nat) : List (Nat × Nat) → List (Nat × Nat)
  | [] => []
  | e :: l => if e.1 = key then l else e :: mapErase key l

/-! ## The memory system's write-watches -/

/-- Modelled from the spec: `CancelWriteWatch(handle)` of the memory system
unregisters the watch with the handle. -/
def CancelAccessWatch (s : Cache) (handle : Nat) : Cache :=
  { s with watches := s.watches.filter (fun w => w.handle ≠ handle) }

/-- Modelled from the spec: `RegisterWriteWatch` of the memory system registers
a watch with the texture as payload and returns a new, non-zero handle. -/
def AddPhysicalAccessWatch (s : Cache) (texture : Nat) (resolve : Bool) : Cache × Nat :=
  ({ s with
      watches := s.watches ++ [{ handle := s.next_watch, texture := texture, resolve := resolve }]
      next_watch := s.next_watch + 1 },
   s.next_watch)

/-- The two callbacks the cache registers (lines 334-345 and 391-402, 474-485):
clear the handle, set `pending_invalidation`, append the texture to the
pending list of its kind. -/
def watchCallback (s : Cache) (w : Watch) : Cache :=
  let s1 : Cache :=
    { s with
        tex := Function.update s.tex w.texture
          { s.tex w.texture with access_watch_handle := 0, pending_invalidation := true } }
  if w.resolve then
    { s1 with invalidated_resolve_textures_ := s1.invalidated_resolve_textures_ ++ [w.texture] }
  else if s1.invalidated_textures_ then
    { s1 with invalidated_textures_sets_1 := s1.invalidated_textures_sets_1 ++ [w.texture] }
  else
    { s1 with invalidated_textures_sets_0 := s1.invalidated_textures_sets_0 ++ [w.texture] }

/-- Modelled from the spec: a guest write inside the range of the registered
watch `handle` fires it: the watch leaves the memory system and its callback
runs.  Nothing happens when no such watch is registered. -/
def fireWatch (s : Cache) (handle : Nat) : Cache :=
  match s.watches.find? (fun w => w.handle = handle) with
  | none => s
  | some w => watchCallback (CancelAccessWatch s handle) w

/-! ## Allocation and release of textures -/

/-- The function `AllocateTexture` (lines 177-290).  `host_ok = false` stands
for the failure of the device memory allocation (line 243), the one path that
returns `nullptr` for the four dimensions.  The new object is zero-initialised
and gets the description (line 260).  It is placed at `next_texture`, which
the function advances: a run that only uses the operations below never gets
the address of a deleted texture again. -/
def AllocateTexture (s : Cache) (texture_info : TextureInfo) (host_ok : Bool) :
    Cache × Option Nat :=
  if host_ok then
    ({ s with
        tex := Function.update s.tex s.next_texture (Texture.zero texture_info)
        next_texture := s.next_texture + 1 },
     some s.next_texture)
  else
    (s, none)

/-- The test of lines 293-294: the texture has a fence and the fence's status
is not `VK_SUCCESS`. -/
def inFlight (signaled : Nat → Bool) (s : Cache) (texture : Nat) : Bool :=
  match (s.tex texture).in_flight_fence with
  | some f => !signaled f
  | none => false

/-- The function `FreeTexture` (lines 292-313): refuses a texture in flight;
otherwise cancels the stored watch, clears the handle and deletes the texture. -/
def FreeTexture (signaled : Nat → Bool) (s : Cache) (texture : Nat) : Cache × Bool :=
  if inFlight signaled s texture then
    (s, false)
  else
    let s1 : Cache :=
      if (s.tex texture).access_watch_handle ≠ 0 then
        let s0 := CancelAccessWatch s (s.tex texture).access_watch_handle
        { s0 with
            tex := Function.update s0.tex texture
              { s0.tex texture with access_watch_handle := 0 } }
      else s
    ({ s1 with deleted_textures := s1.deleted_textures ++ [texture] }, true)

/-! ## Scavenge -/

/-- The loop of lines 1098-1109 over `in_flight_sets_`: free the set at the
front while its fence is signaled, stop at the first that is not. -/
def scavengeSets (signaled : Nat → Bool) (s : Cache) : List (Nat × Nat) → Cache
  | [] => { s with in_flight_sets_ := [] }
  | e :: l =>
    if signaled e.2 then
      scavengeSets signaled { s with freed_sets := s.freed_sets ++ [e.1] } l
    else
      { s with in_flight_sets_ := e :: l }

/-- The loop of lines 1114-1123 over `pending_delete_textures_`: free the
texture at the front and erase it, stop at the first `FreeTexture` refuses. -/
def scavengePendingDelete (signaled : Nat → Bool) (s : Cache) : List Nat → Cache
  | [] => { s with pending_delete_textures_ := [] }
  | t :: l =>
    if (FreeTexture signaled s t).2 then
      scavengePendingDelete signaled (FreeTexture signaled s t).1 l
    else
      { (FreeTexture signaled s t).1 with pending_delete_textures_ := t :: l }

/-- The loop of lines 1135-1139 over the drained main-table buffer: append the
texture to `pending_delete_textures_` and erase the key `hash` of its
description from `textures_`. -/
def scavengeInvalidated (hash : TextureInfo → Nat) (s : Cache) : List Nat → Cache
  | [] => s
  | t :: l =>
    scavengeInvalidated hash
      { s with
          pending_delete_textures_ := s.pending_delete_textures_ ++ [t]
          textures_ := mapErase (hash (s.tex t).texture_info) s.textures_ } l

/-- The loop of lines 1147-1156 over `invalidated_resolve_textures_`: append
the texture to `pending_delete_textures_` and erase its first occurrence, if
any, from `resolve_textures_`. -/
def scavengeInvalidatedResolve (s : Cache) : List Nat → Cache
  | [] => s
  | t :: l =>
    scavengeInvalidatedResolve
      { s with
          pending_delete_textures_ := s.pending_delete_textures_ ++ [t]
          resolve_textures_ := s.resolve_textures_.erase t } l

/-- Lines 1126-1142: take the active main-table buffer, point
`invalidated_textures_` to the other one, process the taken buffer and clear it. -/
def scavengeSwapAndDrain (hash : TextureInfo → Nat) (s : Cache) : Cache :=
  if s.invalidated_textures_ then
    let s1 := scavengeInvalidated hash { s with invalidated_textures_ := false }
      s.invalidated_textures_sets_1
    { s1 with invalidated_textures_sets_1 := [] }
  else
    let s1 := scavengeInvalidated hash { s with invalidated_textures_ := true }
      s.invalidated_textures_sets_0
    { s1 with invalidated_textures_sets_0 := [] }

/-- The function `Scavenge` (lines 1096-1161).  `staging_buffer_.Scavenge()`
acts on the staging buffer only. -/
def Scavenge (hash : TextureInfo → Nat) (signaled : Nat → Bool) (s : Cache) : Cache :=
  let s1 := scavengeSets signaled s s.in_flight_sets_
  let s2 := scavengePendingDelete signaled s1 s1.pending_delete_textures_
  let s3 := scavengeSwapAndDrain hash s2
  let s4 := scavengeInvalidatedResolve s3 s3.invalidated_resolve_textures_
  { s4 with invalidated_resolve_textures_ := [] }

/-! ## LookupAddress and DemandResolveTexture -/

/-- Reduction of a sum to `uint32_t`. -/
def u32 (n : Nat) : Nat := n % 2 ^ 32

/-- The containment test of lines 701-705, without its last conjunct `out_offset`. -/
def lookupContains (ti : TextureInfo) (guest_address width height : Nat) : Bool :=
  decide (ti.guest_address ≤ guest_address) &&
  decide (guest_address < u32 (ti.guest_address + ti.input_length)) &&
  decide (width ≤ ti.size_2d.input_width) &&
  decide (height ≤ ti.size_2d.input_height)

/-- The equality test of lines 719-722 and 736-739. -/
def lookupExact (ti : TextureInfo) (guest_address width height : Nat) : Bool :=
  decide (ti.guest_address = guest_address) &&
  decide (ti.dimension = Dimension.k2D) &&
  decide (ti.size_2d.input_width = width) &&
  decide (ti.size_2d.input_height = height)

/-- The loop of lines 699-730 over `textures_`.  The result is the texture and
what was stored through `out_offset` (`none` when nothing was stored).
`out_offset` tells whether the caller passed a non-null pointer.  The
quotient of line 710 is the one of the naturals (zero for a zero pitch, where
the C++ division is undefined). -/
def lookupTextures (tex : Nat → Texture) (guest_address width height : Nat)
    (out_offset : Bool) : List (Nat × Nat) → Option (Nat × Option (Nat × Nat))
  | [] => none
  | e :: l =>
    let ti := (tex e.2).texture_info
    if lookupContains ti guest_address width height && out_offset then
      some (e.2,
        if ti.dimension = Dimension.k2D then
          some (0, (guest_address - ti.guest_address) / ti.size_2d.input_pitch)
        else none)
    else if lookupExact ti guest_address width height then
      some (e.2, if out_offset then some (0, 0) else none)
    else
      lookupTextures tex guest_address width height out_offset l

/-- The loop of lines 733-747 over `resolve_textures_`. -/
def lookupResolve (tex : Nat → Texture) (guest_address width height : Nat)
    (out_offset : Bool) : List Nat → Option (Nat × Option (Nat × Nat))
  | [] => none
  | t :: l =>
    if lookupExact (tex t).texture_info guest_address width height then
      some (t, if out_offset then some (0, 0) else none)
    else
      lookupResolve tex guest_address width height out_offset l

/-- The function `LookupAddress` (lines 694-750); `format` is not read. -/
def LookupAddress (s : Cache) (guest_address width height : Nat) (out_offset : Bool) :
    Option (Nat × Option (Nat × Nat)) :=
  match lookupTextures s.tex guest_address width height out_offset s.textures_ with
  | some r => some r
  | none => lookupResolve s.tex guest_address width height out_offset s.resolve_textures_

/-- The function `DemandResolveTexture` (lines 315-350).  The result is `none`
when `AllocateTexture` returns `nullptr`, which line 328 dereferences. -/
def DemandResolveTexture (s : Cache) (texture_info : TextureInfo) (out_offset : Bool)
    (host_ok : Bool) : Option (Cache × Nat × Option (Nat × Nat)) :=
  match LookupAddress s texture_info.guest_address texture_info.size_2d.block_width
      texture_info.size_2d.block_height out_offset with
  | some r => some (s, r.1, r.2)
  | none =>
    match AllocateTexture s texture_info host_ok with
    | (_, none) => none
    | (s1, some texture) =>
      let s2 : Cache :=
        { s1 with
            tex := Function.update s1.tex texture
              { s1.tex texture with is_full_texture := false } }
      let r := AddPhysicalAccessWatch s2 texture true
      let s3 : Cache :=
        { r.1 with
            tex := Function.update r.1.tex texture
              { r.1.tex texture with access_watch_handle := r.2 } }
      some ({ s3 with resolve_textures_ := s3.resolve_textures_ ++ [texture] }, texture, none)

/-! ## Demand -/

/-- The loop of lines 357-367 up to its first exit: the first entry, in the
part of the table it visits, whose description equals `texture_info`. -/
def scanExact (tex : Nat → Texture) (texture_info : TextureInfo) :
    List (Nat × Nat) → Option Nat
  | [] => none
  | e :: l =>
    if (tex e.2).texture_info = texture_info then some e.2
    else scanExact tex texture_info l

/-- The test of lines 373-377: equal guest address and logical width and height. -/
def resolveMatches (tex : Nat → Texture) (texture_info : TextureInfo) (t : Nat) : Bool :=
  decide (texture_info.guest_address = (tex t).texture_info.guest_address) &&
  decide (texture_info.size_2d.logical_width = (tex t).texture_info.size_2d.logical_width) &&
  decide (texture_info.size_2d.logical_height = (tex t).texture_info.size_2d.logical_height)

/-- The loop of lines 370-409 up to its exit: the first entry of
`resolve_textures_` that passes the test, and the list with that entry erased
(line 406). -/
def takeResolveMatch (p : Nat → Bool) : List Nat → Option (Nat × List Nat)
  | [] => none
  | t :: l =>
    if p t then some (t, l)
    else (takeResolveMatch p l).map (fun r => (r.1, t :: r.2))

/-- Lines 380-407: upgrade the resolve texture `texture` to a full texture. -/
def promote (hash : TextureInfo → Nat) (s : Cache) (texture_info : TextureInfo)
    (texture : Nat) (rest : List Nat) : Cache :=
  let s1 : Cache :=
    { s with
        tex := Function.update s.tex texture
          { s.tex texture with is_full_texture := true, texture_info := texture_info } }
  let s2 : Cache :=
    if (s1.tex texture).access_watch_handle ≠ 0 then
      CancelAccessWatch s1 (s1.tex texture).access_watch_handle
    else s1
  let r := AddPhysicalAccessWatch s2 texture false
  let s3 : Cache :=
    { r.1 with
        tex := Function.update r.1.tex texture
          { r.1.tex texture with access_watch_handle := r.2 } }
  { s3 with
      textures_ := mapAssign (hash texture_info) texture s3.textures_
      resolve_textures_ := rest }

/-- Lines 411-489: the create-on-miss path.  `command_buffer` tells whether
the caller passed a command buffer.  `UploadTexture2D` returns `true` on each
of its paths, the two loops of lines 448-467 have empty bodies. -/
def demandCreate (hash : TextureInfo → Nat) (s : Cache) (texture_info : TextureInfo)
    (command_buffer : Bool) (host_ok : Bool) : Cache × Option Nat :=
  if !command_buffer then (s, none)
  else if texture_info.dimension ≠ Dimension.k2D then (s, none)
  else
    match AllocateTexture s texture_info host_ok with
    | (s1, none) => (s1, none)
    | (s1, some texture) =>
      let r := AddPhysicalAccessWatch s1 texture false
      let s3 : Cache :=
        { r.1 with
            tex := Function.update r.1.tex texture
              { r.1.tex texture with access_watch_handle := r.2 } }
      ({ s3 with textures_ := mapAssign (hash texture_info) texture s3.textures_ },
       some texture)

/-- Lines 369-489: what `Demand` does after the scan for an exact match. -/
def demandMiss (hash : TextureInfo → Nat) (s : Cache) (texture_info : TextureInfo)
    (command_buffer : Bool) (host_ok : Bool) : Cache × Option Nat :=
  match takeResolveMatch (resolveMatches s.tex texture_info) s.resolve_textures_ with
  | some (texture, rest) => (promote hash s texture_info texture rest, some texture)
  | none => demandCreate hash s texture_info command_buffer host_ok

/-- The function `Demand` for textures (lines 352-490).  The fence argument is
handed to the staging buffer only and is not an argument here. -/
def Demand (hash : TextureInfo → Nat) (signaled : Nat → Bool) (s : Cache)
    (texture_info : TextureInfo) (command_buffer : Bool) (host_ok : Bool) :
    Cache × Option Nat :=
  match scanExact s.tex texture_info (mapFind (hash texture_info) s.textures_) with
  | some texture =>
    if (s.tex texture).pending_invalidation then
      demandMiss hash (Scavenge hash signaled s) texture_info command_buffer host_ok
    else
      (s, some texture)
  | none => demandMiss hash s texture_info command_buffer host_ok

/-! ## Reachable cache states -/

/-- Line 1087 of `SetupTextureBinding`: the texture is tied to the completion
fence of the submission that reads it. -/
def setInFlightFence (s : Cache) (texture fence : Nat) : Cache :=
  { s with
      tex := Function.update s.tex texture
        { s.tex texture with in_flight_fence := some fence } }

/-- One operation on the cache: a call of `Demand`, of `DemandResolveTexture`
or of `Scavenge` with any arguments and any outcome of the host calls, a watch
that fires, or a texture that is tied to a fence.  A watch fires between two
operations here, not while one of them runs. -/
inductive Step (hash : TextureInfo → Nat) : Cache → Cache → Prop where
  | demand (signaled : Nat → Bool) (s : Cache) (texture_info : TextureInfo)
      (command_buffer host_ok : Bool) :
      Step hash s (Demand hash signaled s texture_info command_buffer host_ok).1
  | demandResolve (s : Cache) (texture_info : TextureInfo) (out_offset host_ok : Bool)
      (r : Cache × Nat × Option (Nat × Nat))
      (h : DemandResolveTexture s texture_info out_offset host_ok = some r) :
      Step hash s r.1
  | watch (s : Cache) (handle : Nat) : Step hash s (fireWatch s handle)
  | scavenge (signaled : Nat → Bool) (s : Cache) : Step hash s (Scavenge hash signaled s)
  | bind (s : Cache) (texture fence : Nat) : Step hash s (setInFlightFence s texture fence)

/-- The states the cache reaches from the empty cache. -/
inductive Reachable (hash : TextureInfo → Nat) : Cache → Prop where
  | empty : Reachable hash Cache.empty
  | step (s s' : Cache) (hs : Reachable hash s) (h : Step hash s s') : Reachable hash s'

/-! ## Samplers -/

/-- The enumeration `TextureFilter`: the enumerants `Demand` names, and
`other` for any enumerant it does not name. -/
inductive TextureFilter where
  | kPoint
  | kLinear
  | kBaseMap
  | other (n : Nat)
  deriving DecidableEq, Repr

/-- The enumeration `ClampMode`: the eight entries of `address_mode_map`. -/
inductive ClampMode where
  | kRepeat
  | kMirroredRepeat
  | kClampToEdge
  | kMirrorClampToEdge
  | kClampToHalfway
  | kMirrorClampToHalfway
  | kClampToBorder
  | kMirrorClampToBorder
  deriving DecidableEq, Repr

/-- The enumeration `AnisoFilter`: the enumerants `Demand` names, and `other`
for any enumerant it does not name. -/
inductive AnisoFilter where
  | kDisabled
  | kMax_1_1
  | kMax_2_1
  | kMax_4_1
  | kMax_8_1
  | kMax_16_1
  | other (n : Nat)
  deriving DecidableEq, Repr

/-- The sampler description `SamplerInfo`: the fields `Demand` reads. -/
structure SamplerInfo where
  min_filter : TextureFilter
  mag_filter : TextureFilter
  mip_filter : TextureFilter
  clamp_u : ClampMode
  clamp_v : ClampMode
  clamp_w : ClampMode
  aniso_filter : AnisoFilter
  deriving DecidableEq, Repr

/-- The sampler part of the cache: the heap of `Sampler` objects (their
`sampler_info`), the number of the next `new Sampler()`, and `samplers_`. -/
structure SamplerCache where
  sampler_info : Nat → SamplerInfo
  next_sampler : Nat
  samplers_ : List (Nat × Nat)

/-- The sampler cache right after the constructor. -/
def SamplerCache.empty : SamplerCache :=
  { sampler_info := fun _ =>
      ⟨TextureFilter.kPoint, TextureFilter.kPoint, TextureFilter.kPoint,
       ClampMode.kRepeat, ClampMode.kRepeat, ClampMode.kRepeat, AnisoFilter.kDisabled⟩
    next_sampler := 0
    samplers_ := [] }

/-- The four `switch` statements of lines 578-666 reach no `default` branch
(each of them returns `nullptr`). -/
def samplerHandled (sampler_info : SamplerInfo) : Bool :=
  (match sampler_info.mip_filter with
    | TextureFilter.kBaseMap => true
    | TextureFilter.kPoint => true
    | TextureFilter.kLinear => true
    | _ => false) &&
  (match sampler_info.min_filter with
    | TextureFilter.kPoint => true
    | TextureFilter.kLinear => true
    | _ => false) &&
  (match sampler_info.mag_filter with
    | TextureFilter.kPoint => true
    | TextureFilter.kLinear => true
    | _ => false) &&
  (match sampler_info.aniso_filter with
    | AnisoFilter.other _ => false
    | _ => true)

/-- The loop of lines 559-564: the first entry, from `find(sampler_hash)` on,
whose description equals `sampler_info`. -/
def scanSampler (info : Nat → SamplerInfo) (sampler_info : SamplerInfo) :
    List (Nat × Nat) → Option Nat
  | [] => none
  | e :: l =>
    if info e.2 = sampler_info then some e.2 else scanSampler info sampler_info l

/-- The function `Demand` for samplers (lines 553-692).  `host_ok` tells
whether `vkCreateSampler` succeeds. -/
def DemandSampler (hash : SamplerInfo → Nat) (s : SamplerCache) (sampler_info : SamplerInfo)
    (host_ok : Bool) : SamplerCache × Option Nat :=
  match scanSampler s.sampler_info sampler_info (mapFind (hash sampler_info) s.samplers_) with
  | some sampler => (s, some sampler)
  | none =>
    if !samplerHandled sampler_info then (s, none)
    else if !host_ok then (s, none)
    else
      ({ sampler_info := Function.update s.sampler_info s.next_sampler sampler_info
         next_sampler := s.next_sampler + 1
         samplers_ := mapAssign (hash sampler_info) s.next_sampler s.samplers_ },
       some s.next_sampler)

/-- A sequence of sampler `Demand` calls with host sampler creation
succeeding: the final cache and the result of each call. -/
def demandSamplers (hash : SamplerInfo → Nat) (s : SamplerCache) :
    List SamplerInfo → SamplerCache × List (Option Nat)
  | [] => (s, [])
  | d :: ds =>
    let r := DemandSampler hash s d true
    let q := demandSamplers hash r.1 ds
    (q.1, r.2 :: q.2)

/-! ## Layout conversion

A buffer is a function from byte offsets to bytes; a pointer into it is an
offset.  Source and destination are different buffers (guest memory and the
staging allocation). -/

/-- Modelled from the spec: `xe::copy_and_swap_16_aligned(dest, src, count)`
(of `xenia/base/memory.h`, not among the sources), the 16-bit lane swap:
`count` 16-bit words are copied with their two bytes exchanged. -/
def copy_and_swap_16_aligned (dest : Nat → Nat) (d : Nat) (src : Nat → Nat) (p : Nat) :
    Nat → Nat → Nat
  | 0 => dest
  | n + 1 =>
    let m := copy_and_swap_16_aligned dest d src p n
    Function.update (Function.update m (d + 2 * n) (src (p + 2 * n + 1)))
      (d + 2 * n + 1) (src (p + 2 * n))

/-- Modelled from the spec: `xe::copy_and_swap_32_aligned(dest, src, count)`
(of `xenia/base/memory.h`, not among the sources), the 32-bit lane swap:
`count` 32-bit words are copied with their four bytes reversed. -/
def copy_and_swap_32_aligned (dest : Nat → Nat) (d : Nat) (src : Nat → Nat) (p : Nat) :
    Nat → Nat → Nat
  | 0 => dest
  | n + 1 =>
    let m := copy_and_swap_32_aligned dest d src p n
    Function.update (Function.update (Function.update (Function.update m
      (d + 4 * n) (src (p + 4 * n + 3)))
      (d + 4 * n + 1) (src (p + 4 * n + 2)))
      (d + 4 * n + 2) (src (p + 4 * n + 1)))
      (d + 4 * n + 3) (src (p + 4 * n))

/-- Modelled from the spec: `xe::copy_and_swap_16_in_32_aligned(dest, src, count)`
(of `xenia/base/memory.h`, not among the sources), the 16-in-32 lane swap:
`count` 32-bit words are copied with their high and low 16 bits exchanged. -/
def copy_and_swap_16_in_32_aligned (dest : Nat → Nat) (d : Nat) (src : Nat → Nat) (p : Nat) :
    Nat → Nat → Nat
  | 0 => dest
  | n + 1 =>
    let m := copy_and_swap_16_in_32_aligned dest d src p n
    Function.update (Function.update (Function.update (Function.update m
      (d + 4 * n) (src (p + 4 * n + 2)))
      (d + 4 * n + 1) (src (p + 4 * n + 3)))
      (d + 4 * n + 2) (src (p + 4 * n)))
      (d + 4 * n + 3) (src (p + 4 * n + 1))

/-- The library function `std::memcpy(dest, src, length)`. -/
def memcpy (dest : Nat → Nat) (d : Nat) (src : Nat → Nat) (p : Nat) : Nat → Nat → Nat
  | 0 => dest
  | n + 1 => Function.update (memcpy dest d src p n) (d + n) (src (p + n))

/-- The function `TextureSwap` (lines 752-769): the destination buffer after
the call with destination pointer `d` and source pointer `p`. -/
def TextureSwap (endianness : Endian) (dest : Nat → Nat) (d : Nat) (src : Nat → Nat) (p : Nat)
    (length : Nat) : Nat → Nat :=
  match endianness with
  | Endian.k8in16 => copy_and_swap_16_aligned dest d src p (length / 2)
  | Endian.k8in32 => copy_and_swap_32_aligned dest d src p (length / 4)
  | Endian.k16in32 => copy_and_swap_16_in_32_aligned dest d src p length
  | Endian.kUnspecified => memcpy dest d src p length

/-- The endianness transform of the guest bytes: the guest byte offset whose
content belongs at offset `i` of the host data. -/
def endianSource (endianness : Endian) (i : Nat) : Nat :=
  match endianness with
  | Endian.kUnspecified => i
  | Endian.k8in16 => i / 2 * 2 + (1 - i % 2)
  | Endian.k8in32 => i / 4 * 4 + (3 - i % 4)
  | Endian.k16in32 => i / 4 * 4 + (i % 4 + 2) % 4

/-- The row loop of lines 811-817, `rows` iterations from row `y` on. -/
def uploadRows (src : TextureInfo) (guest : Nat → Nat) (pitch : Nat) :
    Nat → Nat → (Nat → Nat) → Nat → Nat
  | 0, _, dest => dest
  | rows + 1, y, dest =>
    uploadRows src guest pitch rows (y + 1)
      (TextureSwap src.endianness dest (y * src.size_2d.output_pitch) guest
        (y * src.size_2d.input_pitch) pitch)

/-- The conversion of `UploadTexture2D` for a texture that is not tiled
(lines 799-818): the staging allocation after it, from the guest memory at
`host_address` and the allocation before. -/
def uploadLinear (src : TextureInfo) (guest : Nat → Nat) (staging : Nat → Nat) : Nat → Nat :=
  if src.size_2d.input_pitch = src.size_2d.output_pitch then
    TextureSwap src.endianness staging 0 guest 0 src.output_length
  else
    uploadRows src guest (min src.size_2d.input_pitch src.size_2d.output_pitch)
      (min src.size_2d.block_height src.size_2d.logical_height) 0 staging


/-- What `FreeTexture` and the release loops of `Scavenge` leave alone. -/
def FreeFrame (s r : Cache) : Prop :=
  r.next_texture = s.next_texture ∧ r.textures_ = s.textures_ ∧
  r.resolve_textures_ = s.resolve_textures_ ∧
  r.invalidated_textures_sets_0 = s.invalidated_textures_sets_0 ∧
  r.invalidated_textures_sets_1 = s.invalidated_textures_sets_1 ∧
  r.invalidated_textures_ = s.invalidated_textures_ ∧
  r.invalidated_resolve_textures_ = s.invalidated_resolve_textures_ ∧
  r.in_flight_sets_ = s.in_flight_sets_ ∧ r.freed_sets = s.freed_sets ∧
  ∀ u, (r.tex u).texture_info = (s.tex u).texture_info ∧
    (r.tex u).in_flight_fence = (s.tex u).in_flight_fence ∧
    (r.tex u).pending_invalidation = (s.tex u).pending_invalidation ∧
    (r.tex u).is_full_texture = (s.tex u).is_full_texture

/-- The table-membership invariant, with the bound that makes it inductive: no
texture of the main table is in the resolve registry, the registry has no
texture twice, and every texture of either store was allocated. -/
def TablesOk (s : Cache) : Prop :=
  (∀ e ∈ s.textures_, e.2 ∉ s.resolve_textures_) ∧ s.resolve_textures_.Nodup ∧
  (∀ e ∈ s.textures_, e.2 < s.next_texture) ∧
  (∀ t ∈ s.resolve_textures_, t < s.next_texture)

/-- Consistency of `samplers_`: the keys are distinct, every entry is stored
under the hash of its description, was created by `Demand` (its description
passed the four `switch` statements) and was allocated. -/
def SamplersOk (hash : SamplerInfo → Nat) (s : SamplerCache) : Prop :=
  (s.samplers_.map Prod.fst).Nodup ∧
  ∀ e ∈ s.samplers_, hash (s.sampler_info e.2) = e.1 ∧
    samplerHandled (s.sampler_info e.2) = true ∧ e.2 < s.next_sampler

/-- The sampler `a` is the cached sampler of the description `d`: `find` of
the hash of `d` yields `a`, and `a` carries `d`. -/
def SamplerCached (hash : SamplerInfo → Nat) (s : SamplerCache) (d : SamplerInfo)
    (a : Nat) : Prop :=
  (∃ tail, mapFind (hash d) s.samplers_ = (hash d, a) :: tail) ∧
  s.sampler_info a = d ∧ a < s.next_sampler

/-- The loop of lines 699-730 executes the division of line 710 with a zero
`input_pitch`, which is undefined in C++. -/
def lookupDividesByZero (tex : Nat → Texture) (guest_address width height : Nat)
    (out_offset : Bool) : List (Nat × Nat) → Bool
  | [] => false
  | e :: l =>
    let ti := (tex e.2).texture_info
    if lookupContains ti guest_address width height && out_offset then
      decide (ti.dimension = Dimension.k2D) && decide (ti.size_2d.input_pitch = 0)
    else if lookupExact ti guest_address width height then false
    else lookupDividesByZero tex guest_address width height out_offset l

/-! ## Concrete data -/

/-- A sample description: guest address 0x1000, 256x256, 2D, 32 bits per
pixel in 1x1 blocks, linear, rows of 1024 bytes. -/
def info256 : TextureInfo :=
  { guest_address := 0x1000, input_length := 262144, dimension := Dimension.k2D
    width := 255, height := 255, depth := 0
    format_info := ⟨6, 1, 1, 32⟩
    endianness := Endian.k8in32, is_tiled := false, output_length := 262144
    size_2d := ⟨256, 256, 256, 256, 256, 256, 1024, 256, 256, 1024⟩ }

/-- A sample description at another guest address, 64x64. -/
def info64 : TextureInfo :=
  { guest_address := 0x80000, input_length := 16384, dimension := Dimension.k2D
    width := 63, height := 63, depth := 0
    format_info := ⟨6, 1, 1, 32⟩
    endianness := Endian.k8in32, is_tiled := false, output_length := 16384
    size_2d := ⟨64, 64, 64, 64, 64, 64, 256, 64, 64, 256⟩ }

/-- A sample hash that collides for every pair of descriptions. -/
def hashConst : TextureInfo → Nat := fun _ => 7

/-- A sample hash: the guest address. -/
def hashAddress : TextureInfo → Nat := fun d => d.guest_address

/-- A fence status: no fence is signaled. -/
def nonePassed : Nat → Bool := fun _ => false

/-- A fence status: fence 1 is signaled, every other fence is not. -/
def onePassed : Nat → Bool := fun f => decide (f = 1)

/-- The state after `op`, or the empty cache when the call has no result. -/
def stateOf (r : Option (Cache × Nat × Option (Nat × Nat))) : Cache :=
  match r with
  | some x => x.1
  | none => Cache.empty

/-- The cache after `DemandResolveTexture(info256)` on the empty cache:
texture 0 is in the resolve registry, watched by watch 1. -/
def cacheResolved : Cache :=
  stateOf (DemandResolveTexture Cache.empty info256 false true)

/-- The cache `cacheResolved` after the guest wrote into the texture's range:
watch 1 has fired. -/
def cacheTouched : Cache := fireWatch cacheResolved 1

/-- A cache with two descriptor sets in flight, set 10 on fence 1 and set 11 on
fence 2, and three textures pending deletion, of which texture 1 is in flight
on fence 2. -/
def cacheInFlight : Cache :=
  { Cache.empty with
      tex := Function.update (fun _ => Texture.zero info64) 1
        { Texture.zero info256 with in_flight_fence := some 2 }
      next_texture := 3
      pending_delete_textures_ := [0, 1, 2]
      in_flight_sets_ := [(10, 1), (11, 2)] }

/-- A compressed description at the address and with the logical size of
`info256`: 4x4 blocks of 8 bytes, 64x64 blocks. -/
def info256dxt : TextureInfo :=
  { guest_address := 0x1000, input_length := 32768, dimension := Dimension.k2D
    width := 255, height := 255, depth := 0
    format_info := ⟨18, 4, 4, 4⟩
    endianness := Endian.k8in16, is_tiled := false, output_length := 32768
    size_2d := ⟨256, 256, 64, 64, 256, 256, 512, 256, 256, 512⟩ }

/-- The cache after `DemandResolveTexture(info256)` and then
`DemandResolveTexture(info256dxt)`: the registry holds texture 0 and texture 1. -/
def cacheTwoResolved : Cache :=
  stateOf (DemandResolveTexture cacheResolved info256dxt false true)

/-- The cache after `DemandResolveTexture(info256)`, `DemandResolveTexture(info64)`
and `Demand(info256)`: texture 0 is in the main table, texture 1 in the registry. -/
def cachePromoted : Cache :=
  (Demand hashAddress nonePassed
    (stateOf (DemandResolveTexture cacheResolved info64 false true)) info256 false true).1

/-- The cache after `Demand(info256)` with a command buffer on the empty
cache, under the hash that always collides. -/
def cacheCollide : Cache :=
  (Demand hashConst nonePassed Cache.empty info256 true true).1

/-- A linear 64x1 description of 32-bit texels tagged 16-in-32: one row of
256 bytes, equal input and output pitch. -/
def info16in32 : TextureInfo :=
  { guest_address := 0x2000, input_length := 256, dimension := Dimension.k2D
    width := 63, height := 0, depth := 0
    format_info := ⟨6, 1, 1, 32⟩
    endianness := Endian.k16in32, is_tiled := false, output_length := 256
    size_2d := ⟨64, 1, 64, 1, 64, 1, 256, 64, 1, 256⟩ }

/-- Sample guest memory: the byte at offset `i` is `i % 251 + 1`, never zero. -/
def guestBytes : Nat → Nat := fun i => i % 251 + 1

/-- A staging allocation filled with zero bytes. -/
def zeroBytes : Nat → Nat := fun _ => 0

/-- A sample sampler description: point filters, repeat, no anisotropy. -/
def samplerPoint : SamplerInfo :=
  ⟨TextureFilter.kPoint, TextureFilter.kPoint, TextureFilter.kPoint,
   ClampMode.kRepeat, ClampMode.kRepeat, ClampMode.kRepeat, AnisoFilter.kDisabled⟩

/-- A sample sampler description: linear filters, clamp to edge. -/
def samplerLinear : SamplerInfo :=
  ⟨TextureFilter.kLinear, TextureFilter.kLinear, TextureFilter.kLinear,
   ClampMode.kClampToEdge, ClampMode.kClampToEdge, ClampMode.kClampToEdge,
   AnisoFilter.kDisabled⟩

/-- A sample sampler hash that collides for every pair of descriptions. -/
def samplerHashConst : SamplerInfo → Nat := fun _ => 0

/-- A sample sampler hash that tells `samplerPoint` from the other descriptions. -/
def samplerHashFilter : SamplerInfo → Nat :=
  fun d => if d.min_filter = TextureFilter.kPoint then 0 else 1

/-- The description `info256` declared as a cube map. -/
def info256cube : TextureInfo :=
  { info256 with dimension := Dimension.kCube }

/-- The cache after `Demand(info256)` with a command buffer on the empty
cache: texture 0 is in the main table under the guest address. -/
def cacheUploaded : Cache :=
  (Demand hashAddress nonePassed Cache.empty info256 true true).1

/-- A linear 64x2 description of 32-bit texels tagged 16-in-32 whose rows are
256 bytes in guest memory and 512 bytes in the staging allocation. -/
def info16in32rows : TextureInfo :=
  { guest_address := 0x2000, input_length := 512, dimension := Dimension.k2D
    width := 63, height := 1, depth := 0
    format_info := ⟨6, 1, 1, 32⟩
    endianness := Endian.k16in32, is_tiled := false, output_length := 1024
    size_2d := ⟨64, 2, 64, 2, 64, 2, 256, 128, 2, 512⟩ }

/-- Under the address hash: `Demand(info256)` caches texture 0, `Demand(info64)`
caches texture 1, then the watch of texture 0 fires. -/
def cacheOneTouched : Cache :=
  fireWatch (Demand hashAddress nonePassed cacheUploaded info64 true true).1 1

/-! ## Views -/

/-- The host enumeration `VkComponentSwizzle`: the enumerants `DemandView` names. -/
inductive VkComponentSwizzle where
  | R
  | G
  | B
  | A
  | ZERO
  | ONE
  | IDENTITY
  deriving DecidableEq, Repr

/-- The local array `swiz_component_map` of `DemandView` (lines 524-529): it
has seven entries. -/
def swiz_component_map : List VkComponentSwizzle :=
  [VkComponentSwizzle.R, VkComponentSwizzle.G, VkComponentSwizzle.B, VkComponentSwizzle.A,
   VkComponentSwizzle.ZERO, VkComponentSwizzle.ONE, VkComponentSwizzle.IDENTITY]

/-- The index of the lookup for the field at bit `shift` (lines 532-535):
`(swizzle >> shift) & 0x7`. -/
def swizzleField (swizzle shift : Nat) : Nat := (swizzle >>> shift) &&& 7

/-- The four lookups of lines 531-536; `none` when one of them reads outside
`swiz_component_map`, which is undefined in C++. -/
def viewComponents (swizzle : Nat) :
    Option (VkComponentSwizzle × VkComponentSwizzle × VkComponentSwizzle × VkComponentSwizzle) :=
  match swiz_component_map[swizzleField swizzle 0]?, swiz_component_map[swizzleField swizzle 3]?,
      swiz_component_map[swizzleField swizzle 6]?, swiz_component_map[swizzleField swizzle 9]? with
  | some r, some g, some b, some a => some (r, g, b, a)
  | _, _, _, _ => none

/-- An entry of `texture->views`: the swizzle it was made for and its host view. -/
structure TextureView where
  swizzle : Nat
  view : Nat
  deriving DecidableEq, Repr

/-- The function `DemandView` (lines 492-551) on the views of one texture.
`next_view` is the handle `vkCreateImageView` returns when it succeeds
(`view_ok`).  The result is `none` when a lookup reads outside
`swiz_component_map`; otherwise the views afterwards and the view returned
(`none` for `nullptr`). -/
def DemandView (views : List TextureView) (swizzle : Nat) (view_ok : Bool) (next_view : Nat) :
    Option (List TextureView × Option TextureView) :=
  match views.find? (fun v => v.swizzle = swizzle) with
  | some v => some (views, some v)
  | none =>
    match viewComponents swizzle with
    | none => none
    | some _ =>
      if view_ok then
        some (views ++ [{ swizzle := swizzle, view := next_view }],
          some { swizzle := swizzle, view := next_view })
      else
        some (views, none)

/-! ## The binding-table builder -/

/-- A texture binding of a shader (`Shader::TextureBinding`): the index of the
fetch constant and the fetch instruction that uses it. -/
structure TextureBinding where
  fetch_constant : Nat
  fetch_instr : Nat
  deriving DecidableEq, Repr

/-- Modelled from the spec: the guest register file as `SetupTextureBinding`
reads it.  For the fetch constant `i`: its type tag `fetch.type`, its swizzle
`fetch.swizzle`, the result of `TextureInfo::Prepare(fetch, ...)` and, for a
fetch instruction, the result of `SamplerInfo::Prepare(fetch, instr, ...)`
(`none` when decoding fails).  The register file and the two decoders are not
among the sources. -/
structure RegisterFile where
  fetch_type : Nat → Nat
  swizzle : Nat → Nat
  texture_info : Nat → Option TextureInfo
  sampler_info : Nat → Nat → Option SamplerInfo

/-- What surrounds one call of the builder: the caller's command buffer and
completion fence, the fence status, the outcome of the host calls, and whether
assertions are compiled in (`assert_true` aborts when they are). -/
structure Host where
  command_buffer : Bool
  completion_fence : Nat
  signaled : Nat → Bool
  texture_ok : Bool
  sampler_ok : Bool
  view_ok : Bool
  set_ok : Bool
  asserts : Bool

/-- The host structure `VkDescriptorImageInfo` as line 1084-1086 fill it; the
image layout, a host state, is left out. -/
structure VkDescriptorImageInfo where
  imageView : Nat
  sampler : Nat
  deriving DecidableEq, Repr

/-- An element of `update_set_info->image_infos` (lines 1080-1086). -/
structure ImageSetInfo where
  dimension : Dimension
  tf_binding : Nat
  info : VkDescriptorImageInfo
  deriving DecidableEq, Repr

/-- The structure `UpdateSetInfo`: the mask of fetch constants already set up
and the first `image_write_count` elements of `image_infos`. -/
structure UpdateSetInfo where
  has_setup_fetch_mask : Nat
  image_infos : List ImageSetInfo
  deriving DecidableEq, Repr

/-- The local structure `DescriptorInfo` of `PrepareTextureSet` (lines 945-949). -/
structure DescriptorInfo where
  dimension : Dimension
  tf_binding_base : Nat
  infos : List VkDescriptorImageInfo
  deriving DecidableEq, Repr

/-- The fields of `VkWriteDescriptorSet` that lines 983-1004 set apart from
constants. -/
structure VkWriteDescriptorSet where
  dstSet : Nat
  dstBinding : Nat
  dstArrayElement : Nat
  descriptorCount : Nat
  pImageInfo : List VkDescriptorImageInfo
  deriving DecidableEq, Repr

/-- The whole state the builder works on: the texture cache, the sampler cache,
the views of each texture (`texture->views`), the handles of the next host view
and descriptor set, `update_set_info_`, and the log of the bindings
`SetupTextureBinding` was called for.  The views are kept beside the heap of
textures: the default view `AllocateTexture` pushes and the erasure of the
views in `FreeTexture` are not part of the embedding. -/
structure DrawState where
  cache : Cache
  samplers : SamplerCache
  views : Nat → List TextureView
  next_view : Nat
  next_set : Nat
  update_set_info : UpdateSetInfo
  setup_calls : List TextureBinding

/-- The function `SetupTextureBinding` (lines 1035-1090).  The result is `none`
when the run aborts or is undefined: the assertion of line 1054 fails with
assertions compiled in, `DemandView` reads outside its table, or `DemandView`
returns `nullptr`, which line 1084 dereferences. -/
def SetupTextureBinding (hash : TextureInfo → Nat) (sampler_hash : SamplerInfo → Nat)
    (regs : RegisterFile) (host : Host) (st : DrawState) (binding : TextureBinding) :
    Option (DrawState × Bool) :=
  if regs.fetch_type binding.fetch_constant = 0 then some (st, true)
  else if host.asserts && decide (regs.fetch_type binding.fetch_constant ≠ 2) then none
  else
    match regs.texture_info binding.fetch_constant with
    | none => some (st, false)
    | some texture_info =>
      match regs.sampler_info binding.fetch_constant binding.fetch_instr with
      | none => some (st, false)
      | some sampler_info =>
        let rt := Demand hash host.signaled st.cache texture_info host.command_buffer
          host.texture_ok
        let rs := DemandSampler sampler_hash st.samplers sampler_info host.sampler_ok
        let st1 : DrawState := { st with cache := rt.1, samplers := rs.1 }
        match rt.2, rs.2 with
        | some texture, some sampler =>
          match DemandView (st1.views texture)
              (regs.swizzle binding.fetch_constant % 2 ^ 16) host.view_ok st1.next_view with
          | none => none
          | some (_, none) => none
          | some (views, some view) =>
            some ({ st1 with
                cache := setInFlightFence st1.cache texture host.completion_fence
                views := Function.update st1.views texture views
                next_view := st1.next_view + 1
                update_set_info :=
                  { st1.update_set_info with
                      image_infos := st1.update_set_info.image_infos ++
                        [{ dimension := texture_info.dimension
                           tf_binding := binding.fetch_constant
                           info := { imageView := view.view, sampler := sampler } }] } },
              true)
        | _, _ => some (st1, false)

/-- The loop of `SetupTextureBindings` (lines 1022-1031) with the value of
`any_failed` so far; the result carries `!any_failed`. -/
def setupBindingsLoop (hash : TextureInfo → Nat) (sampler_hash : SamplerInfo → Nat)
    (regs : RegisterFile) (host : Host) :
    DrawState → Bool → List TextureBinding → Option (DrawState × Bool)
  | st, any_failed, [] => some (st, !any_failed)
  | st, any_failed, binding :: rest =>
    if st.update_set_info.has_setup_fetch_mask &&& u32 (1 <<< binding.fetch_constant) = 0 then
      match SetupTextureBinding hash sampler_hash regs host
          { st with setup_calls := st.setup_calls ++ [binding] } binding with
      | none => none
      | some r =>
        setupBindingsLoop hash sampler_hash regs host
          { r.1 with
              update_set_info :=
                { r.1.update_set_info with
                    has_setup_fetch_mask :=
                      r.1.update_set_info.has_setup_fetch_mask |||
                        u32 (1 <<< binding.fetch_constant) } }
          (!r.2 || any_failed) rest
    else
      setupBindingsLoop hash sampler_hash regs host st any_failed rest

/-- The function `SetupTextureBindings` (lines 1016-1033). -/
def SetupTextureBindings (hash : TextureInfo → Nat) (sampler_hash : SamplerInfo → Nat)
    (regs : RegisterFile) (host : Host) (st : DrawState) (bindings : List TextureBinding) :
    Option (DrawState × Bool) :=
  setupBindingsLoop hash sampler_hash regs host st false bindings

/-- The body of the loop of lines 952-973: pool the element into the last
entry of `descriptor_update_infos` when it has the same dimension and the next
slot, push a new entry otherwise. -/
def poolWrite (image_info : ImageSetInfo) : List DescriptorInfo → List DescriptorInfo
  | [] =>
    [{ dimension := image_info.dimension, tf_binding_base := image_info.tf_binding
       infos := [image_info.info] }]
  | [last_write] =>
    if last_write.dimension = image_info.dimension ∧
        last_write.tf_binding_base + last_write.infos.length = image_info.tf_binding then
      [{ last_write with infos := last_write.infos ++ [image_info.info] }]
    else
      [last_write,
       { dimension := image_info.dimension, tf_binding_base := image_info.tf_binding
         infos := [image_info.info] }]
  | d :: d' :: rest => d :: poolWrite image_info (d' :: rest)

/-- The loop of lines 952-973: `descriptor_update_infos` for the recorded
elements. -/
def descriptorUpdateInfos (image_infos : List ImageSetInfo) : List DescriptorInfo :=
  image_infos.foldl (fun acc image_info => poolWrite image_info acc) []

/-- The loop of lines 978-1005: one `VkWriteDescriptorSet` per entry. -/
def descriptorWrites (descriptor_set : Nat) (infos : List DescriptorInfo) :
    List VkWriteDescriptorSet :=
  infos.map (fun update_info =>
    { dstSet := descriptor_set
      dstBinding :=
        match update_info.dimension with
        | Dimension.k1D => 0
        | Dimension.k2D => 1
        | Dimension.k3D => 2
        | Dimension.kCube => 3
      dstArrayElement := update_info.tf_binding_base
      descriptorCount := update_info.infos.length
      pImageInfo := update_info.infos })

/-- The function `PrepareTextureSet` (lines 899-1014): the state afterwards,
the descriptor set returned (`none` for `nullptr`) and the writes handed to
`vkUpdateDescriptorSets`.  The result is `none` when a `SetupTextureBinding`
call has no result. -/
def PrepareTextureSet (hash : TextureInfo → Nat) (sampler_hash : SamplerInfo → Nat)
    (regs : RegisterFile) (host : Host) (st : DrawState)
    (vertex_bindings pixel_bindings : List TextureBinding) :
    Option (DrawState × Option Nat × List VkWriteDescriptorSet) :=
  let st0 : DrawState :=
    { st with update_set_info := { has_setup_fetch_mask := 0, image_infos := [] } }
  match SetupTextureBindings hash sampler_hash regs host st0 vertex_bindings with
  | none => none
  | some r1 =>
    match SetupTextureBindings hash sampler_hash regs host r1.1 pixel_bindings with
    | none => none
    | some r2 =>
      if !host.set_ok then some (r2.1, none, [])
      else
        some ({ r2.1 with
            cache :=
              { r2.1.cache with
                  in_flight_sets_ := r2.1.cache.in_flight_sets_ ++
                    [(r2.1.next_set, host.completion_fence)] }
            next_set := r2.1.next_set + 1 },
          some r2.1.next_set,
          descriptorWrites r2.1.next_set
            (descriptorUpdateInfos r2.1.update_set_info.image_infos))

/-- The bindings of a sequence whose fetch constant does not occur earlier in
the sequence nor in `seen`: the first occurrence of each fetch-slot index. -/
def firstOccurrences (seen : List Nat) : List TextureBinding → List TextureBinding
  | [] => []
  | b :: rest =>
    if b.fetch_constant ∈ seen then firstOccurrences seen rest
    else b :: firstOccurrences (b.fetch_constant :: seen) rest

/-- The entry of `descriptor_update_infos` that pools a run of recorded
elements: the dimension and slot of its first element and the `info` of all. -/
def batchOfRun (r : ImageSetInfo × List ImageSetInfo) : DescriptorInfo :=
  { dimension := r.1.dimension, tf_binding_base := r.1.tf_binding
    infos := (r.1 :: r.2).map (fun e => e.info) }

/-- The element could have been pooled into the run: same dimension, and its
slot is the base of the run plus the size of the run. -/
def continuesRun (r : ImageSetInfo × List ImageSetInfo) (e : ImageSetInfo) : Prop :=
  r.1.dimension = e.dimension ∧ r.1.tf_binding + (r.2.length + 1) = e.tf_binding

/-- The runs are a partition of the elements into consecutive, well-formed and
maximal runs. -/
def RunsOf (runs : List (ImageSetInfo × List ImageSetInfo)) (entries : List ImageSetInfo) :
    Prop :=
  runs.flatMap (fun r => r.1 :: r.2) = entries ∧
  (∀ r ∈ runs, ∀ (k : Nat) (e : ImageSetInfo), (r.1 :: r.2)[k]? = some e →
    e.dimension = r.1.dimension ∧ e.tf_binding = r.1.tf_binding + k) ∧
  List.Chain' (fun r1 r2 => ¬ continuesRun r1 r2.1) runs

/-- The low 32 bits of the mask mark exactly the fetch constants of `seen`. -/
def MaskMarks (mask : Nat) (seen : List Nat) : Prop :=
  ∀ i, i < 32 → (mask.testBit i = true ↔ i ∈ seen)

/-- Consistency of the registered watches with the handles the textures store:
handles are positive, below `next_watch` and pairwise distinct; the payload of
a watch is an allocated texture that stores the handle of the watch; and a
texture that stores a non-zero handle is the payload of the watch with that
handle. -/
def WatchesOk (s : Cache) : Prop :=
  0 < s.next_watch ∧
  (s.watches.map (fun w => w.handle)).Nodup ∧
  (∀ w ∈ s.watches, 0 < w.handle ∧ w.handle < s.next_watch ∧ w.texture < s.next_texture ∧
    (s.tex w.texture).access_watch_handle = w.handle) ∧
  (∀ t, (s.tex t).access_watch_handle ≠ 0 →
    ∃ w ∈ s.watches, w.handle = (s.tex t).access_watch_handle ∧ w.texture = t)

/-- Consistency of the main table: the keys are distinct and every entry is
stored under the hash of the description of its texture. -/
def MainTableOk (hash : TextureInfo → Nat) (s : Cache) : Prop :=
  (s.textures_.map Prod.fst).Nodup ∧
  ∀ e ∈ s.textures_, e.1 = hash (s.tex e.2).texture_info

/-- A sample register file: fetch constant 0 is disabled (type tag 0), the
others are texture fetches (type tag 2) with the swizzle 0x688; constant 1
decodes to `info256`, constant 2 to `info64`, the others do not decode; every
sampler decodes to `samplerPoint`. -/
def regsSample : RegisterFile :=
  { fetch_type := fun i => if i = 0 then 0 else 2
    swizzle := fun _ => 0x688
    texture_info := fun i =>
      if i = 1 then some info256 else if i = 2 then some info64 else none
    sampler_info := fun _ _ => some samplerPoint }

/-- A sample surrounding: a command buffer, fence 1, no fence signaled, every
host call succeeds, assertions compiled in. -/
def hostSample : Host :=
  { command_buffer := true, completion_fence := 1, signaled := nonePassed
    texture_ok := true, sampler_ok := true, view_ok := true, set_ok := true
    asserts := true }

/-- The state of the builder right after the constructor. -/
def drawEmpty : DrawState :=
  { cache := Cache.empty, samplers := SamplerCache.empty, views := fun _ => []
    next_view := 0, next_set := 0
    update_set_info := { has_setup_fetch_mask := 0, image_infos := [] }
    setup_calls := [] }

/-! ## The size class of the de-tiler -/

/-- The value `bytes_per_block` of lines 826-828, for the format of the
description (in `uint32_t`). -/
def bytesPerBlock (format_info : FormatInfo) : Nat :=
  u32 (u32 (u32 (format_info.block_width * format_info.block_height) *
    format_info.bits_per_pixel) / 8)

/-- The value `bpp` of lines 834-835:
`(bytes_per_block >> 2) + ((bytes_per_block >> 1) >> (bytes_per_block >> 2))`. -/
def tiledBpp (bytes_per_block : Nat) : Nat :=
  (bytes_per_block >>> 2) + ((bytes_per_block >>> 1) >>> (bytes_per_block >>> 2))

/-! ## More concrete data -/

/-- The cache `cacheTouched` after `Demand(info256)`: the touched resolve
texture 0 was promoted to the main table and got watch 2. -/
def cacheStalePromoted : Cache :=
  (Demand hashAddress nonePassed cacheTouched info256 false true).1

/-- The cache `cacheStalePromoted` after `Scavenge`. -/
def cacheStaleScavenged : Cache :=
  Scavenge hashAddress nonePassed cacheStalePromoted

/-- The cache `cacheStalePromoted` after watch 2 fired too, and then `Scavenge`. -/
def cacheStaleTwice : Cache :=
  Scavenge hashAddress nonePassed (fireWatch cacheStalePromoted 2)

/-- The cache `cacheStalePromoted` after `Demand(info64)` cached texture 1 with
watch 3, texture 1 was tied to fence 5, and the watches 2 and 3 fired. -/
def cacheTwoTouched : Cache :=
  fireWatch
    (fireWatch
      (setInFlightFence
        (Demand hashAddress nonePassed cacheStalePromoted info64 true true).1 1 5) 2) 3

/-- The cache `cacheTwoTouched` after `Scavenge`. -/
def cacheQueuedTwice : Cache :=
  Scavenge hashAddress nonePassed cacheTwoTouched

/-- The cache `cacheStaleScavenged` after a second `Scavenge`: texture 0 was
deleted while its entry is still in the main table. -/
def cacheDangling : Cache :=
  Scavenge hashAddress nonePassed cacheStaleScavenged

/-- The cache `cacheDangling` in which `new Texture()` (line 253) returns the
address of the deleted texture 0 again: after `Demand(info64)`, which gets that
address, and after the watch 3 registered for it fired. -/
def cacheReused : Cache :=
  fireWatch
    (Demand hashAddress nonePassed { cacheDangling with next_texture := 0 } info64 true true).1 3

/-! ## A guest write during the registration of a watch -/

/-- The function `DemandResolveTexture` (lines 315-350) with the assignment
`texture->access_watch_handle = memory_->AddPhysicalAccessWatch(...)` of line
331 in its two steps: the call returns with the watch registered, then the
returned handle is stored.  `touched` tells whether a guest write fires the new
watch between the two; the callback runs on another thread. -/
def DemandResolveTextureWindow (s : Cache) (texture_info : TextureInfo) (out_offset : Bool)
    (host_ok : Bool) (touched : Bool) : Option (Cache × Nat × Option (Nat × Nat)) :=
  match LookupAddress s texture_info.guest_address texture_info.size_2d.block_width
      texture_info.size_2d.block_height out_offset with
  | some r => some (s, r.1, r.2)
  | none =>
    match AllocateTexture s texture_info host_ok with
    | (_, none) => none
    | (s1, some texture) =>
      let s2 : Cache :=
        { s1 with
            tex := Function.update s1.tex texture
              { s1.tex texture with is_full_texture := false } }
      let r := AddPhysicalAccessWatch s2 texture true
      let r1 : Cache := if touched then fireWatch r.1 r.2 else r.1
      let s3 : Cache :=
        { r1 with
            tex := Function.update r1.tex texture
              { r1.tex texture with access_watch_handle := r.2 } }
      some ({ s3 with resolve_textures_ := s3.resolve_textures_ ++ [texture] }, texture, none)

/-- The cache after `DemandResolveTexture(info256)` on the empty cache with a
guest write into the range while line 331 runs. -/
def cacheEarlyTouch : Cache :=
  stateOf (DemandResolveTextureWindow Cache.empty info256 false true true)

/-! # Theorems

## Release of textures and descriptor sets -/

theorem FreeFrame.refl (s : Cache) : FreeFrame s s := by
  simp [FreeFrame]

theorem FreeFrame.trans {a b c : Cache} (h1 : FreeFrame a b) (h2 : FreeFrame b c) :
    FreeFrame a c := by
  obtain ⟨a1, a2, a3, a4, a5, a6, a7, a8, a9, a10⟩ := h1
  obtain ⟨b1, b2, b3, b4, b5, b6, b7, b8, b9, b10⟩ := h2
  refine ⟨by rw [b1, a1], by rw [b2, a2], by rw [b3, a3], by rw [b4, a4], by rw [b5, a5],
    by rw [b6, a6], by rw [b7, a7], by rw [b8, a8], by rw [b9, a9], fun u => ?_⟩
  obtain ⟨c1, c2, c3, c4⟩ := a10 u
  obtain ⟨d1, d2, d3, d4⟩ := b10 u
  exact ⟨by rw [d1, c1], by rw [d2, c2], by rw [d3, c3], by rw [d4, c4]⟩

theorem FreeTexture_frame (signaled : Nat → Bool) (s : Cache) (t : Nat) :
    FreeFrame s (FreeTexture signaled s t).1 := by
  unfold FreeTexture
  split_ifs with h hw
  · exact FreeFrame.refl s
  · simp only [FreeFrame, CancelAccessWatch, true_and]
    intro u
    by_cases hu : u = t
    · subst hu; simp
    · simp [Function.update_noteq hu]
  · simp [FreeFrame]

theorem inFlight_of_frame {s r : Cache} (h : FreeFrame s r) (signaled : Nat → Bool) (u : Nat) :
    inFlight signaled r u = inFlight signaled s u := by
  unfold inFlight
  rw [(h.2.2.2.2.2.2.2.2.2 u).2.1]

theorem FreeTexture_refuses (signaled : Nat → Bool) (s : Cache) (t : Nat)
    (h : inFlight signaled s t = true) : FreeTexture signaled s t = (s, false) := by
  simp [FreeTexture, h]

theorem FreeTexture_frees (signaled : Nat → Bool) (s : Cache) (t : Nat)
    (h : inFlight signaled s t = false) :
    (FreeTexture signaled s t).2 = true ∧
    (FreeTexture signaled s t).1.deleted_textures = s.deleted_textures ++ [t] ∧
    (FreeTexture signaled s t).1.pending_delete_textures_ = s.pending_delete_textures_ := by
  unfold FreeTexture
  by_cases hw : (s.tex t).access_watch_handle = 0
  · simp [h, hw]
  · simp [h, hw, CancelAccessWatch]

theorem scavengeSets_eq (signaled : Nat → Bool) (l : List (Nat × Nat)) :
    ∀ s : Cache, scavengeSets signaled s l =
      { s with
          in_flight_sets_ := l.dropWhile (fun e => signaled e.2)
          freed_sets := s.freed_sets ++ (l.takeWhile (fun e => signaled e.2)).map Prod.fst } := by
  induction l with
  | nil => intro s; simp [scavengeSets]
  | cons e l ih =>
    intro s
    by_cases h : signaled e.2 = true
    · simp [scavengeSets, h, ih]
    · simp [scavengeSets, h]

theorem scavengePendingDelete_spec (signaled : Nat → Bool) (l : List Nat) :
    ∀ s : Cache,
      FreeFrame s (scavengePendingDelete signaled s l) ∧
      (scavengePendingDelete signaled s l).pending_delete_textures_ =
        l.dropWhile (fun t => !inFlight signaled s t) ∧
      (scavengePendingDelete signaled s l).deleted_textures =
        s.deleted_textures ++ l.takeWhile (fun t => !inFlight signaled s t) := by
  induction l with
  | nil =>
    intro s
    simp [scavengePendingDelete, FreeFrame]
  | cons t l ih =>
    intro s
    by_cases h : inFlight signaled s t = true
    · simp [scavengePendingDelete, FreeTexture_refuses signaled s t h, h, FreeFrame]
    · have h' : inFlight signaled s t = false := by simpa using h
      obtain ⟨f1, f2, _⟩ := FreeTexture_frees signaled s t h'
      have hf := FreeTexture_frame signaled s t
      obtain ⟨i1, i2, i3⟩ := ih (FreeTexture signaled s t).1
      have hfl : (fun u => !inFlight signaled (FreeTexture signaled s t).1 u) =
          (fun u => !inFlight signaled s u) := by
        funext u; rw [inFlight_of_frame hf]
      simp only [scavengePendingDelete, f1, if_true]
      refine ⟨hf.trans i1, ?_, ?_⟩
      · rw [i2, hfl]; simp [h']
      · rw [i3, hfl, f2]; simp [h']

theorem scavengeInvalidated_eq (hash : TextureInfo → Nat) (l : List Nat) :
    ∀ s : Cache, scavengeInvalidated hash s l =
      { s with
          pending_delete_textures_ := s.pending_delete_textures_ ++ l
          textures_ :=
            l.foldl (fun m t => mapErase (hash (s.tex t).texture_info) m) s.textures_ } := by
  induction l with
  | nil => intro s; simp [scavengeInvalidated]
  | cons t l ih => intro s; simp [scavengeInvalidated, ih]

theorem scavengeInvalidatedResolve_eq (l : List Nat) :
    ∀ s : Cache, scavengeInvalidatedResolve s l =
      { s with
          pending_delete_textures_ := s.pending_delete_textures_ ++ l
          resolve_textures_ := l.foldl (fun m t => m.erase t) s.resolve_textures_ } := by
  induction l with
  | nil => intro s; simp [scavengeInvalidatedResolve]
  | cons t l ih => intro s; simp [scavengeInvalidatedResolve, ih]

theorem mapErase_sublist (key : Nat) (m : List (Nat × Nat)) : (mapErase key m).Sublist m := by
  induction m with
  | nil => simp [mapErase]
  | cons e m ih =>
    unfold mapErase
    split_ifs
    · exact List.sublist_cons_self e m
    · exact ih.cons₂ e

theorem foldl_mapErase_sublist (f : Nat → Nat) (l : List Nat) :
    ∀ m : List (Nat × Nat), (l.foldl (fun m t => mapErase (f t) m) m).Sublist m := by
  induction l with
  | nil => intro m; simp
  | cons t l ih =>
    intro m
    simp only [List.foldl_cons]
    exact (ih _).trans (mapErase_sublist _ _)

theorem foldl_erase_sublist (l : List Nat) :
    ∀ m : List Nat, (l.foldl (fun m t => m.erase t) m).Sublist m := by
  induction l with
  | nil => intro m; simp
  | cons t l ih =>
    intro m
    simp only [List.foldl_cons]
    exact (ih _).trans (List.erase_sublist t m)

/-- The main-table buffer `Scavenge` drains: the one `invalidated_textures_`
points to. -/
theorem scavengeSwapAndDrain_eq (hash : TextureInfo → Nat) (s : Cache) :
    scavengeSwapAndDrain hash s =
      { s with
          pending_delete_textures_ := s.pending_delete_textures_ ++
            (if s.invalidated_textures_ then s.invalidated_textures_sets_1
             else s.invalidated_textures_sets_0)
          textures_ :=
            (if s.invalidated_textures_ then s.invalidated_textures_sets_1
             else s.invalidated_textures_sets_0).foldl
              (fun m t => mapErase (hash (s.tex t).texture_info) m) s.textures_
          invalidated_textures_ := !s.invalidated_textures_
          invalidated_textures_sets_0 :=
            if s.invalidated_textures_ then s.invalidated_textures_sets_0 else []
          invalidated_textures_sets_1 :=
            if s.invalidated_textures_ then [] else s.invalidated_textures_sets_1 } := by
  unfold scavengeSwapAndDrain
  by_cases h : s.invalidated_textures_ = true
  · simp [h, scavengeInvalidated_eq]
  · simp [h, scavengeInvalidated_eq]

/-- The texture lists of the pre-state that `Scavenge` moves to
`pending_delete_textures_`. -/
theorem Scavenge_fields (hash : TextureInfo → Nat) (signaled : Nat → Bool) (s : Cache) :
    (Scavenge hash signaled s).in_flight_sets_ =
        s.in_flight_sets_.dropWhile (fun e => signaled e.2) ∧
    (Scavenge hash signaled s).freed_sets =
        s.freed_sets ++ (s.in_flight_sets_.takeWhile (fun e => signaled e.2)).map Prod.fst ∧
    (Scavenge hash signaled s).pending_delete_textures_ =
        s.pending_delete_textures_.dropWhile (fun t => !inFlight signaled s t) ++
          (if s.invalidated_textures_ then s.invalidated_textures_sets_1
           else s.invalidated_textures_sets_0) ++ s.invalidated_resolve_textures_ ∧
    (Scavenge hash signaled s).deleted_textures =
        s.deleted_textures ++
          s.pending_delete_textures_.takeWhile (fun t => !inFlight signaled s t) ∧
    (Scavenge hash signaled s).next_texture = s.next_texture ∧
    (Scavenge hash signaled s).textures_.Sublist s.textures_ ∧
    (Scavenge hash signaled s).resolve_textures_.Sublist s.resolve_textures_ ∧
    ∀ u, ((Scavenge hash signaled s).tex u).texture_info = (s.tex u).texture_info ∧
      ((Scavenge hash signaled s).tex u).pending_invalidation =
        (s.tex u).pending_invalidation := by
  simp only [Scavenge, scavengeSwapAndDrain_eq, scavengeInvalidatedResolve_eq]
  have e1 := scavengeSets_eq signaled s.in_flight_sets_ s
  have k1 : (scavengeSets signaled s s.in_flight_sets_).pending_delete_textures_ =
      s.pending_delete_textures_ := by rw [e1]
  have k2 : (scavengeSets signaled s s.in_flight_sets_).deleted_textures =
      s.deleted_textures := by rw [e1]
  have k3 : (scavengeSets signaled s s.in_flight_sets_).tex = s.tex := by rw [e1]
  have k4 : (scavengeSets signaled s s.in_flight_sets_).next_texture = s.next_texture := by
    rw [e1]
  have k5 : (scavengeSets signaled s s.in_flight_sets_).textures_ = s.textures_ := by rw [e1]
  have k6 : (scavengeSets signaled s s.in_flight_sets_).resolve_textures_ =
      s.resolve_textures_ := by rw [e1]
  have k7 : (scavengeSets signaled s s.in_flight_sets_).invalidated_textures_sets_0 =
      s.invalidated_textures_sets_0 := by rw [e1]
  have k8 : (scavengeSets signaled s s.in_flight_sets_).invalidated_textures_sets_1 =
      s.invalidated_textures_sets_1 := by rw [e1]
  have k9 : (scavengeSets signaled s s.in_flight_sets_).invalidated_textures_ =
      s.invalidated_textures_ := by rw [e1]
  have k10 : (scavengeSets signaled s s.in_flight_sets_).invalidated_resolve_textures_ =
      s.invalidated_resolve_textures_ := by rw [e1]
  have k11 : (scavengeSets signaled s s.in_flight_sets_).in_flight_sets_ =
      s.in_flight_sets_.dropWhile (fun e => signaled e.2) := by rw [e1]
  have k12 : (scavengeSets signaled s s.in_flight_sets_).freed_sets =
      s.freed_sets ++ (s.in_flight_sets_.takeWhile (fun e => signaled e.2)).map Prod.fst := by
    rw [e1]
  clear e1
  generalize scavengeSets signaled s s.in_flight_sets_ = s1 at *
  obtain ⟨fr, p2, p3⟩ := scavengePendingDelete_spec signaled s1.pending_delete_textures_ s1
  have hfl : (fun t => !inFlight signaled s1 t) = (fun t => !inFlight signaled s t) := by
    funext t; simp only [inFlight, k3]
  rw [hfl, k1] at p2 p3
  rw [k2] at p3
  obtain ⟨a1, a2, a3, a4, a5, a6, a7, a8, a9, a10⟩ := fr
  rw [k1] at a1 a2 a3 a4 a5 a6 a7 a8 a9 a10
  rw [k1]
  generalize scavengePendingDelete signaled s1 s.pending_delete_textures_ = s2 at *
  refine ⟨?_, ?_, ?_, ?_, ?_, ?_, ?_, ?_⟩
  · rw [a8, k11]
  · rw [a9, k12]
  · rw [p2, a4, a5, a6, a7, k7, k8, k9, k10]
  · rw [p3]
  · rw [a1, k4]
  · refine (foldl_mapErase_sublist _ _ _).trans ?_
    rw [a2, k5]
  · refine (foldl_erase_sublist _ _).trans ?_
    rw [a3, k6]
  · intro u
    obtain ⟨c1, _, c3, _⟩ := a10 u
    rw [c1, c3, k3]
    exact ⟨rfl, rfl⟩

/-! ## List facts -/

theorem head_dropWhile_false {α : Type} (p : α → Bool) (l : List α) (e : α)
    (h : (l.dropWhile p).head? = some e) : p e = false := by
  induction l with
  | nil => simp at h
  | cons a l ih =>
    by_cases ha : p a = true
    · rw [List.dropWhile_cons_of_pos ha] at h; exact ih h
    · rw [List.dropWhile_cons_of_neg ha] at h
      simp only [List.head?_cons, Option.some.injEq] at h
      subst h
      simpa using ha

theorem dropWhile_dropWhile {α : Type} (p : α → Bool) (l : List α) :
    (l.dropWhile p).dropWhile p = l.dropWhile p := by
  induction l with
  | nil => simp
  | cons a l ih =>
    by_cases ha : p a = true
    · rw [List.dropWhile_cons_of_pos ha]; exact ih
    · rw [List.dropWhile_cons_of_neg ha, List.dropWhile_cons_of_neg ha]

theorem takeWhile_dropWhile {α : Type} (p : α → Bool) (l : List α) :
    (l.dropWhile p).takeWhile p = [] := by
  induction l with
  | nil => simp
  | cons a l ih =>
    by_cases ha : p a = true
    · rw [List.dropWhile_cons_of_pos ha]; exact ih
    · rw [List.dropWhile_cons_of_neg ha, List.takeWhile_cons_of_neg ha]

theorem mapFind_subset (key : Nat) (m : List (Nat × Nat)) (e : Nat × Nat)
    (h : e ∈ mapFind key m) : e ∈ m := by
  induction m with
  | nil => simp [mapFind] at h
  | cons a m ih =>
    unfold mapFind at h
    split_ifs at h
    · exact h
    · exact List.mem_cons_of_mem a (ih h)

theorem scanExact_eq_none (tex : Nat → Texture) (texture_info : TextureInfo)
    (l : List (Nat × Nat)) (h : ∀ e ∈ l, (tex e.2).texture_info ≠ texture_info) :
    scanExact tex texture_info l = none := by
  induction l with
  | nil => rfl
  | cons a l ih =>
    have ha := h a (List.mem_cons_self a l)
    simp only [scanExact, ha, if_false]
    exact ih (fun e he => h e (List.mem_cons_of_mem a he))

theorem takeResolveMatch_eq_none (p : Nat → Bool) (l : List Nat)
    (h : ∀ t ∈ l, p t = false) : takeResolveMatch p l = none := by
  induction l with
  | nil => rfl
  | cons a l ih =>
    have ha := h a (List.mem_cons_self a l)
    simp [takeResolveMatch, ha, ih (fun t ht => h t (List.mem_cons_of_mem a ht))]

/-! ## C5, C9, C10 -/

/-- C5. Binding-table reclaim.  For every in-flight list and every fence
status, `Scavenge` frees exactly the descriptor sets of the longest prefix of
`in_flight_sets_` whose fences are signaled: the freed sets are those of a
prefix whose entries are all signaled, the list that remains is the rest in its
order, and its first entry, if any, is not signaled.  A second `Scavenge` under
the same fence status frees nothing more and leaves the list as it is. -/
theorem scavenge_frees_signaled_prefix (hash : TextureInfo → Nat) (signaled : Nat → Bool)
    (s : Cache) :
    (Scavenge hash signaled s).freed_sets =
      s.freed_sets ++ (s.in_flight_sets_.takeWhile (fun e => signaled e.2)).map Prod.fst ∧
    s.in_flight_sets_.takeWhile (fun e => signaled e.2) ++
      (Scavenge hash signaled s).in_flight_sets_ = s.in_flight_sets_ ∧
    (∀ e ∈ s.in_flight_sets_.takeWhile (fun e => signaled e.2), signaled e.2 = true) ∧
    (∀ e, (Scavenge hash signaled s).in_flight_sets_.head? = some e → signaled e.2 = false) ∧
    (Scavenge hash signaled (Scavenge hash signaled s)).in_flight_sets_ =
      (Scavenge hash signaled s).in_flight_sets_ ∧
    (Scavenge hash signaled (Scavenge hash signaled s)).freed_sets =
      (Scavenge hash signaled s).freed_sets := by
  obtain ⟨h1, h2, -⟩ := Scavenge_fields hash signaled s
  obtain ⟨g1, g2, -⟩ := Scavenge_fields hash signaled (Scavenge hash signaled s)
  refine ⟨h2, ?_, ?_, ?_, ?_, ?_⟩
  · rw [h1]; exact List.takeWhile_append_dropWhile _ _
  · intro e he
    have h := List.mem_takeWhile_imp he
    exact h
  · intro e he
    rw [h1] at he
    exact head_dropWhile_false _ _ e he
  · rw [g1, h1, dropWhile_dropWhile]
  · rw [g2, h1, takeWhile_dropWhile]
    simp

/-- The pass of `Scavenge` over `pending_delete_textures_`, entry by entry.
`FreeTexture` on a texture whose fence exists and is not signaled returns
`false` and leaves the state as it is.  The entries `Scavenge` deletes are
exactly those of the longest prefix of `pending_delete_textures_` that are not
in flight; the rest of the list stays, in its order, at the front of
`pending_delete_textures_` (followed by the textures invalidated since), and
its first entry, if any, is in flight.  A texture listed twice can be in the
prefix and in the rest. -/
theorem scavenge_deletes_idle_prefix (hash : TextureInfo → Nat) (signaled : Nat → Bool)
    (s : Cache) :
    (∀ t, inFlight signaled s t = true → FreeTexture signaled s t = (s, false)) ∧
    (∀ t f, (s.tex t).in_flight_fence = some f → signaled f = false →
      FreeTexture signaled s t = (s, false)) ∧
    (Scavenge hash signaled s).deleted_textures =
      s.deleted_textures ++
        s.pending_delete_textures_.takeWhile (fun t => !inFlight signaled s t) ∧
    (∀ t, inFlight signaled s t = true →
      t ∉ s.pending_delete_textures_.takeWhile (fun t => !inFlight signaled s t)) ∧
    (Scavenge hash signaled s).pending_delete_textures_ =
      s.pending_delete_textures_.dropWhile (fun t => !inFlight signaled s t) ++
        (if s.invalidated_textures_ then s.invalidated_textures_sets_1
         else s.invalidated_textures_sets_0) ++ s.invalidated_resolve_textures_ ∧
    s.pending_delete_textures_.takeWhile (fun t => !inFlight signaled s t) ++
      s.pending_delete_textures_.dropWhile (fun t => !inFlight signaled s t) =
        s.pending_delete_textures_ ∧
    (∀ t, (s.pending_delete_textures_.dropWhile (fun t => !inFlight signaled s t)).head? =
      some t → inFlight signaled s t = true) := by
  obtain ⟨-, -, h3, h4, -⟩ := Scavenge_fields hash signaled s
  refine ⟨fun t ht => FreeTexture_refuses signaled s t ht,
    fun t f hf hs => FreeTexture_refuses signaled s t (by simp [inFlight, hf, hs]), h4, ?_, h3,
    List.takeWhile_append_dropWhile _ _, ?_⟩
  · intro t ht hmem
    have := List.mem_takeWhile_imp hmem
    simp [ht] at this
  · intro t ht
    have := head_dropWhile_false _ _ t ht
    simpa using this

/-- The scenario of the scavenge ordering: with set 10 on the signaled fence 1
and set 11 on the pending fence 2, `Scavenge` frees set 10 only, and again on
a second call; of the textures 0, 1, 2 pending deletion, with texture 1 in
flight on fence 2, it deletes texture 0 only. -/
theorem scavenge_ordering_example :
    (Scavenge hashAddress onePassed cacheInFlight).freed_sets = [10] ∧
    (Scavenge hashAddress onePassed cacheInFlight).in_flight_sets_ = [(11, 2)] ∧
    (Scavenge hashAddress onePassed
      (Scavenge hashAddress onePassed cacheInFlight)).in_flight_sets_ = [(11, 2)] ∧
    (Scavenge hashAddress onePassed cacheInFlight).deleted_textures = [0] ∧
    (Scavenge hashAddress onePassed cacheInFlight).pending_delete_textures_ = [1, 2] := by
  decide

/-- C10. Read-only probe.  When no entry of the main table has a description
equal to `texture_info` and no entry of the resolve registry has its guest
address and logical width and height, `Demand` without a command buffer returns
a miss and the whole state (main table, resolve registry, pending-delete list,
both pending-invalidation lists, registered watches) is as before. -/
theorem demand_probe_is_read_only (hash : TextureInfo → Nat) (signaled : Nat → Bool)
    (s : Cache) (texture_info : TextureInfo) (host_ok : Bool)
    (hmain : ∀ e ∈ s.textures_, (s.tex e.2).texture_info ≠ texture_info)
    (hres : ∀ t ∈ s.resolve_textures_,
      ¬ (texture_info.guest_address = (s.tex t).texture_info.guest_address ∧
         texture_info.size_2d.logical_width = (s.tex t).texture_info.size_2d.logical_width ∧
         texture_info.size_2d.logical_height =
           (s.tex t).texture_info.size_2d.logical_height)) :
    Demand hash signaled s texture_info false host_ok = (s, none) := by
  have h1 : scanExact s.tex texture_info (mapFind (hash texture_info) s.textures_) = none :=
    scanExact_eq_none _ _ _ (fun e he => hmain e (mapFind_subset _ _ e he))
  have h2 : takeResolveMatch (resolveMatches s.tex texture_info) s.resolve_textures_ = none := by
    apply takeResolveMatch_eq_none
    intro t ht
    have := hres t ht
    simp only [resolveMatches]
    by_contra hc
    apply this
    simpa using hc
  simp [Demand, h1, demandMiss, h2, demandCreate]

/-- Witness of C10: a probe for `info64` in the cache that holds the resolve
texture of `info256`. -/
theorem demand_probe_is_read_only_witness :
    Demand hashAddress nonePassed cacheResolved info64 false true = (cacheResolved, none) :=
  demand_probe_is_read_only hashAddress nonePassed cacheResolved info64 true
    (by decide) (by decide)

/-! ## The table-membership invariant -/

theorem mem_mapAssign (key value : Nat) (m : List (Nat × Nat)) (e : Nat × Nat)
    (h : e ∈ mapAssign key value m) : e = (key, value) ∨ e ∈ m := by
  induction m with
  | nil => simp [mapAssign] at h; exact Or.inl h
  | cons a m ih =>
    unfold mapAssign at h
    split_ifs at h
    · rcases List.mem_cons.1 h with h | h
      · exact Or.inl h
      · exact Or.inr (List.mem_cons_of_mem a h)
    · rcases List.mem_cons.1 h with h | h
      · exact Or.inr (h ▸ List.mem_cons_self a m)
      · rcases ih h with h | h
        · exact Or.inl h
        · exact Or.inr (List.mem_cons_of_mem a h)

theorem takeResolveMatch_some (p : Nat → Bool) (l : List Nat) :
    ∀ (t : Nat) (rest : List Nat), takeResolveMatch p l = some (t, rest) →
      ∃ pre post, l = pre ++ t :: post ∧ rest = pre ++ post ∧ p t = true ∧
        ∀ x ∈ pre, p x = false := by
  induction l with
  | nil => intro t rest h; simp [takeResolveMatch] at h
  | cons a l ih =>
    intro t rest h
    unfold takeResolveMatch at h
    by_cases ha : p a = true
    · rw [if_pos ha] at h
      injection h with h
      injection h with h1 h2
      subst h1 h2
      exact ⟨[], l, rfl, rfl, ha, by simp⟩
    · rw [if_neg ha] at h
      cases hm : takeResolveMatch p l with
      | none => rw [hm] at h; simp at h
      | some r =>
        rw [hm] at h
        simp only [Option.map_some'] at h
        injection h with h
        injection h with h1 h2
        obtain ⟨pre, post, e1, e2, e3, e4⟩ := ih r.1 r.2 hm
        refine ⟨a :: pre, post, ?_, ?_, ?_, ?_⟩
        · rw [e1, h1]; rfl
        · rw [← h2, e2]; rfl
        · rw [← h1]; exact e3
        · intro x hx
          rcases List.mem_cons.1 hx with hx | hx
          · subst hx; simpa using ha
          · exact e4 x hx

theorem TablesOk_of_sublist {s r : Cache} (h : TablesOk s)
    (h1 : r.textures_.Sublist s.textures_) (h2 : r.resolve_textures_.Sublist s.resolve_textures_)
    (h3 : r.next_texture = s.next_texture) : TablesOk r := by
  obtain ⟨a, b, c, d⟩ := h
  refine ⟨fun e he hr => a e (h1.subset he) (h2.subset hr), b.sublist h2, ?_, ?_⟩
  · intro e he; rw [h3]; exact c e (h1.subset he)
  · intro t ht; rw [h3]; exact d t (h2.subset ht)

theorem TablesOk_Scavenge (hash : TextureInfo → Nat) (signaled : Nat → Bool) {s : Cache}
    (h : TablesOk s) : TablesOk (Scavenge hash signaled s) := by
  obtain ⟨-, -, -, -, h5, h6, h7, -⟩ := Scavenge_fields hash signaled s
  exact TablesOk_of_sublist h h6 h7 h5

theorem promote_fields (hash : TextureInfo → Nat) (s : Cache) (texture_info : TextureInfo)
    (texture : Nat) (rest : List Nat) :
    (promote hash s texture_info texture rest).textures_ =
      mapAssign (hash texture_info) texture s.textures_ ∧
    (promote hash s texture_info texture rest).resolve_textures_ = rest ∧
    (promote hash s texture_info texture rest).next_texture = s.next_texture ∧
    ((promote hash s texture_info texture rest).tex texture).texture_info = texture_info ∧
    ((promote hash s texture_info texture rest).tex texture).is_full_texture = true ∧
    ((promote hash s texture_info texture rest).tex texture).pending_invalidation =
      (s.tex texture).pending_invalidation ∧
    (∀ u, u ≠ texture → (promote hash s texture_info texture rest).tex u = s.tex u) := by
  unfold promote
  simp only [AddPhysicalAccessWatch, CancelAccessWatch]
  split_ifs
  · refine ⟨by simp, by simp, by simp, by simp, by simp, by simp, ?_⟩
    intro u hu
    simp [Function.update_noteq hu]
  · refine ⟨by simp, by simp, by simp, by simp, by simp, by simp, ?_⟩
    intro u hu
    simp [Function.update_noteq hu]

theorem demandCreate_fields (hash : TextureInfo → Nat) (s : Cache) (texture_info : TextureInfo)
    (command_buffer host_ok : Bool) (t : Nat)
    (h : (demandCreate hash s texture_info command_buffer host_ok).2 = some t) :
    t = s.next_texture ∧
    (demandCreate hash s texture_info command_buffer host_ok).1.textures_ =
      mapAssign (hash texture_info) t s.textures_ ∧
    (demandCreate hash s texture_info command_buffer host_ok).1.resolve_textures_ =
      s.resolve_textures_ ∧
    (demandCreate hash s texture_info command_buffer host_ok).1.next_texture =
      s.next_texture + 1 ∧
    ((demandCreate hash s texture_info command_buffer host_ok).1.tex t).texture_info =
      texture_info := by
  unfold demandCreate at h ⊢
  by_cases hc : command_buffer = true
  · by_cases hd : texture_info.dimension = Dimension.k2D
    · by_cases hk : host_ok = true
      · simp only [hc, hd, hk, AllocateTexture, AddPhysicalAccessWatch] at h ⊢
        simp at h
        subst h
        simp [Texture.zero]
      · simp [hc, hd, hk, AllocateTexture] at h
    · simp [hc, hd] at h
  · simp [hc] at h

theorem demandCreate_none (hash : TextureInfo → Nat) (s : Cache) (texture_info : TextureInfo)
    (command_buffer host_ok : Bool)
    (h : (demandCreate hash s texture_info command_buffer host_ok).2 = none) :
    (demandCreate hash s texture_info command_buffer host_ok).1 = s := by
  unfold demandCreate at h ⊢
  by_cases hc : command_buffer = true
  · by_cases hd : texture_info.dimension = Dimension.k2D
    · by_cases hk : host_ok = true
      · simp [hc, hd, hk, AllocateTexture, AddPhysicalAccessWatch] at h
      · simp [hc, hd, hk, AllocateTexture]
    · simp [hc, hd]
  · simp [hc]

theorem TablesOk_demandMiss (hash : TextureInfo → Nat) (texture_info : TextureInfo)
    (command_buffer host_ok : Bool) {s : Cache} (h : TablesOk s) :
    TablesOk (demandMiss hash s texture_info command_buffer host_ok).1 := by
  obtain ⟨a, b, c, d⟩ := h
  unfold demandMiss
  cases hm : takeResolveMatch (resolveMatches s.tex texture_info) s.resolve_textures_ with
  | some r =>
    obtain ⟨t, rest⟩ := r
    obtain ⟨pre, post, e1, e2, -, -⟩ := takeResolveMatch_some _ _ t rest hm
    obtain ⟨f1, f2, f3, -⟩ := promote_fields hash s texture_info t rest
    have hsub : rest.Sublist s.resolve_textures_ := by
      rw [e1, e2]
      exact List.Sublist.append (List.Sublist.refl pre) (List.sublist_cons_self t post)
    have htmem : t ∈ s.resolve_textures_ := by rw [e1]; simp
    have htnot : t ∉ rest := by
      rw [e1] at b
      have := List.nodup_middle.1 b
      rw [e2]
      exact (List.nodup_cons.1 this).1
    show TablesOk (promote hash s texture_info t rest)
    refine ⟨?_, ?_, ?_, ?_⟩
    · intro e he
      rw [f1] at he
      rw [f2]
      rcases mem_mapAssign _ _ _ _ he with he | he
      · rw [he]; exact htnot
      · exact fun hr => a e he (hsub.subset hr)
    · rw [f2]; exact b.sublist hsub
    · intro e he
      rw [f1] at he
      rw [f3]
      rcases mem_mapAssign _ _ _ _ he with he | he
      · rw [he]; exact d t htmem
      · exact c e he
    · intro u hu
      rw [f2] at hu
      rw [f3]
      exact d u (hsub.subset hu)
  | none =>
    show TablesOk (demandCreate hash s texture_info command_buffer host_ok).1
    cases hr : (demandCreate hash s texture_info command_buffer host_ok).2 with
    | none =>
      rw [demandCreate_none hash s texture_info command_buffer host_ok hr]
      exact ⟨a, b, c, d⟩
    | some t =>
      obtain ⟨g1, g2, g3, g4, -⟩ :=
        demandCreate_fields hash s texture_info command_buffer host_ok t hr
      refine ⟨?_, ?_, ?_, ?_⟩
      · intro e he
        rw [g2] at he
        rw [g3]
        rcases mem_mapAssign _ _ _ _ he with he | he
        · rw [he, g1]
          exact fun hr => Nat.lt_irrefl _ (d _ hr)
        · exact a e he
      · rw [g3]; exact b
      · intro e he
        rw [g2] at he
        rw [g4]
        rcases mem_mapAssign _ _ _ _ he with he | he
        · rw [he, g1]; exact Nat.lt_succ_self _
        · exact Nat.lt_succ_of_lt (c e he)
      · intro u hu
        rw [g3] at hu
        rw [g4]
        exact Nat.lt_succ_of_lt (d u hu)

theorem TablesOk_Demand (hash : TextureInfo → Nat) (signaled : Nat → Bool)
    (texture_info : TextureInfo) (command_buffer host_ok : Bool) {s : Cache} (h : TablesOk s) :
    TablesOk (Demand hash signaled s texture_info command_buffer host_ok).1 := by
  unfold Demand
  cases scanExact s.tex texture_info (mapFind (hash texture_info) s.textures_) with
  | none => exact TablesOk_demandMiss hash texture_info command_buffer host_ok h
  | some t =>
    by_cases hp : (s.tex t).pending_invalidation = true
    · simp only [hp, if_true]
      exact TablesOk_demandMiss hash texture_info command_buffer host_ok
        (TablesOk_Scavenge hash signaled h)
    · simp only [hp]
      exact h

theorem DemandResolveTexture_fields (s : Cache) (texture_info : TextureInfo)
    (out_offset host_ok : Bool) (r : Cache × Nat × Option (Nat × Nat))
    (h : DemandResolveTexture s texture_info out_offset host_ok = some r) :
    (r.1 = s ∧
      LookupAddress s texture_info.guest_address texture_info.size_2d.block_width
        texture_info.size_2d.block_height out_offset = some r.2) ∨
    (LookupAddress s texture_info.guest_address texture_info.size_2d.block_width
        texture_info.size_2d.block_height out_offset = none ∧
      r.2.1 = s.next_texture ∧ r.1.textures_ = s.textures_ ∧
      r.1.resolve_textures_ = s.resolve_textures_ ++ [s.next_texture] ∧
      r.1.next_texture = s.next_texture + 1 ∧
      r.1.tex s.next_texture =
        { Texture.zero texture_info with access_watch_handle := s.next_watch } ∧
      (∀ u, u ≠ s.next_texture → r.1.tex u = s.tex u)) := by
  unfold DemandResolveTexture at h
  cases hl : LookupAddress s texture_info.guest_address texture_info.size_2d.block_width
      texture_info.size_2d.block_height out_offset with
  | some x =>
    rw [hl] at h
    simp only [Option.some.injEq] at h
    left
    rw [← h]
    exact ⟨rfl, rfl⟩
  | none =>
    rw [hl] at h
    right
    by_cases hk : host_ok = true
    · simp only [hk, AllocateTexture, if_true, AddPhysicalAccessWatch, Option.some.injEq] at h
      rw [← h]
      refine ⟨rfl, rfl, rfl, rfl, rfl, ?_, ?_⟩
      · simp [Texture.zero]
      · intro u hu
        simp [Function.update_noteq hu]
    · simp [hk, AllocateTexture] at h

theorem TablesOk_DemandResolveTexture (s : Cache) (texture_info : TextureInfo)
    (out_offset host_ok : Bool) (r : Cache × Nat × Option (Nat × Nat))
    (h : DemandResolveTexture s texture_info out_offset host_ok = some r) (hs : TablesOk s) :
    TablesOk r.1 := by
  rcases DemandResolveTexture_fields s texture_info out_offset host_ok r h with
    ⟨h1, -⟩ | ⟨-, -, h2, h3, h4, -⟩
  · rw [h1]; exact hs
  · obtain ⟨a, b, c, d⟩ := hs
    refine ⟨?_, ?_, ?_, ?_⟩
    · intro e he
      rw [h2] at he
      rw [h3]
      intro hr
      rcases List.mem_append.1 hr with hr | hr
      · exact a e he hr
      · simp only [List.mem_singleton] at hr
        have := c e he
        omega
    · rw [h3]
      refine List.Nodup.append b (List.nodup_singleton _) ?_
      intro x hx hx'
      simp only [List.mem_singleton] at hx'
      have := d x hx
      omega
    · intro e he
      rw [h2] at he
      rw [h4]
      exact Nat.lt_succ_of_lt (c e he)
    · intro u hu
      rw [h3] at hu
      rw [h4]
      rcases List.mem_append.1 hu with hu | hu
      · exact Nat.lt_succ_of_lt (d u hu)
      · simp only [List.mem_singleton] at hu
        omega

theorem fireWatch_fields (s : Cache) (handle : Nat) :
    (fireWatch s handle).textures_ = s.textures_ ∧
    (fireWatch s handle).resolve_textures_ = s.resolve_textures_ ∧
    (fireWatch s handle).next_texture = s.next_texture ∧
    (fireWatch s handle).pending_delete_textures_ = s.pending_delete_textures_ ∧
    ∀ u, ((fireWatch s handle).tex u).texture_info = (s.tex u).texture_info := by
  unfold fireWatch
  cases s.watches.find? (fun w => w.handle = handle) with
  | none => simp
  | some w =>
    simp only [watchCallback, CancelAccessWatch]
    split_ifs
    all_goals
      refine ⟨rfl, rfl, rfl, rfl, ?_⟩
      intro u
      by_cases hu : u = w.texture
      · subst hu; simp
      · simp [Function.update_noteq hu]

theorem TablesOk_of_reachable (hash : TextureInfo → Nat) (s : Cache)
    (h : Reachable hash s) : TablesOk s := by
  induction h with
  | empty => simp [TablesOk, Cache.empty]
  | step s s' _ hstep ih =>
    cases hstep with
    | demand signaled _ texture_info command_buffer host_ok =>
      exact TablesOk_Demand hash signaled texture_info command_buffer host_ok ih
    | demandResolve _ texture_info out_offset host_ok r hr =>
      exact TablesOk_DemandResolveTexture s texture_info out_offset host_ok r hr ih
    | watch _ handle =>
      obtain ⟨h1, h2, h3, -⟩ := fireWatch_fields s handle
      exact TablesOk_of_sublist ih (h1 ▸ List.Sublist.refl _) (h2 ▸ List.Sublist.refl _) h3
    | scavenge signaled _ => exact TablesOk_Scavenge hash signaled ih
    | bind _ texture fence => exact ih

/-! ## Reachability of the sample states -/

theorem cacheResolved_reachable (hash : TextureInfo → Nat) : Reachable hash cacheResolved :=
  Reachable.step Cache.empty _ Reachable.empty
    (Step.demandResolve Cache.empty info256 false true (cacheResolved, 0, none) rfl)

theorem cacheTwoResolved_reachable (hash : TextureInfo → Nat) :
    Reachable hash cacheTwoResolved :=
  Reachable.step cacheResolved _ (cacheResolved_reachable hash)
    (Step.demandResolve cacheResolved info256dxt false true (cacheTwoResolved, 1, none) rfl)

theorem cachePromoted_reachable : Reachable hashAddress cachePromoted :=
  Reachable.step _ _
    (Reachable.step cacheResolved _ (cacheResolved_reachable hashAddress)
      (Step.demandResolve cacheResolved info64 false true
        (stateOf (DemandResolveTexture cacheResolved info64 false true), 1, none) rfl))
    (Step.demand nonePassed _ info256 false true)

/-- C8. Table-membership invariant.  In every state reachable from the empty
cache by `Demand`, `DemandResolveTexture`, watch callbacks and `Scavenge` (and
by tying textures to fences), no texture of the main table is in the resolve
registry and no texture occurs twice in the resolve registry. -/
theorem tables_never_share_a_texture (hash : TextureInfo → Nat) (s : Cache)
    (h : Reachable hash s) :
    (∀ e ∈ s.textures_, e.2 ∉ s.resolve_textures_) ∧ s.resolve_textures_.Nodup :=
  ⟨(TablesOk_of_reachable hash s h).1, (TablesOk_of_reachable hash s h).2.1⟩

/-- Witness of C8: the state after two `DemandResolveTexture` calls and a
promoting `Demand`, with texture 0 in the main table and texture 1 in the
registry. -/
theorem tables_never_share_a_texture_witness :
    Reachable hashAddress cachePromoted ∧
    cachePromoted.textures_ = [(0x1000, 0)] ∧ cachePromoted.resolve_textures_ = [1] ∧
    ((∀ e ∈ cachePromoted.textures_, e.2 ∉ cachePromoted.resolve_textures_) ∧
      cachePromoted.resolve_textures_.Nodup) :=
  ⟨cachePromoted_reachable, by decide, by decide,
    tables_never_share_a_texture hashAddress cachePromoted cachePromoted_reachable⟩

theorem scanExact_some (tex : Nat → Texture) (texture_info : TextureInfo)
    (l : List (Nat × Nat)) (t : Nat) (h : scanExact tex texture_info l = some t) :
    (tex t).texture_info = texture_info ∧ ∃ e ∈ l, e.2 = t := by
  induction l with
  | nil => simp [scanExact] at h
  | cons a l ih =>
    unfold scanExact at h
    split_ifs at h with ha
    · simp only [Option.some.injEq] at h
      subst h
      exact ⟨ha, a, List.mem_cons_self a l, rfl⟩
    · obtain ⟨h1, e, he, h2⟩ := ih h
      exact ⟨h1, e, List.mem_cons_of_mem a he, h2⟩

theorem demandMiss_result (hash : TextureInfo → Nat) (s : Cache) (texture_info : TextureInfo)
    (command_buffer host_ok : Bool) (t : Nat)
    (h : (demandMiss hash s texture_info command_buffer host_ok).2 = some t) :
    ((demandMiss hash s texture_info command_buffer host_ok).1.tex t).texture_info =
      texture_info ∧
    (t ∈ s.resolve_textures_ ∨ t = s.next_texture) := by
  unfold demandMiss at h ⊢
  cases hm : takeResolveMatch (resolveMatches s.tex texture_info) s.resolve_textures_ with
  | some r =>
    obtain ⟨t', rest⟩ := r
    rw [hm] at h
    simp only [Option.some.injEq] at h
    subst h
    obtain ⟨pre, post, e1, -⟩ := takeResolveMatch_some _ _ t' rest hm
    obtain ⟨-, -, -, f4, -⟩ := promote_fields hash s texture_info t' rest
    exact ⟨f4, Or.inl (by rw [e1]; simp)⟩
  | none =>
    rw [hm] at h
    obtain ⟨g1, -, -, -, g5⟩ :=
      demandCreate_fields hash s texture_info command_buffer host_ok t h
    exact ⟨g5, Or.inr g1⟩

/-- C2. Exact-equality tie-break.  Every texture `Demand` returns for the
description `texture_info` has exactly that stored description when it is
returned.  So in a reachable state no texture the main table holds for another
description `other` is returned, whether or not the hashes of the two
descriptions collide. -/
theorem demand_returns_exact_description (hash : TextureInfo → Nat) (signaled : Nat → Bool)
    (s : Cache) (texture_info : TextureInfo) (command_buffer host_ok : Bool) (t : Nat)
    (h : (Demand hash signaled s texture_info command_buffer host_ok).2 = some t) :
    ((Demand hash signaled s texture_info command_buffer host_ok).1.tex t).texture_info =
      texture_info ∧
    (Reachable hash s → ∀ other : TextureInfo, other ≠ texture_info →
      ∀ e ∈ s.textures_, (s.tex e.2).texture_info = other → t ≠ e.2) := by
  have key : ∀ s0 : Cache, s0.next_texture = s.next_texture →
      (∀ x ∈ s0.resolve_textures_, x ∈ s.resolve_textures_) →
      (demandMiss hash s0 texture_info command_buffer host_ok).2 = some t →
      Reachable hash s → ∀ other : TextureInfo, other ≠ texture_info →
      ∀ e ∈ s.textures_, (s.tex e.2).texture_info = other → t ≠ e.2 := by
    intro s0 hn hr hm hreach other _ e he _ hte
    obtain ⟨a, -, c, -⟩ := TablesOk_of_reachable hash s hreach
    rcases (demandMiss_result hash s0 texture_info command_buffer host_ok t hm).2 with h1 | h1
    · exact a e he (hte ▸ hr t h1)
    · have := c e he
      rw [← hte, h1, hn] at this
      exact Nat.lt_irrefl _ this
  unfold Demand at h ⊢
  cases hscan : scanExact s.tex texture_info (mapFind (hash texture_info) s.textures_) with
  | none =>
    rw [hscan] at h
    exact ⟨(demandMiss_result hash s texture_info command_buffer host_ok t h).1,
      key s rfl (fun _ hx => hx) h⟩
  | some t' =>
    rw [hscan] at h
    by_cases hp : (s.tex t').pending_invalidation = true
    · simp only [hp, if_true] at h ⊢
      obtain ⟨-, -, -, -, h5, -, h7, -⟩ := Scavenge_fields hash signaled s
      exact ⟨(demandMiss_result hash _ texture_info command_buffer host_ok t h).1,
        key _ h5 (fun _ hx => h7.subset hx) h⟩
    · simp only [hp] at h ⊢
      simp only [Bool.false_eq_true, if_false, Option.some.injEq] at h
      subst h
      obtain ⟨h1, -⟩ := scanExact_some _ _ _ _ hscan
      refine ⟨by simpa using h1, ?_⟩
      intro _ other hne e _ heo hte
      rw [← hte, h1] at heo
      exact hne heo.symm

/-- Witness of C2: under a hash that collides for all descriptions, with the
texture 0 cached for `info256`, `Demand(info64)` returns the new texture 1,
whose description is `info64`, and not texture 0. -/
theorem demand_returns_exact_description_witness :
    (Demand hashConst nonePassed cacheCollide info64 true true).2 = some 1 ∧
    (((Demand hashConst nonePassed cacheCollide info64 true true).1.tex 1).texture_info =
      info64 ∧
    (Reachable hashConst cacheCollide → ∀ other : TextureInfo, other ≠ info64 →
      ∀ e ∈ cacheCollide.textures_, (cacheCollide.tex e.2).texture_info = other → 1 ≠ e.2)) :=
  ⟨by decide,
    demand_returns_exact_description hashConst nonePassed cacheCollide info64 true true 1
      (by decide)⟩


theorem mapFind_mapAssign (key value : Nat) (m : List (Nat × Nat)) :
    ∃ tail, mapFind key (mapAssign key value m) = (key, value) :: tail := by
  induction m with
  | nil => exact ⟨[], by simp [mapAssign, mapFind]⟩
  | cons a m ih =>
    by_cases ha : a.1 = key
    · exact ⟨m, by simp [mapAssign, mapFind, ha]⟩
    · obtain ⟨tail, ht⟩ := ih
      exact ⟨tail, by simp [mapAssign, mapFind, ha, ht]⟩

theorem cacheTouched_reachable (hash : TextureInfo → Nat) : Reachable hash cacheTouched :=
  Reachable.step cacheResolved _ (cacheResolved_reachable hash) (Step.watch cacheResolved 1)

/-- C1 (failing input).  `DemandResolveTexture(info256)` creates the resolve
texture 0; the guest writes into its range, so its watch fires and texture 0 is
pending invalidation and queued in `invalidated_resolve_textures_`.  The state
is reachable.  `Demand(info256)` then promotes texture 0 and returns it with
`pending_invalidation` still set, without a `Scavenge`: texture 0 is now in the
main table and is still queued for deletion. -/
theorem demand_returns_touched_resolve_texture :
    Reachable hashAddress cacheTouched ∧
    cacheTouched.resolve_textures_ = [0] ∧
    (cacheTouched.tex 0).pending_invalidation = true ∧
    (Demand hashAddress nonePassed cacheTouched info256 false true).2 = some 0 ∧
    ((Demand hashAddress nonePassed cacheTouched info256 false true).1.tex
      0).pending_invalidation = true ∧
    (Demand hashAddress nonePassed cacheTouched info256 false true).1.textures_ =
      [(0x1000, 0)] ∧
    (Demand hashAddress nonePassed cacheTouched info256 false true).1.invalidated_resolve_textures_ =
      [0] :=
  ⟨cacheTouched_reachable hashAddress, by decide, by decide, by decide, by decide, by decide,
    by decide⟩

/-! ## The swap routines, byte by byte -/

theorem memcpy_apply (dest : Nat → Nat) (d : Nat) (src : Nat → Nat) (p n a : Nat) :
    memcpy dest d src p n a =
      if d ≤ a ∧ a < d + n then src (p + endianSource Endian.kUnspecified (a - d))
      else dest a := by
  induction n with
  | zero =>
    simp only [memcpy]
    rw [if_neg (by omega)]
  | succ n ih =>
    simp only [memcpy, Function.update_apply, ih, endianSource]
    split_ifs <;> first | rfl | omega | (congr 1; omega)

theorem copy_and_swap_16_apply (dest : Nat → Nat) (d : Nat) (src : Nat → Nat) (p n a : Nat) :
    copy_and_swap_16_aligned dest d src p n a =
      if d ≤ a ∧ a < d + 2 * n then src (p + endianSource Endian.k8in16 (a - d))
      else dest a := by
  induction n with
  | zero =>
    simp only [copy_and_swap_16_aligned]
    rw [if_neg (by omega)]
  | succ n ih =>
    simp only [copy_and_swap_16_aligned, Function.update_apply, ih, endianSource]
    split_ifs <;> first | rfl | omega | (congr 1; omega)

theorem copy_and_swap_32_apply (dest : Nat → Nat) (d : Nat) (src : Nat → Nat) (p n a : Nat) :
    copy_and_swap_32_aligned dest d src p n a =
      if d ≤ a ∧ a < d + 4 * n then src (p + endianSource Endian.k8in32 (a - d))
      else dest a := by
  induction n with
  | zero =>
    simp only [copy_and_swap_32_aligned]
    rw [if_neg (by omega)]
  | succ n ih =>
    simp only [copy_and_swap_32_aligned, Function.update_apply, ih, endianSource]
    split_ifs <;> first | rfl | omega | (congr 1; omega)

theorem copy_and_swap_16_in_32_apply (dest : Nat → Nat) (d : Nat) (src : Nat → Nat)
    (p n a : Nat) :
    copy_and_swap_16_in_32_aligned dest d src p n a =
      if d ≤ a ∧ a < d + 4 * n then src (p + endianSource Endian.k16in32 (a - d))
      else dest a := by
  induction n with
  | zero =>
    simp only [copy_and_swap_16_in_32_aligned]
    rw [if_neg (by omega)]
  | succ n ih =>
    simp only [copy_and_swap_16_in_32_aligned, Function.update_apply, ih, endianSource]
    split_ifs <;> first | rfl | omega | (congr 1; omega)

/-- The number of bytes a call of `TextureSwap` with `length` covers. -/
theorem TextureSwap_apply (endianness : Endian) (dest : Nat → Nat) (d : Nat)
    (src : Nat → Nat) (p length a : Nat) :
    TextureSwap endianness dest d src p length a =
      if d ≤ a ∧ a < d +
          (match endianness with
            | Endian.kUnspecified => length
            | Endian.k8in16 => 2 * (length / 2)
            | Endian.k8in32 => 4 * (length / 4)
            | Endian.k16in32 => 4 * length)
      then src (p + endianSource endianness (a - d))
      else dest a := by
  cases endianness
  · exact memcpy_apply dest d src p length a
  · exact copy_and_swap_16_apply dest d src p (length / 2) a
  · exact copy_and_swap_32_apply dest d src p (length / 4) a
  · exact copy_and_swap_16_in_32_apply dest d src p length a

/-- The equal-pitch path of `UploadTexture2D` for the three tags whose word
count covers `length`: exactly the first `output_length` bytes of the staging
allocation are written, each with the guest byte its tag names. -/
theorem uploadLinear_equal_pitch (src : TextureInfo) (guest staging : Nat → Nat) (a : Nat)
    (hp : src.size_2d.input_pitch = src.size_2d.output_pitch)
    (h4 : src.output_length % 4 = 0) (he : src.endianness ≠ Endian.k16in32) :
    uploadLinear src guest staging a =
      if a < src.output_length then guest (endianSource src.endianness a) else staging a := by
  unfold uploadLinear
  rw [if_pos hp, TextureSwap_apply]
  cases hend : src.endianness with
  | kUnspecified => simp
  | k8in16 =>
    have : 2 * (src.output_length / 2) = src.output_length := by omega
    simp [this]
  | k8in32 =>
    have : 4 * (src.output_length / 4) = src.output_length := by omega
    simp [this]
  | k16in32 => exact absurd hend he

theorem uploadLinear_16in32 (src : TextureInfo) (guest staging : Nat → Nat) (a : Nat)
    (hp : src.size_2d.input_pitch = src.size_2d.output_pitch)
    (he : src.endianness = Endian.k16in32) :
    uploadLinear src guest staging a =
      if a < 4 * src.output_length then guest (endianSource Endian.k16in32 a)
      else staging a := by
  unfold uploadLinear
  rw [if_pos hp, TextureSwap_apply, he]
  simp

/-! ## C6 -/

/-- C6 (failing input).  For the linear description `info16in32` (equal
pitches, `output_length = 256`, a multiple of 4, tag 16-in-32) `TextureSwap`
passes `length` itself as the word count of the 16-in-32 swap, so the
conversion copies 256 words: every staging byte at an offset below 1024 is
written, among them the bytes at 256 and 1023, outside the first
`output_length` bytes, from guest bytes at 258 and 1021, outside the
`input_length` bytes of the texture. -/
theorem upload_16in32_writes_past_output_length :
    info16in32.is_tiled = false ∧
    info16in32.size_2d.input_pitch = info16in32.size_2d.output_pitch ∧
    info16in32.output_length = 256 ∧ info16in32.output_length % 4 = 0 ∧
    (∀ a, a < 1024 → uploadLinear info16in32 guestBytes zeroBytes a =
      guestBytes (endianSource Endian.k16in32 a)) ∧
    uploadLinear info16in32 guestBytes zeroBytes 256 = guestBytes 258 ∧
    uploadLinear info16in32 guestBytes zeroBytes 256 ≠ zeroBytes 256 ∧
    uploadLinear info16in32 guestBytes zeroBytes 1023 = guestBytes 1021 ∧
    uploadLinear info16in32 guestBytes zeroBytes 1023 ≠ zeroBytes 1023 := by
  have key : ∀ a, uploadLinear info16in32 guestBytes zeroBytes a =
      if a < 1024 then guestBytes (endianSource Endian.k16in32 a) else zeroBytes a := by
    intro a
    rw [uploadLinear_16in32 info16in32 guestBytes zeroBytes a rfl rfl]
    rfl
  refine ⟨rfl, rfl, rfl, rfl, ?_, ?_, ?_, ?_, ?_⟩
  · intro a ha
    rw [key a, if_pos ha]
  · rw [key]; decide
  · rw [key]; decide
  · rw [key]; decide
  · rw [key]; decide

/-! ## Samplers -/

theorem mapAssign_keys (key value : Nat) (m : List (Nat × Nat)) :
    (mapAssign key value m).map Prod.fst =
      if key ∈ m.map Prod.fst then m.map Prod.fst else m.map Prod.fst ++ [key] := by
  induction m with
  | nil => simp [mapAssign]
  | cons a m ih =>
    by_cases ha : a.1 = key
    · simp [mapAssign, ha]
    · have hk : ¬ key = a.1 := fun h => ha h.symm
      simp only [mapAssign, ha, if_false, List.map_cons, ih, List.mem_cons, hk, false_or]
      split_ifs <;> simp

theorem mapFind_of_mem (m : List (Nat × Nat)) (key value : Nat)
    (hn : (m.map Prod.fst).Nodup) (h : (key, value) ∈ m) :
    ∃ tail, mapFind key m = (key, value) :: tail := by
  induction m with
  | nil => simp at h
  | cons a m ih =>
    simp only [List.map_cons, List.nodup_cons] at hn
    rcases List.mem_cons.1 h with h | h
    · subst h
      exact ⟨m, by simp [mapFind]⟩
    · have ha : a.1 ≠ key := by
        intro hk
        apply hn.1
        rw [hk]
        exact List.mem_map.2 ⟨(key, value), h, rfl⟩
      obtain ⟨tail, ht⟩ := ih hn.2 h
      exact ⟨tail, by simp [mapFind, ha, ht]⟩

theorem mapFind_mapAssign_other (m : List (Nat × Nat)) (key value key' value' : Nat)
    (hne : key ≠ key') (h : ∃ tail, mapFind key m = (key, value) :: tail) :
    ∃ tail, mapFind key (mapAssign key' value' m) = (key, value) :: tail := by
  induction m with
  | nil => obtain ⟨tail, ht⟩ := h; simp [mapFind] at ht
  | cons a m ih =>
    obtain ⟨tail, ht⟩ := h
    by_cases ha : a.1 = key
    · have ha' : a.1 ≠ key' := fun hk => hne (ha ▸ hk)
      simp only [mapFind, ha, if_true] at ht
      injection ht with h1 h2
      refine ⟨mapAssign key' value' m, ?_⟩
      subst h1
      simp [mapAssign, hne, mapFind]
    · simp only [mapFind, ha, if_false] at ht
      by_cases hk : a.1 = key'
      · refine ⟨tail, ?_⟩
        have : ¬ key' = key := fun h => hne h.symm
        simp [mapAssign, hk, mapFind, this, ht]
      · obtain ⟨tail', ht'⟩ := ih ⟨tail, ht⟩
        exact ⟨tail', by simp [mapAssign, hk, mapFind, ha, ht']⟩

theorem scanSampler_some (info : Nat → SamplerInfo) (d : SamplerInfo)
    (l : List (Nat × Nat)) (a : Nat) (h : scanSampler info d l = some a) :
    info a = d ∧ ∃ e ∈ l, e.2 = a := by
  induction l with
  | nil => simp [scanSampler] at h
  | cons x l ih =>
    unfold scanSampler at h
    split_ifs at h with hx
    · simp only [Option.some.injEq] at h
      subst h
      exact ⟨hx, x, List.mem_cons_self x l, rfl⟩
    · obtain ⟨h1, e, he, h2⟩ := ih h
      exact ⟨h1, e, List.mem_cons_of_mem x he, h2⟩

theorem DemandSampler_of_cached (hash : SamplerInfo → Nat) (s : SamplerCache)
    (d : SamplerInfo) (a : Nat) (host_ok : Bool) (h : SamplerCached hash s d a) :
    DemandSampler hash s d host_ok = (s, some a) := by
  obtain ⟨⟨tail, ht⟩, hi, -⟩ := h
  simp [DemandSampler, ht, scanSampler, hi]

theorem DemandSampler_cases (hash : SamplerInfo → Nat) (s : SamplerCache)
    (d : SamplerInfo) (host_ok : Bool) :
    ((DemandSampler hash s d host_ok).1 = s ∧
      ((∃ a, (DemandSampler hash s d host_ok).2 = some a ∧ s.sampler_info a = d ∧
          ∃ e ∈ s.samplers_, e.2 = a) ∨
       ((DemandSampler hash s d host_ok).2 = none ∧
          (samplerHandled d = false ∨ host_ok = false)))) ∨
    (DemandSampler hash s d host_ok =
      ({ sampler_info := Function.update s.sampler_info s.next_sampler d
         next_sampler := s.next_sampler + 1
         samplers_ := mapAssign (hash d) s.next_sampler s.samplers_ }, some s.next_sampler) ∧
      samplerHandled d = true ∧
      scanSampler s.sampler_info d (mapFind (hash d) s.samplers_) = none) := by
  unfold DemandSampler
  cases hs : scanSampler s.sampler_info d (mapFind (hash d) s.samplers_) with
  | some a =>
    obtain ⟨h1, e, he, h2⟩ := scanSampler_some _ _ _ _ hs
    exact Or.inl ⟨rfl, Or.inl ⟨a, rfl, h1, e, mapFind_subset _ _ e he, h2⟩⟩
  | none =>
    by_cases hh : samplerHandled d = true
    · by_cases hk : host_ok = true
      · right
        simp [hh, hk]
      · left
        simp [hh, hk]
    · left
      simp [hh]

theorem SamplersOk_DemandSampler (hash : SamplerInfo → Nat) (s : SamplerCache)
    (d : SamplerInfo) (host_ok : Bool) (h : SamplersOk hash s) :
    SamplersOk hash (DemandSampler hash s d host_ok).1 := by
  rcases DemandSampler_cases hash s d host_ok with ⟨h1, -⟩ | ⟨h1, hh, -⟩
  · rw [h1]; exact h
  · rw [h1]
    obtain ⟨hn, he⟩ := h
    refine ⟨?_, ?_⟩
    · show ((mapAssign (hash d) s.next_sampler s.samplers_).map Prod.fst).Nodup
      rw [mapAssign_keys]
      split_ifs with hk
      · exact hn
      · refine List.Nodup.append hn (List.nodup_singleton _) ?_
        intro x hx hx'
        simp only [List.mem_singleton] at hx'
        exact hk (hx' ▸ hx)
    · intro e hmem
      rcases mem_mapAssign _ _ _ _ hmem with hmem | hmem
      · subst hmem
        simp [hh]
      · obtain ⟨e1, e2, e3⟩ := he e hmem
        have hne : e.2 ≠ s.next_sampler := Nat.ne_of_lt e3
        simp only [Function.update_noteq hne]
        exact ⟨e1, e2, Nat.lt_succ_of_lt e3⟩

theorem SamplerCached_of_result (hash : SamplerInfo → Nat) (s : SamplerCache)
    (d : SamplerInfo) (host_ok : Bool) (a : Nat) (h : SamplersOk hash s)
    (hr : (DemandSampler hash s d host_ok).2 = some a) :
    SamplerCached hash (DemandSampler hash s d host_ok).1 d a := by
  rcases DemandSampler_cases hash s d host_ok with ⟨h1, h2⟩ | ⟨h1, -, -⟩
  · rw [h1]
    rcases h2 with ⟨a', ha', hi, e, he, hea⟩ | ⟨hn, -⟩
    · rw [ha'] at hr
      simp only [Option.some.injEq] at hr
      subst hr
      obtain ⟨e1, -, e3⟩ := h.2 e he
      rw [hea, hi] at e1
      have hmem : (hash d, a') ∈ s.samplers_ := by
        have : e = (hash d, a') := Prod.ext e1.symm hea
        rw [← this]; exact he
      exact ⟨mapFind_of_mem _ _ _ h.1 hmem, hi, hea ▸ e3⟩
    · rw [hn] at hr; simp at hr
  · rw [h1] at hr ⊢
    simp only [Option.some.injEq] at hr
    subst hr
    exact ⟨mapFind_mapAssign _ _ _, by simp, Nat.lt_succ_self _⟩

theorem SamplerCached_DemandSampler (hash : SamplerInfo → Nat) (s : SamplerCache)
    (d d' : SamplerInfo) (host_ok : Bool) (a : Nat) (h : SamplerCached hash s d a)
    (hne : hash d' = hash d → d' = d) :
    SamplerCached hash (DemandSampler hash s d' host_ok).1 d a := by
  rcases DemandSampler_cases hash s d' host_ok with ⟨h1, -⟩ | ⟨h1, -, hs⟩
  · rw [h1]; exact h
  · by_cases hk : hash d' = hash d
    · have hd := hne hk
      subst hd
      have := DemandSampler_of_cached hash s d' a host_ok h
      rw [this]
      exact h
    · rw [h1]
      obtain ⟨c1, c2, c3⟩ := h
      refine ⟨mapFind_mapAssign_other _ _ _ _ _ (fun h => hk h.symm) c1, ?_, Nat.lt_succ_of_lt c3⟩
      show Function.update s.sampler_info s.next_sampler d' a = d
      rw [Function.update_noteq (Nat.ne_of_lt c3)]
      exact c2

theorem DemandSampler_unhandled (hash : SamplerInfo → Nat) (s : SamplerCache)
    (d : SamplerInfo) (host_ok : Bool) (h : SamplersOk hash s)
    (hd : samplerHandled d = false) : (DemandSampler hash s d host_ok).2 = none := by
  rcases DemandSampler_cases hash s d host_ok with ⟨-, h2⟩ | ⟨-, hh, -⟩
  · rcases h2 with ⟨a, -, hi, e, he, hea⟩ | ⟨hn, -⟩
    · obtain ⟨-, e2, -⟩ := h.2 e he
      rw [hea, hi, hd] at e2
      simp at e2
    · exact hn
  · rw [hd] at hh; simp at hh

theorem demandSamplers_append (hash : SamplerInfo → Nat) (l1 l2 : List SamplerInfo) :
    ∀ s : SamplerCache, demandSamplers hash s (l1 ++ l2) =
      ((demandSamplers hash (demandSamplers hash s l1).1 l2).1,
       (demandSamplers hash s l1).2 ++ (demandSamplers hash (demandSamplers hash s l1).1 l2).2) := by
  induction l1 with
  | nil => intro s; simp [demandSamplers]
  | cons d l1 ih => intro s; simp [demandSamplers, ih]

theorem demandSamplers_length (hash : SamplerInfo → Nat) (l : List SamplerInfo) :
    ∀ s : SamplerCache, (demandSamplers hash s l).2.length = l.length := by
  induction l with
  | nil => intro s; simp [demandSamplers]
  | cons d l ih => intro s; simp [demandSamplers, ih]

theorem SamplersOk_demandSamplers (hash : SamplerInfo → Nat) (l : List SamplerInfo) :
    ∀ s : SamplerCache, SamplersOk hash s → SamplersOk hash (demandSamplers hash s l).1 := by
  induction l with
  | nil => intro s h; exact h
  | cons d l ih =>
    intro s h
    exact ih _ (SamplersOk_DemandSampler hash s d true h)

theorem SamplerCached_demandSamplers (hash : SamplerInfo → Nat) (d : SamplerInfo) (a : Nat)
    (l : List SamplerInfo) :
    ∀ s : SamplerCache, SamplerCached hash s d a →
      (∀ d' ∈ l, hash d' = hash d → d' = d) →
      SamplerCached hash (demandSamplers hash s l).1 d a := by
  induction l with
  | nil => intro s h _; exact h
  | cons x l ih =>
    intro s h hl
    exact ih _ (SamplerCached_DemandSampler hash s d x true a h
      (hl x (List.mem_cons_self x l))) (fun d' hd' => hl d' (List.mem_cons_of_mem x hd'))

theorem SamplersOk_empty (hash : SamplerInfo → Nat) : SamplersOk hash SamplerCache.empty := by
  simp [SamplersOk, SamplerCache.empty]

theorem getElem?_two_marks {α : Type} (A B C : List α) (x y : α) :
    (A ++ (x :: (B ++ (y :: C))))[A.length]? = some x ∧
    (A ++ (x :: (B ++ (y :: C))))[A.length + 1 + B.length]? = some y := by
  constructor
  · rw [List.getElem?_append_right (Nat.le_refl _)]
    simp
  · rw [List.getElem?_append_right (by omega)]
    have h : A.length + 1 + B.length - A.length = B.length + 1 := by omega
    rw [h, List.getElem?_cons_succ, List.getElem?_append_right (Nat.le_refl _)]
    simp

/-! ## C4 -/

/-- C4 (counterexample).  Under a hash that collides, the calls `Demand` of
`samplerPoint`, of `samplerLinear` and of `samplerPoint` again, from the empty
cache and with sampler creation succeeding, return the samplers 0, 1 and 2: the
first and the third call have the same description and return different
instances, because `samplers_[sampler_hash] = sampler` of the second call
overwrote the entry of the first. -/
theorem sampler_collision_loses_instance :
    (demandSamplers samplerHashConst SamplerCache.empty
      [samplerPoint, samplerLinear, samplerPoint]).2 = [some 0, some 1, some 2] ∧
    (demandSamplers samplerHashConst SamplerCache.empty
      [samplerPoint, samplerLinear, samplerPoint]).2[0]? ≠
    (demandSamplers samplerHashConst SamplerCache.empty
      [samplerPoint, samplerLinear, samplerPoint]).2[2]? := by
  decide

/-- C4 (amended).  Sampler identity.  In every sequence of sampler `Demand`
calls from the empty cache with sampler creation succeeding, two calls with the
same description `d` return the same result, whatever was demanded in between,
provided no description demanded in between has the hash of `d` while
differing from `d`; the result is a sampler instance when the filter
enumerants of `d` are among those `Demand` handles. -/
theorem sampler_demand_returns_same_instance (hash : SamplerInfo → Nat)
    (before between after : List SamplerInfo) (d : SamplerInfo)
    (hno : ∀ d' ∈ between, hash d' = hash d → d' = d) :
    (demandSamplers hash SamplerCache.empty
      (before ++ (d :: (between ++ (d :: after))))).2[before.length]? =
    (demandSamplers hash SamplerCache.empty
      (before ++ (d :: (between ++ (d :: after))))).2[before.length + 1 + between.length]? ∧
    (samplerHandled d = true →
      ∃ a, (demandSamplers hash SamplerCache.empty
        (before ++ (d :: (between ++ (d :: after))))).2[before.length]? = some (some a)) := by
  have hw0 : SamplersOk hash (demandSamplers hash SamplerCache.empty before).1 :=
    SamplersOk_demandSamplers hash before _ (SamplersOk_empty hash)
  generalize hs0 : (demandSamplers hash SamplerCache.empty before).1 = s0 at hw0
  have hw1 : SamplersOk hash (DemandSampler hash s0 d true).1 :=
    SamplersOk_DemandSampler hash s0 d true hw0
  have hw2 : SamplersOk hash
      (demandSamplers hash (DemandSampler hash s0 d true).1 between).1 :=
    SamplersOk_demandSamplers hash between _ hw1
  have hres : (demandSamplers hash SamplerCache.empty
      (before ++ (d :: (between ++ (d :: after))))).2 =
      (demandSamplers hash SamplerCache.empty before).2 ++
        ((DemandSampler hash s0 d true).2 ::
          ((demandSamplers hash (DemandSampler hash s0 d true).1 between).2 ++
            ((DemandSampler hash
                (demandSamplers hash (DemandSampler hash s0 d true).1 between).1 d true).2 ::
              (demandSamplers hash
                (DemandSampler hash
                  (demandSamplers hash (DemandSampler hash s0 d true).1 between).1
                  d true).1 after).2))) := by
    rw [demandSamplers_append, hs0]
    simp only [demandSamplers]
    rw [demandSamplers_append]
    simp only [demandSamplers]
  have hl1 := demandSamplers_length hash before SamplerCache.empty
  have hl2 := demandSamplers_length hash between (DemandSampler hash s0 d true).1
  obtain ⟨m1, m2⟩ := getElem?_two_marks (demandSamplers hash SamplerCache.empty before).2
    (demandSamplers hash (DemandSampler hash s0 d true).1 between).2
    (demandSamplers hash
      (DemandSampler hash (demandSamplers hash (DemandSampler hash s0 d true).1 between).1
        d true).1 after).2
    (DemandSampler hash s0 d true).2
    (DemandSampler hash (demandSamplers hash (DemandSampler hash s0 d true).1 between).1
      d true).2
  rw [hl1, hl2] at m2
  rw [hl1] at m1
  rw [hres, m1, m2]
  cases hr : (DemandSampler hash s0 d true).2 with
  | some a =>
    have hc := SamplerCached_of_result hash s0 d true a hw0 hr
    have hc2 := SamplerCached_demandSamplers hash d a between _ hc hno
    rw [DemandSampler_of_cached hash _ d a true hc2]
    exact ⟨rfl, fun _ => ⟨a, rfl⟩⟩
  | none =>
    have hd : samplerHandled d = false := by
      rcases DemandSampler_cases hash s0 d true with ⟨-, h2⟩ | ⟨h1, -, -⟩
      · rcases h2 with ⟨a, ha, -⟩ | ⟨-, h3⟩
        · rw [ha] at hr; simp at hr
        · simpa using h3
      · rw [h1] at hr; simp at hr
    rw [DemandSampler_unhandled hash _ d true hw2 hd]
    exact ⟨rfl, fun h => by rw [hd] at h; simp at h⟩

/-- Witness of C4: `samplerPoint`, `samplerLinear`, `samplerPoint` under a hash
that tells the two descriptions apart: the first and the third call return the
same sampler. -/
theorem sampler_demand_returns_same_instance_witness :
    (demandSamplers samplerHashFilter SamplerCache.empty
      ([] ++ (samplerPoint :: ([samplerLinear] ++ (samplerPoint :: []))))).2[
        ([] : List SamplerInfo).length]? =
    (demandSamplers samplerHashFilter SamplerCache.empty
      ([] ++ (samplerPoint :: ([samplerLinear] ++ (samplerPoint :: []))))).2[
        ([] : List SamplerInfo).length + 1 + [samplerLinear].length]? ∧
    (samplerHandled samplerPoint = true →
      ∃ a, (demandSamplers samplerHashFilter SamplerCache.empty
        ([] ++ (samplerPoint :: ([samplerLinear] ++ (samplerPoint :: []))))).2[
          ([] : List SamplerInfo).length]? = some (some a)) :=
  sampler_demand_returns_same_instance samplerHashFilter [] [samplerLinear] [] samplerPoint
    (by decide)

/-! ## C11 -/

/-- C11 (counterexample).  The resolve registry holds texture 0, made for the
2D description `info256`; the main table is empty, so the cube description
`info256cube` has no exact match.  `Demand(info256cube)`, here without a
command buffer, does not report a miss: it promotes texture 0, returns it and
inserts it in the main table with the cube description. -/
theorem demand_promotes_for_cube_description :
    info256cube.dimension = Dimension.kCube ∧
    cacheResolved.textures_ = [] ∧
    (Demand hashAddress nonePassed cacheResolved info256cube false true).2 = some 0 ∧
    (Demand hashAddress nonePassed cacheResolved info256cube false true).1.textures_ =
      [(0x1000, 0)] ∧
    ((Demand hashAddress nonePassed cacheResolved info256cube false true).1.tex
      0).texture_info = info256cube := by
  decide

/-- C11 (amended).  For a description whose dimension is not 2D, with no entry
of the main table of equal description and no entry of the resolve registry of
equal guest address and logical width and height, `Demand` reports a miss
whether or not a command buffer is passed, and the state is as before: no
texture is allocated or inserted. -/
theorem demand_non_2d_misses (hash : TextureInfo → Nat) (signaled : Nat → Bool)
    (s : Cache) (texture_info : TextureInfo) (command_buffer host_ok : Bool)
    (hdim : texture_info.dimension ≠ Dimension.k2D)
    (hmain : ∀ e ∈ s.textures_, (s.tex e.2).texture_info ≠ texture_info)
    (hres : ∀ t ∈ s.resolve_textures_,
      ¬ (texture_info.guest_address = (s.tex t).texture_info.guest_address ∧
         texture_info.size_2d.logical_width = (s.tex t).texture_info.size_2d.logical_width ∧
         texture_info.size_2d.logical_height =
           (s.tex t).texture_info.size_2d.logical_height)) :
    Demand hash signaled s texture_info command_buffer host_ok = (s, none) := by
  have h1 : scanExact s.tex texture_info (mapFind (hash texture_info) s.textures_) = none :=
    scanExact_eq_none _ _ _ (fun e he => hmain e (mapFind_subset _ _ e he))
  have h2 : takeResolveMatch (resolveMatches s.tex texture_info) s.resolve_textures_ = none := by
    apply takeResolveMatch_eq_none
    intro t ht
    have := hres t ht
    simp only [resolveMatches]
    by_contra hc
    apply this
    simpa using hc
  cases command_buffer <;> simp [Demand, h1, demandMiss, h2, demandCreate, hdim]

/-- Witness of C11: a cube description at another address than the resolve
texture of `cacheResolved`, demanded with a command buffer. -/
theorem demand_non_2d_misses_witness :
    Demand hashAddress nonePassed cacheResolved
      { info64 with dimension := Dimension.kCube } true true = (cacheResolved, none) :=
  demand_non_2d_misses hashAddress nonePassed cacheResolved
    { info64 with dimension := Dimension.kCube } true true (by decide) (by decide) (by decide)

/-! ## C13, C14 -/

theorem lookupTextures_eq_none (tex : Nat → Texture) (a w h : Nat) (o : Bool)
    (l : List (Nat × Nat)) :
    lookupTextures tex a w h o l = none ↔
      ∀ e ∈ l, (lookupContains (tex e.2).texture_info a w h && o) = false ∧
        lookupExact (tex e.2).texture_info a w h = false := by
  induction l with
  | nil => simp [lookupTextures]
  | cons x l ih =>
    simp only [lookupTextures, List.mem_cons, forall_eq_or_imp]
    by_cases h1 : (lookupContains (tex x.2).texture_info a w h && o) = true
    · simp [h1]
    · by_cases h2 : lookupExact (tex x.2).texture_info a w h = true
      · simp [h1, h2]
      · simp only [h1, h2, Bool.false_eq_true, if_false, ih]
        simp only [Bool.not_eq_true] at h1 h2
        simp [h1, h2]

theorem lookupResolve_eq_none (tex : Nat → Texture) (a w h : Nat) (o : Bool) (l : List Nat) :
    lookupResolve tex a w h o l = none ↔
      ∀ t ∈ l, lookupExact (tex t).texture_info a w h = false := by
  induction l with
  | nil => simp [lookupResolve]
  | cons x l ih =>
    simp only [lookupResolve, List.mem_cons, forall_eq_or_imp]
    by_cases h2 : lookupExact (tex x).texture_info a w h = true
    · simp [h2]
    · simp only [h2, Bool.false_eq_true, if_false, ih]
      simp only [Bool.not_eq_true] at h2
      simp [h2]

theorem lookupTextures_some (tex : Nat → Texture) (a w h : Nat) (o : Bool)
    (l : List (Nat × Nat)) (r : Nat × Option (Nat × Nat))
    (hr : lookupTextures tex a w h o l = some r) :
    ∃ e ∈ l, e.2 = r.1 ∧
      ((lookupContains (tex e.2).texture_info a w h && o) = true ∨
        lookupExact (tex e.2).texture_info a w h = true) := by
  induction l with
  | nil => simp [lookupTextures] at hr
  | cons x l ih =>
    simp only [lookupTextures] at hr
    by_cases h1 : (lookupContains (tex x.2).texture_info a w h && o) = true
    · rw [if_pos h1] at hr
      simp only [Option.some.injEq] at hr
      exact ⟨x, List.mem_cons_self x l, by rw [← hr], Or.inl h1⟩
    · rw [if_neg h1] at hr
      by_cases h2 : lookupExact (tex x.2).texture_info a w h = true
      · rw [if_pos h2] at hr
        simp only [Option.some.injEq] at hr
        exact ⟨x, List.mem_cons_self x l, by rw [← hr], Or.inr h2⟩
      · rw [if_neg h2] at hr
        obtain ⟨e, he, h3, h4⟩ := ih hr
        exact ⟨e, List.mem_cons_of_mem x he, h3, h4⟩

theorem lookupResolve_some (tex : Nat → Texture) (a w h : Nat) (o : Bool) (l : List Nat)
    (r : Nat × Option (Nat × Nat)) (hr : lookupResolve tex a w h o l = some r) :
    r.1 ∈ l ∧ lookupExact (tex r.1).texture_info a w h = true := by
  induction l with
  | nil => simp [lookupResolve] at hr
  | cons x l ih =>
    simp only [lookupResolve] at hr
    by_cases h2 : lookupExact (tex x).texture_info a w h = true
    · rw [if_pos h2] at hr
      simp only [Option.some.injEq] at hr
      rw [← hr]
      exact ⟨List.mem_cons_self x l, h2⟩
    · rw [if_neg h2] at hr
      obtain ⟨h3, h4⟩ := ih hr
      exact ⟨List.mem_cons_of_mem x h3, h4⟩

/-- C13 (counterexample).  Texture 0 of the main table of `cacheUploaded`
(base 0x1000, 262144 bytes, declared 256x256) contains the probe at 0x1400 for
256x128, but `LookupAddress` without an offset pointer returns none.  Texture 0
of the resolve registry of `cacheResolved` contains the same probe, but
`LookupAddress` returns none even with an offset pointer. -/
theorem lookup_misses_contained_probe :
    cacheUploaded.textures_ = [(0x1000, 0)] ∧
    lookupContains (cacheUploaded.tex 0).texture_info 0x1400 256 128 = true ∧
    LookupAddress cacheUploaded 0x1400 256 128 false = none ∧
    cacheResolved.resolve_textures_ = [0] ∧
    lookupContains (cacheResolved.tex 0).texture_info 0x1400 256 128 = true ∧
    LookupAddress cacheResolved 0x1400 256 128 true = none := by
  decide

/-- C13 (amended).  `LookupAddress` returns none if and only if no texture of
the main table matches the probe by containment while the caller passed an
offset pointer (base <= address < base + input_length with the sum reduced to
32 bits, input_width >= width, input_height >= height) or by exact equality
(equal address, 2D, equal input width and height), and no texture of the
resolve registry matches by exact equality.  Otherwise it returns a texture of
one of the stores that matches in this sense. -/
theorem lookup_address_none_iff (s : Cache) (guest_address width height : Nat)
    (out_offset : Bool) :
    (LookupAddress s guest_address width height out_offset = none ↔
      (∀ e ∈ s.textures_,
        (lookupContains (s.tex e.2).texture_info guest_address width height &&
          out_offset) = false ∧
        lookupExact (s.tex e.2).texture_info guest_address width height = false) ∧
      (∀ t ∈ s.resolve_textures_,
        lookupExact (s.tex t).texture_info guest_address width height = false)) ∧
    (∀ r, LookupAddress s guest_address width height out_offset = some r →
      (∃ e ∈ s.textures_, e.2 = r.1 ∧
        ((lookupContains (s.tex e.2).texture_info guest_address width height &&
            out_offset) = true ∨
          lookupExact (s.tex e.2).texture_info guest_address width height = true)) ∨
      (r.1 ∈ s.resolve_textures_ ∧
        lookupExact (s.tex r.1).texture_info guest_address width height = true)) := by
  unfold LookupAddress
  cases hm : lookupTextures s.tex guest_address width height out_offset s.textures_ with
  | some x =>
    constructor
    · constructor
      · intro h; simp at h
      · intro h
        have := (lookupTextures_eq_none _ _ _ _ _ _).2 h.1
        rw [hm] at this
        simp at this
    · intro r hr
      simp only [Option.some.injEq] at hr
      subst hr
      exact Or.inl (lookupTextures_some _ _ _ _ _ _ _ hm)
  | none =>
    have h1 := (lookupTextures_eq_none _ _ _ _ _ _).1 hm
    constructor
    · simp only
      rw [lookupResolve_eq_none]
      exact ⟨fun h => ⟨h1, h⟩, fun h => h.2⟩
    · intro r hr
      exact Or.inr (lookupResolve_some _ _ _ _ _ _ _ hr)


theorem lookupTextures_skip (tex : Nat → Texture) (a w h : Nat) (o : Bool)
    (before rest : List (Nat × Nat))
    (hb : ∀ x ∈ before, (lookupContains (tex x.2).texture_info a w h && o) = false ∧
      lookupExact (tex x.2).texture_info a w h = false) :
    lookupTextures tex a w h o (before ++ rest) = lookupTextures tex a w h o rest ∧
    lookupDividesByZero tex a w h o (before ++ rest) =
      lookupDividesByZero tex a w h o rest := by
  induction before with
  | nil => exact ⟨rfl, rfl⟩
  | cons x l ih =>
    obtain ⟨h1, h2⟩ := hb x (List.mem_cons_self x l)
    obtain ⟨i1, i2⟩ := ih (fun y hy => hb y (List.mem_cons_of_mem x hy))
    simp only [List.cons_append, lookupTextures, lookupDividesByZero, h1, h2,
      Bool.false_eq_true, if_false]
    exact ⟨i1, i2⟩

theorem lookupResolve_skip (tex : Nat → Texture) (a w h : Nat) (o : Bool)
    (before rest : List Nat)
    (hb : ∀ x ∈ before, lookupExact (tex x).texture_info a w h = false) :
    lookupResolve tex a w h o (before ++ rest) = lookupResolve tex a w h o rest := by
  induction before with
  | nil => rfl
  | cons x l ih =>
    have h2 := hb x (List.mem_cons_self x l)
    simp only [List.cons_append, lookupResolve, h2, Bool.false_eq_true, if_false]
    exact ih (fun y hy => hb y (List.mem_cons_of_mem x hy))

/-- C14.  The offset `LookupAddress` reports (the caller passed an offset
pointer).  Let the entry `e` be the first texture of the main table that
matches the probe.  If `e` matches by containment, is 2D and has a non-zero
`input_pitch`, the result is `e` with x = 0 and y = (address - base) /
input_pitch, which is (0, 0) when address = base, and line 710 does not divide
by zero.  If `e` matches by exact equality, the result is `e` with offset
(0, 0) wherever the run is defined (its pitch is not zero or it is not matched
by containment as well).  If no texture of the main table matches and `t` is
the first texture of the resolve registry that matches exactly, the result is
`t` with offset (0, 0). -/
theorem lookup_reports_offset (s : Cache) (guest_address width height : Nat) :
    (∀ (before after : List (Nat × Nat)) (e : Nat × Nat),
      s.textures_ = before ++ e :: after →
      (∀ x ∈ before,
        lookupContains (s.tex x.2).texture_info guest_address width height = false ∧
        lookupExact (s.tex x.2).texture_info guest_address width height = false) →
      (lookupContains (s.tex e.2).texture_info guest_address width height = true →
        (s.tex e.2).texture_info.dimension = Dimension.k2D →
        (s.tex e.2).texture_info.size_2d.input_pitch ≠ 0 →
        LookupAddress s guest_address width height true =
          some (e.2, some (0, (guest_address - (s.tex e.2).texture_info.guest_address) /
            (s.tex e.2).texture_info.size_2d.input_pitch)) ∧
        lookupDividesByZero s.tex guest_address width height true s.textures_ = false ∧
        (guest_address = (s.tex e.2).texture_info.guest_address →
          LookupAddress s guest_address width height true = some (e.2, some (0, 0)))) ∧
      (lookupExact (s.tex e.2).texture_info guest_address width height = true →
        ((s.tex e.2).texture_info.size_2d.input_pitch ≠ 0 ∨
          lookupContains (s.tex e.2).texture_info guest_address width height = false) →
        LookupAddress s guest_address width height true = some (e.2, some (0, 0)) ∧
        lookupDividesByZero s.tex guest_address width height true s.textures_ = false)) ∧
    (∀ (before after : List Nat) (t : Nat),
      (∀ x ∈ s.textures_,
        lookupContains (s.tex x.2).texture_info guest_address width height = false ∧
        lookupExact (s.tex x.2).texture_info guest_address width height = false) →
      s.resolve_textures_ = before ++ t :: after →
      (∀ x ∈ before, lookupExact (s.tex x).texture_info guest_address width height = false) →
      lookupExact (s.tex t).texture_info guest_address width height = true →
      LookupAddress s guest_address width height true = some (t, some (0, 0)) ∧
      lookupDividesByZero s.tex guest_address width height true s.textures_ = false) := by
  constructor
  · intro before after e hsplit hbefore
    have hb : ∀ x ∈ before,
        (lookupContains (s.tex x.2).texture_info guest_address width height && true) = false ∧
        lookupExact (s.tex x.2).texture_info guest_address width height = false := by
      intro x hx
      obtain ⟨h1, h2⟩ := hbefore x hx
      exact ⟨by simp [h1], h2⟩
    obtain ⟨k1, k2⟩ := lookupTextures_skip s.tex guest_address width height true before
      (e :: after) hb
    constructor
    · intro hc hd hp
      have hres : LookupAddress s guest_address width height true =
          some (e.2, some (0, (guest_address - (s.tex e.2).texture_info.guest_address) /
            (s.tex e.2).texture_info.size_2d.input_pitch)) := by
        unfold LookupAddress
        rw [hsplit, k1]
        simp [lookupTextures, hc, hd]
      refine ⟨hres, ?_, ?_⟩
      · rw [hsplit, k2]
        simp [lookupDividesByZero, hc, hd, hp]
      · intro heq
        rw [hres, heq]
        simp
    · intro he hp
      have hdim : (s.tex e.2).texture_info.dimension = Dimension.k2D := by
        simp only [lookupExact, Bool.and_eq_true, decide_eq_true_eq] at he
        exact he.1.1.2
      have haddr : (s.tex e.2).texture_info.guest_address = guest_address := by
        simp only [lookupExact, Bool.and_eq_true, decide_eq_true_eq] at he
        exact he.1.1.1
      by_cases hc : lookupContains (s.tex e.2).texture_info guest_address width height = true
      · have hp' : (s.tex e.2).texture_info.size_2d.input_pitch ≠ 0 := by
          rcases hp with hp | hp
          · exact hp
          · rw [hc] at hp; simp at hp
        constructor
        · unfold LookupAddress
          rw [hsplit, k1]
          simp [lookupTextures, hc, hdim, haddr]
        · rw [hsplit, k2]
          simp [lookupDividesByZero, hc, hdim, hp']
      · simp only [Bool.not_eq_true] at hc
        constructor
        · unfold LookupAddress
          rw [hsplit, k1]
          simp [lookupTextures, hc, he]
        · rw [hsplit, k2]
          simp [lookupDividesByZero, hc, he]
  · intro before after t hmain hsplit hbefore he
    have hb : ∀ x ∈ s.textures_,
        (lookupContains (s.tex x.2).texture_info guest_address width height && true) = false ∧
        lookupExact (s.tex x.2).texture_info guest_address width height = false := by
      intro x hx
      obtain ⟨h1, h2⟩ := hmain x hx
      exact ⟨by simp [h1], h2⟩
    have k1 := (lookupTextures_eq_none s.tex guest_address width height true s.textures_).2 hb
    obtain ⟨-, k2⟩ := lookupTextures_skip s.tex guest_address width height true s.textures_
      [] hb
    constructor
    · unfold LookupAddress
      rw [k1, hsplit]
      simp only
      rw [lookupResolve_skip s.tex guest_address width height true before (t :: after) hbefore]
      simp [lookupResolve, he]
    · rw [List.append_nil] at k2
      rw [k2]
      rfl

/-- Witness of C14: in `cacheUploaded` (texture 0 at 0x1000 with rows of 1024
bytes) the probe at 0x1800 for 256x128 is reported at the offset (0, 2), and
the probe at 0x1000 for 256x256 at (0, 0); in `cacheResolved` the exact probe
finds the resolve texture at (0, 0). -/
theorem lookup_reports_offset_witness :
    LookupAddress cacheUploaded 0x1800 256 128 true = some (0, some (0, 2)) ∧
    LookupAddress cacheUploaded 0x1000 256 256 true = some (0, some (0, 0)) ∧
    LookupAddress cacheResolved 0x1000 256 256 true = some (0, some (0, 0)) :=
  ⟨(((lookup_reports_offset cacheUploaded 0x1800 256 128).1 [] [] (0x1000, 0)
      (by decide) (by decide)).1 (by decide) (by decide) (by decide)).1,
   (((lookup_reports_offset cacheUploaded 0x1000 256 256).1 [] [] (0x1000, 0)
      (by decide) (by decide)).2 (by decide) (by decide)).1,
   ((lookup_reports_offset cacheResolved 0x1000 256 256).2 [] [] 0
      (by decide) (by decide) (by decide) (by decide)).1⟩


/-- Witness of C13: the probe at 0x1400 for 256x128 without an offset pointer
finds nothing in `cacheUploaded`, and the exact probe finds texture 0. -/
theorem lookup_address_none_iff_witness :
    LookupAddress cacheUploaded 0x1400 256 128 false = none ∧
    ((∃ e ∈ cacheUploaded.textures_, e.2 = 0 ∧
        ((lookupContains (cacheUploaded.tex e.2).texture_info 0x1000 256 256 && false) = true ∨
          lookupExact (cacheUploaded.tex e.2).texture_info 0x1000 256 256 = true)) ∨
      ((0, (none : Option (Nat × Nat))).1 ∈ cacheUploaded.resolve_textures_ ∧
        lookupExact (cacheUploaded.tex (0, (none : Option (Nat × Nat))).1).texture_info
          0x1000 256 256 = true)) :=
  ⟨(lookup_address_none_iff cacheUploaded 0x1400 256 128 false).1.2 ⟨by decide, by decide⟩,
   (lookup_address_none_iff cacheUploaded 0x1000 256 256 false).2 (0, none) (by decide)⟩

/-! ## C19, C20 -/

/-- C19 (failing input).  The swizzle 0x68F has 7 in its field at bits 0-2 (and
1, 2, 3 in the others).  `swiz_component_map` has seven entries, the indices 0
to 6, so the lookup of line 532 reads outside the table: `DemandView` on a
texture without a view for this swizzle has no defined result. -/
theorem swizzle_field_seven_is_out_of_bounds :
    0x68F < 2 ^ 16 ∧
    swizzleField 0x68F 0 = 7 ∧ swizzleField 0x68F 3 = 1 ∧
    swizzleField 0x68F 6 = 2 ∧ swizzleField 0x68F 9 = 3 ∧
    swiz_component_map.length = 7 ∧
    swiz_component_map[swizzleField 0x68F 0]? = none ∧
    viewComponents 0x68F = none ∧
    DemandView [] 0x68F true 0 = none := by
  decide

/-- C20 (failing input).  For `info16in32rows` (linear, tag 16-in-32, rows of
256 bytes in guest memory and 512 bytes in the staging allocation, two rows)
each row call of `TextureSwap` copies `pitch` = 256 words, 1024 bytes.  The
staging byte at 300, in the padding of row 0, is overwritten with the guest
byte at 302; the staging byte at 1100, past the 2 * 512 bytes of the
destination, is overwritten with the guest byte at 846, past the 2 * 256 bytes
of the source. -/
theorem upload_rows_16in32_overrun :
    info16in32rows.is_tiled = false ∧
    info16in32rows.size_2d.input_pitch ≠ info16in32rows.size_2d.output_pitch ∧
    min info16in32rows.size_2d.block_height info16in32rows.size_2d.logical_height = 2 ∧
    min info16in32rows.size_2d.input_pitch info16in32rows.size_2d.output_pitch = 256 ∧
    uploadLinear info16in32rows guestBytes zeroBytes 300 = guestBytes 302 ∧
    uploadLinear info16in32rows guestBytes zeroBytes 300 ≠ zeroBytes 300 ∧
    uploadLinear info16in32rows guestBytes zeroBytes 1100 = guestBytes 846 ∧
    uploadLinear info16in32rows guestBytes zeroBytes 1100 ≠ zeroBytes 1100 := by
  have key : ∀ a, uploadLinear info16in32rows guestBytes zeroBytes a =
      if 512 ≤ a ∧ a < 512 + 4 * 256 then
        guestBytes (256 + endianSource Endian.k16in32 (a - 512))
      else if 0 ≤ a ∧ a < 0 + 4 * 256 then
        guestBytes (0 + endianSource Endian.k16in32 (a - 0))
      else zeroBytes a := by
    intro a
    have h1 : uploadLinear info16in32rows guestBytes zeroBytes =
        TextureSwap Endian.k16in32
          (TextureSwap Endian.k16in32 zeroBytes 0 guestBytes 0 256) 512 guestBytes 256 256 := by
      rfl
    rw [h1, TextureSwap_apply, TextureSwap_apply]
  refine ⟨rfl, by decide, by decide, by decide, ?_, ?_, ?_, ?_⟩
  · rw [key]; decide
  · rw [key]; decide
  · rw [key]; decide
  · rw [key]; decide

/-! ## C17 -/

theorem poolWrite_concat (e : ImageSetInfo) (l : List DescriptorInfo) (last : DescriptorInfo) :
    poolWrite e (l ++ [last]) =
      l ++ (if last.dimension = e.dimension ∧
              last.tf_binding_base + last.infos.length = e.tf_binding then
            [{ last with infos := last.infos ++ [e.info] }]
          else
            [last, { dimension := e.dimension, tf_binding_base := e.tf_binding
                     infos := [e.info] }]) := by
  induction l with
  | nil => simp [poolWrite]
  | cons d l ih =>
    cases l with
    | nil =>
      simp only [List.nil_append] at ih
      simp only [List.cons_append, List.nil_append, poolWrite, ih]
    | cons d' l' =>
      simp only [List.cons_append] at ih ⊢
      simp only [poolWrite, ih]

theorem RunsOf_nil : RunsOf [] [] := by
  simp [RunsOf]

theorem RunsOf_step (runs : List (ImageSetInfo × List ImageSetInfo))
    (done : List ImageSetInfo) (e : ImageSetInfo) (h : RunsOf runs done) :
    ∃ runs', RunsOf runs' (done ++ [e]) ∧
      poolWrite e (runs.map batchOfRun) = runs'.map batchOfRun := by
  obtain ⟨h1, h2, h3⟩ := h
  rcases List.eq_nil_or_concat runs with hnil | ⟨rs, r, hrs⟩
  · subst hnil
    simp only [List.flatMap_nil] at h1
    subst h1
    refine ⟨[(e, [])], ⟨by simp, ?_, by simp⟩, by simp [poolWrite, batchOfRun]⟩
    intro r hr k x hx
    simp only [List.mem_singleton] at hr
    subst hr
    cases k with
    | zero => simp at hx; subst hx; simp
    | succ k => simp at hx
  · rw [List.concat_eq_append] at hrs
    subst hrs
    rw [List.map_append, List.map_singleton, poolWrite_concat]
    have hlen : (batchOfRun r).infos.length = r.2.length + 1 := by simp [batchOfRun]
    have hchain := List.chain'_append.1 h3
    by_cases hc : (batchOfRun r).dimension = e.dimension ∧
        (batchOfRun r).tf_binding_base + (batchOfRun r).infos.length = e.tf_binding
    · rw [if_pos hc]
      refine ⟨rs ++ [(r.1, r.2 ++ [e])], ⟨?_, ?_, ?_⟩, ?_⟩
      · rw [← h1]; simp
      · intro x hx k y hy
        rcases List.mem_append.1 hx with hx | hx
        · exact h2 x (List.mem_append_left _ hx) k y hy
        · simp only [List.mem_singleton] at hx
          subst hx
          simp only at hy
          by_cases hk : k < (r.1 :: r.2).length
          · have : (r.1 :: (r.2 ++ [e]))[k]? = (r.1 :: r.2)[k]? := by
              rw [← List.cons_append, List.getElem?_append_left hk]
            rw [this] at hy
            exact h2 r (List.mem_append_right _ (List.mem_singleton_self r)) k y hy
          · have hk' : (r.1 :: r.2).length ≤ k := Nat.le_of_not_lt hk
            rw [← List.cons_append, List.getElem?_append_right hk'] at hy
            have hk0 : k - (r.1 :: r.2).length = 0 := by
              by_contra hne
              have : ([e] : List ImageSetInfo)[k - (r.1 :: r.2).length]? = none := by
                apply List.getElem?_eq_none
                simp only [List.length_singleton]
                omega
              rw [this] at hy
              simp at hy
            rw [hk0] at hy
            simp only [List.getElem?_cons_zero, Option.some.injEq] at hy
            subst hy
            simp only [List.length_cons] at hk0 hk'
            have hk1 : k = r.2.length + 1 := by omega
            rw [hlen] at hc
            exact ⟨hc.1.symm, by rw [hk1]; exact hc.2.symm⟩
      · refine List.chain'_append.2 ⟨hchain.1, by simp, ?_⟩
        intro x hx y hy
        simp only [List.head?_cons, Option.mem_def, Option.some.injEq] at hy
        subst hy
        exact hchain.2.2 x hx r (by simp)
      · simp [batchOfRun]
    · rw [if_neg hc]
      refine ⟨(rs ++ [r]) ++ [(e, [])], ⟨?_, ?_, ?_⟩, ?_⟩
      · rw [← h1]; simp
      · intro x hx k y hy
        rcases List.mem_append.1 hx with hx | hx
        · exact h2 x hx k y hy
        · simp only [List.mem_singleton] at hx
          subst hx
          cases k with
          | zero => simp at hy; subst hy; simp
          | succ k => simp at hy
      · refine List.chain'_append.2 ⟨h3, by simp, ?_⟩
        intro x hx y hy
        rw [List.getLast?_concat] at hx
        simp only [Option.mem_def, Option.some.injEq] at hx
        simp only [List.head?_cons, Option.mem_def, Option.some.injEq] at hy
        subst hx hy
        intro hcont
        apply hc
        rw [hlen]
        exact hcont
      · simp [batchOfRun]

theorem RunsOf_foldl (es : List ImageSetInfo) :
    ∀ (runs : List (ImageSetInfo × List ImageSetInfo)) (done : List ImageSetInfo),
      RunsOf runs done →
      ∃ runs', RunsOf runs' (done ++ es) ∧
        es.foldl (fun acc image_info => poolWrite image_info acc) (runs.map batchOfRun) =
          runs'.map batchOfRun := by
  induction es with
  | nil =>
    intro runs done h
    exact ⟨runs, by simpa using h, rfl⟩
  | cons e es ih =>
    intro runs done h
    obtain ⟨runs1, h1, e1⟩ := RunsOf_step runs done e h
    obtain ⟨runs2, h2, e2⟩ := ih runs1 (done ++ [e]) h1
    refine ⟨runs2, by simpa using h2, ?_⟩
    simp only [List.foldl_cons, e1, e2]

theorem batches_infos (runs : List (ImageSetInfo × List ImageSetInfo)) :
    (runs.map batchOfRun).flatMap (fun b => b.infos) =
      (runs.flatMap (fun r => r.1 :: r.2)).map (fun e => e.info) ∧
    ((runs.map batchOfRun).map (fun b => b.infos.length)).sum =
      (runs.flatMap (fun r => r.1 :: r.2)).length := by
  induction runs with
  | nil => simp
  | cons r rs ih =>
    obtain ⟨i1, i2⟩ := ih
    constructor
    · simp only [List.map_cons, List.flatMap_cons, i1, List.map_append]
      simp [batchOfRun]
    · simp only [List.map_cons, List.sum_cons, i2, List.flatMap_cons, List.length_append]
      simp [batchOfRun]

/-- C17.  Descriptor-write batching.  For every sequence of recorded image
elements the entries of `descriptor_update_infos` are the batches of a
partition of the sequence into consecutive runs: the runs concatenated give
back the sequence, so the `infos` of the batches concatenated are the `info`
of the elements in order and the descriptor counts of the writes sum to the
number of elements; the k-th element of a run has the dimension of its batch
and the slot `tf_binding_base + k`; and the runs are maximal: the first element
of a batch never has the dimension of the batch before it together with the
slot that equals the base of that batch plus its size. -/
theorem descriptor_writes_partition_entries (descriptor_set : Nat)
    (entries : List ImageSetInfo) :
    ∃ runs : List (ImageSetInfo × List ImageSetInfo),
      descriptorUpdateInfos entries = runs.map batchOfRun ∧
      runs.flatMap (fun r => r.1 :: r.2) = entries ∧
      (descriptorUpdateInfos entries).flatMap (fun b => b.infos) =
        entries.map (fun e => e.info) ∧
      ((descriptorWrites descriptor_set (descriptorUpdateInfos entries)).map
        (fun w => w.descriptorCount)).sum = entries.length ∧
      (∀ r ∈ runs, ∀ (k : Nat) (e : ImageSetInfo), (r.1 :: r.2)[k]? = some e →
        e.dimension = (batchOfRun r).dimension ∧
        e.tf_binding = (batchOfRun r).tf_binding_base + k) ∧
      List.Chain' (fun r1 r2 =>
        ¬ ((batchOfRun r1).dimension = (batchOfRun r2).dimension ∧
           (batchOfRun r2).tf_binding_base =
             (batchOfRun r1).tf_binding_base + (batchOfRun r1).infos.length)) runs := by
  obtain ⟨runs, ⟨h1, h2, h3⟩, he⟩ := RunsOf_foldl entries [] [] RunsOf_nil
  simp only [List.nil_append, List.map_nil] at h1 he
  have hb : descriptorUpdateInfos entries = runs.map batchOfRun := he
  obtain ⟨b1, b2⟩ := batches_infos runs
  refine ⟨runs, hb, h1, ?_, ?_, h2, ?_⟩
  · rw [hb, b1, h1]
  · rw [hb]
    simp only [descriptorWrites, List.map_map]
    have : ((fun w : VkWriteDescriptorSet => w.descriptorCount) ∘
        (fun update_info : DescriptorInfo =>
          ({ dstSet := descriptor_set
             dstBinding :=
               match update_info.dimension with
               | Dimension.k1D => 0
               | Dimension.k2D => 1
               | Dimension.k3D => 2
               | Dimension.kCube => 3
             dstArrayElement := update_info.tf_binding_base
             descriptorCount := update_info.infos.length
             pImageInfo := update_info.infos } : VkWriteDescriptorSet)) ∘ batchOfRun) =
        (fun b : DescriptorInfo => b.infos.length) ∘ batchOfRun := rfl
    rw [this, ← List.map_map, b2, h1]
  · refine List.Chain'.imp ?_ h3
    intro r1 r2 hn hc
    apply hn
    obtain ⟨c1, c2⟩ := hc
    refine ⟨c1, ?_⟩
    have hlen : (batchOfRun r1).infos.length = r1.2.length + 1 := by simp [batchOfRun]
    rw [hlen] at c2
    exact c2.symm

/-- An example of the batching: the 2D elements at the slots 0, 1, 2, a cube
element at slot 3 and a 2D element at slot 5 give three batches. -/
theorem descriptor_writes_example :
    descriptorUpdateInfos
      [⟨Dimension.k2D, 0, ⟨10, 1⟩⟩, ⟨Dimension.k2D, 1, ⟨11, 1⟩⟩, ⟨Dimension.k2D, 2, ⟨12, 1⟩⟩,
       ⟨Dimension.kCube, 3, ⟨13, 1⟩⟩, ⟨Dimension.k2D, 5, ⟨14, 1⟩⟩] =
      [⟨Dimension.k2D, 0, [⟨10, 1⟩, ⟨11, 1⟩, ⟨12, 1⟩]⟩, ⟨Dimension.kCube, 3, [⟨13, 1⟩]⟩,
       ⟨Dimension.k2D, 5, [⟨14, 1⟩]⟩] := by
  decide

/-! ## C16 -/

/-- C16 (counterexample).  Fetch constant 0 of `regsSample` has the type tag 0,
which is not the texture-fetch tag 0x2; `SetupTextureBinding` for it reports
success (it returns `true`), recording no image element. -/
theorem setup_binding_accepts_disabled_fetch :
    regsSample.fetch_type 0 = 0 ∧ regsSample.fetch_type 0 ≠ 2 ∧
    (SetupTextureBinding hashAddress samplerHashFilter regsSample hostSample drawEmpty
      ⟨0, 0⟩).map (fun r => r.2) = some true ∧
    (SetupTextureBinding hashAddress samplerHashFilter regsSample hostSample drawEmpty
      ⟨0, 0⟩).map (fun r => r.1.update_set_info.image_infos) = some [] := by
  decide

/-- C16 (amended).  Fetch rejection.  For a fetch constant with the type tag 0
`SetupTextureBinding` reports success and leaves the state as it is, so it
records no image element.  For a fetch constant whose type tag is 0x2 (or is
not 0, in a build without assertions) and whose texture or sampler description
fails to decode, `SetupTextureBinding` reports failure and leaves the state as
it is, so it records no image element. -/
theorem setup_binding_rejects_undecodable (hash : TextureInfo → Nat)
    (sampler_hash : SamplerInfo → Nat) (regs : RegisterFile) (host : Host) (st : DrawState)
    (binding : TextureBinding) :
    (regs.fetch_type binding.fetch_constant = 0 →
      SetupTextureBinding hash sampler_hash regs host st binding = some (st, true)) ∧
    ((regs.fetch_type binding.fetch_constant = 2 ∨
        (regs.fetch_type binding.fetch_constant ≠ 0 ∧ host.asserts = false)) →
      (regs.texture_info binding.fetch_constant = none ∨
        regs.sampler_info binding.fetch_constant binding.fetch_instr = none) →
      SetupTextureBinding hash sampler_hash regs host st binding = some (st, false)) := by
  constructor
  · intro h0
    simp [SetupTextureBinding, h0]
  · intro ht hd
    have h0 : regs.fetch_type binding.fetch_constant ≠ 0 := by
      rcases ht with h | h
      · rw [h]; decide
      · exact h.1
    have ha : (host.asserts && decide (regs.fetch_type binding.fetch_constant ≠ 2)) = false := by
      rcases ht with h | h
      · simp [h]
      · simp [h.2]
    unfold SetupTextureBinding
    rw [if_neg h0, ha]
    simp only [Bool.false_eq_true, if_false]
    rcases hd with hd | hd
    · rw [hd]
    · rw [hd]
      cases regs.texture_info binding.fetch_constant <;> rfl

/-- Witness of C16: in `regsSample` the binding of the disabled fetch constant
0 is accepted without effect, and the binding of the texture fetch constant 3,
whose description does not decode, is rejected without effect. -/
theorem setup_binding_rejects_undecodable_witness :
    SetupTextureBinding hashAddress samplerHashFilter regsSample hostSample drawEmpty ⟨0, 0⟩ =
      some (drawEmpty, true) ∧
    SetupTextureBinding hashAddress samplerHashFilter regsSample hostSample drawEmpty ⟨3, 0⟩ =
      some (drawEmpty, false) :=
  ⟨(setup_binding_rejects_undecodable hashAddress samplerHashFilter regsSample hostSample
      drawEmpty ⟨0, 0⟩).1 (by decide),
   (setup_binding_rejects_undecodable hashAddress samplerHashFilter regsSample hostSample
      drawEmpty ⟨3, 0⟩).2 (by decide) (by decide)⟩

/-! ## C15 -/

theorem and_two_pow_eq_zero (n i : Nat) : n &&& 2 ^ i = 0 ↔ n.testBit i = false := by
  constructor
  · intro h
    have := Nat.testBit_and n (2 ^ i) i
    rw [h, Nat.testBit_two_pow_self] at this
    simpa using this.symm
  · intro h
    apply Nat.eq_of_testBit_eq
    intro j
    rw [Nat.testBit_and, Nat.testBit_two_pow]
    by_cases hj : i = j
    · subst hj; simp [h]
    · simp [hj]

theorem fetch_bit_eq (fc : Nat) (h : fc < 32) : u32 (1 <<< fc) = 2 ^ fc := by
  unfold u32
  rw [Nat.one_shiftLeft]
  exact Nat.mod_eq_of_lt (Nat.pow_lt_pow_right (by decide) h)

theorem MaskMarks_or (mask : Nat) (seen : List Nat) (fc : Nat) (h : MaskMarks mask seen) :
    MaskMarks (mask ||| 2 ^ fc) (fc :: seen) := by
  intro i hi
  rw [Nat.testBit_or, Nat.testBit_two_pow]
  have := h i hi
  by_cases hfc : fc = i
  · subst hfc; simp
  · have hne : ¬ i = fc := fun h => hfc h.symm
    simp [hfc, hne, this]

theorem SetupTextureBinding_frame (hash : TextureInfo → Nat) (sampler_hash : SamplerInfo → Nat)
    (regs : RegisterFile) (host : Host) (st : DrawState) (binding : TextureBinding)
    (r : DrawState × Bool)
    (h : SetupTextureBinding hash sampler_hash regs host st binding = some r) :
    r.1.setup_calls = st.setup_calls ∧
    r.1.update_set_info.has_setup_fetch_mask = st.update_set_info.has_setup_fetch_mask ∧
    (r.1.update_set_info.image_infos = st.update_set_info.image_infos ∨
      ∃ e : ImageSetInfo, e.tf_binding = binding.fetch_constant ∧
        r.1.update_set_info.image_infos = st.update_set_info.image_infos ++ [e]) := by
  unfold SetupTextureBinding at h
  split_ifs at h
  · simp only [Option.some.injEq] at h
    subst h
    exact ⟨rfl, rfl, Or.inl rfl⟩
  · split at h
    · simp only [Option.some.injEq] at h
      subst h
      exact ⟨rfl, rfl, Or.inl rfl⟩
    · split at h
      · simp only [Option.some.injEq] at h
        subst h
        exact ⟨rfl, rfl, Or.inl rfl⟩
      · simp only at h
        split at h
        · split at h
          · simp at h
          · simp at h
          · simp only [Option.some.injEq] at h
            subst h
            exact ⟨rfl, rfl, Or.inr ⟨_, rfl, rfl⟩⟩
        · simp only [Option.some.injEq] at h
          subst h
          exact ⟨rfl, rfl, Or.inl rfl⟩

theorem firstOccurrences_congr (l : List TextureBinding) :
    ∀ s1 s2 : List Nat, (∀ i, i ∈ s1 ↔ i ∈ s2) →
      firstOccurrences s1 l = firstOccurrences s2 l := by
  induction l with
  | nil => intro s1 s2 _; rfl
  | cons b l ih =>
    intro s1 s2 h
    by_cases hb : b.fetch_constant ∈ s1
    · have hb2 := (h _).1 hb
      simp only [firstOccurrences, hb, hb2, if_true]
      exact ih s1 s2 h
    · have hb2 : b.fetch_constant ∉ s2 := fun h2 => hb ((h _).2 h2)
      simp only [firstOccurrences, hb, hb2, if_false]
      rw [ih (b.fetch_constant :: s1) (b.fetch_constant :: s2)]
      intro i
      simp only [List.mem_cons, h i]

theorem firstOccurrences_append (l1 l2 : List TextureBinding) :
    ∀ seen seen' : List Nat,
      (∀ i, i ∈ seen' ↔ i ∈ seen ∨ i ∈ l1.map (fun b => b.fetch_constant)) →
      firstOccurrences seen (l1 ++ l2) =
        firstOccurrences seen l1 ++ firstOccurrences seen' l2 := by
  induction l1 with
  | nil =>
    intro seen seen' h
    simp only [List.nil_append, firstOccurrences]
    exact firstOccurrences_congr l2 seen seen' (fun i => by simp [h i])
  | cons b l1 ih =>
    intro seen seen' h
    by_cases hb : b.fetch_constant ∈ seen
    · simp only [List.cons_append, firstOccurrences, hb, if_true]
      apply ih
      intro i
      rw [h i]
      simp only [List.map_cons, List.mem_cons]
      constructor
      · rintro (h1 | h1 | h1)
        · exact Or.inl h1
        · exact Or.inl (h1 ▸ hb)
        · exact Or.inr h1
      · rintro (h1 | h1)
        · exact Or.inl h1
        · exact Or.inr (Or.inr h1)
    · simp only [List.cons_append, firstOccurrences, hb, if_false, List.cons.injEq, true_and]
      apply ih
      intro i
      rw [h i]
      simp only [List.map_cons, List.mem_cons]
      constructor
      · rintro (h1 | h1 | h1)
        · exact Or.inl (Or.inr h1)
        · exact Or.inl (Or.inl h1)
        · exact Or.inr h1
      · rintro ((h1 | h1) | h1)
        · exact Or.inr (Or.inl h1)
        · exact Or.inl h1
        · exact Or.inr (Or.inr h1)

theorem firstOccurrences_nodup (l : List TextureBinding) :
    ∀ seen : List Nat,
      ((firstOccurrences seen l).map (fun b => b.fetch_constant)).Nodup ∧
      (∀ b ∈ firstOccurrences seen l, b.fetch_constant ∉ seen ∧ b ∈ l) := by
  induction l with
  | nil => intro seen; simp [firstOccurrences]
  | cons b l ih =>
    intro seen
    by_cases hb : b.fetch_constant ∈ seen
    · simp only [firstOccurrences, hb, if_true]
      obtain ⟨i1, i2⟩ := ih seen
      exact ⟨i1, fun x hx => ⟨(i2 x hx).1, List.mem_cons_of_mem b (i2 x hx).2⟩⟩
    · simp only [firstOccurrences, hb, if_false]
      obtain ⟨i1, i2⟩ := ih (b.fetch_constant :: seen)
      constructor
      · simp only [List.map_cons, List.nodup_cons]
        refine ⟨?_, i1⟩
        intro hmem
        obtain ⟨x, hx, hxe⟩ := List.mem_map.1 hmem
        have := (i2 x hx).1
        apply this
        rw [hxe]
        exact List.mem_cons_self _ _
      · intro x hx
        rcases List.mem_cons.1 hx with hx | hx
        · subst hx
          exact ⟨hb, List.mem_cons_self _ _⟩
        · have := i2 x hx
          exact ⟨fun h => this.1 (List.mem_cons_of_mem _ h), List.mem_cons_of_mem b this.2⟩

theorem setupBindingsLoop_calls (hash : TextureInfo → Nat) (sampler_hash : SamplerInfo → Nat)
    (regs : RegisterFile) (host : Host) (bs : List TextureBinding) :
    ∀ (st : DrawState) (any_failed : Bool) (seen : List Nat) (r : DrawState × Bool),
      MaskMarks st.update_set_info.has_setup_fetch_mask seen →
      (∀ b ∈ bs, b.fetch_constant < 32) →
      setupBindingsLoop hash sampler_hash regs host st any_failed bs = some r →
      r.1.setup_calls = st.setup_calls ++ firstOccurrences seen bs ∧
      (∃ seen', MaskMarks r.1.update_set_info.has_setup_fetch_mask seen' ∧
        ∀ i, i ∈ seen' ↔ i ∈ seen ∨ i ∈ bs.map (fun b => b.fetch_constant)) ∧
      ∃ added : List ImageSetInfo,
        r.1.update_set_info.image_infos = st.update_set_info.image_infos ++ added ∧
        (added.map (fun e => e.tf_binding)).Sublist
          ((firstOccurrences seen bs).map (fun b => b.fetch_constant)) := by
  induction bs with
  | nil =>
    intro st any_failed seen r hm _ h
    simp only [setupBindingsLoop, Option.some.injEq] at h
    subst h
    exact ⟨by simp [firstOccurrences], ⟨seen, hm, by simp⟩, [], by simp, by simp⟩
  | cons b bs ih =>
    intro st any_failed seen r hm hlt h
    have hb : b.fetch_constant < 32 := hlt b (List.mem_cons_self b bs)
    have hlt' : ∀ x ∈ bs, x.fetch_constant < 32 := fun x hx => hlt x (List.mem_cons_of_mem b hx)
    have hbit := fetch_bit_eq b.fetch_constant hb
    simp only [setupBindingsLoop, hbit] at h
    by_cases hseen : b.fetch_constant ∈ seen
    · have htb : st.update_set_info.has_setup_fetch_mask.testBit b.fetch_constant = true :=
        (hm _ hb).2 hseen
      have hne : ¬ st.update_set_info.has_setup_fetch_mask &&& 2 ^ b.fetch_constant = 0 := by
        rw [and_two_pow_eq_zero, htb]; simp
      rw [if_neg hne] at h
      obtain ⟨i1, ⟨seen', i2, i3⟩, i4⟩ := ih st any_failed seen r hm hlt' h
      refine ⟨by simpa [firstOccurrences, hseen] using i1, ⟨seen', i2, ?_⟩, ?_⟩
      · intro i
        rw [i3 i]
        simp only [List.map_cons, List.mem_cons]
        constructor
        · rintro (h1 | h1)
          · exact Or.inl h1
          · exact Or.inr (Or.inr h1)
        · rintro (h1 | h1 | h1)
          · exact Or.inl h1
          · exact Or.inl (h1 ▸ hseen)
          · exact Or.inr h1
      · simpa [firstOccurrences, hseen] using i4
    · have htb : st.update_set_info.has_setup_fetch_mask.testBit b.fetch_constant = false := by
        have := (hm _ hb)
        cases hc : st.update_set_info.has_setup_fetch_mask.testBit b.fetch_constant with
        | false => rfl
        | true => exact absurd (this.1 hc) hseen
      have heq : st.update_set_info.has_setup_fetch_mask &&& 2 ^ b.fetch_constant = 0 :=
        (and_two_pow_eq_zero _ _).2 htb
      rw [if_pos heq] at h
      cases hs : SetupTextureBinding hash sampler_hash regs host
          { st with setup_calls := st.setup_calls ++ [b] } b with
      | none => rw [hs] at h; simp at h
      | some r1 =>
        rw [hs] at h
        simp only at h
        obtain ⟨f1, f2, f3⟩ := SetupTextureBinding_frame hash sampler_hash regs host _ b r1 hs
        simp only at f1 f2 f3
        have hm1 : MaskMarks (r1.1.update_set_info.has_setup_fetch_mask |||
            2 ^ b.fetch_constant) (b.fetch_constant :: seen) := by
          rw [f2]; exact MaskMarks_or _ _ _ hm
        obtain ⟨i1, ⟨seen', i2, i3⟩, added, i4, i5⟩ :=
          ih _ _ (b.fetch_constant :: seen) r hm1 hlt' h
        simp only at i1 i4
        refine ⟨?_, ⟨seen', i2, ?_⟩, ?_⟩
        · rw [i1, f1]
          simp [firstOccurrences, hseen]
        · intro i
          rw [i3 i]
          simp only [List.map_cons, List.mem_cons]
          constructor
          · rintro ((h1 | h1) | h1)
            · exact Or.inr (Or.inl h1)
            · exact Or.inl h1
            · exact Or.inr (Or.inr h1)
          · rintro (h1 | h1 | h1)
            · exact Or.inl (Or.inr h1)
            · exact Or.inl (Or.inl h1)
            · exact Or.inr h1
        · simp only [firstOccurrences, hseen, if_false, List.map_cons]
          rcases f3 with f3 | ⟨e, he, f3⟩
          · exact ⟨added, by rw [i4, f3], i5.cons _⟩
          · refine ⟨e :: added, by rw [i4, f3]; simp, ?_⟩
            simp only [List.map_cons, he]
            exact i5.cons₂ _

theorem DemandView_some (views : List TextureView) (swizzle : Nat) (next_view : Nat)
    (h : viewComponents swizzle ≠ none) :
    ∃ vs v, DemandView views swizzle true next_view = some (vs, some v) := by
  unfold DemandView
  cases views.find? (fun v => v.swizzle = swizzle) with
  | some v => exact ⟨views, v, rfl⟩
  | none =>
    cases hc : viewComponents swizzle with
    | none => exact absurd hc h
    | some c => exact ⟨_, _, rfl⟩

theorem SetupTextureBinding_total (hash : TextureInfo → Nat) (sampler_hash : SamplerInfo → Nat)
    (regs : RegisterFile) (host : Host) (st : DrawState) (binding : TextureBinding)
    (hview : host.view_ok = true)
    (hassert : host.asserts = false ∨ regs.fetch_type binding.fetch_constant = 0 ∨
      regs.fetch_type binding.fetch_constant = 2)
    (hswz : viewComponents (regs.swizzle binding.fetch_constant % 2 ^ 16) ≠ none) :
    ∃ r, SetupTextureBinding hash sampler_hash regs host st binding = some r := by
  unfold SetupTextureBinding
  by_cases h0 : regs.fetch_type binding.fetch_constant = 0
  · exact ⟨_, by rw [if_pos h0]⟩
  · rw [if_neg h0]
    have ha : (host.asserts && decide (regs.fetch_type binding.fetch_constant ≠ 2)) = false := by
      rcases hassert with h | h | h
      · simp [h]
      · exact absurd h h0
      · simp [h]
    rw [ha]
    simp only [Bool.false_eq_true, if_false]
    cases regs.texture_info binding.fetch_constant with
    | none => exact ⟨_, rfl⟩
    | some texture_info =>
      cases regs.sampler_info binding.fetch_constant binding.fetch_instr with
      | none => exact ⟨_, rfl⟩
      | some sampler_info =>
        simp only
        cases (Demand hash host.signaled st.cache texture_info host.command_buffer
          host.texture_ok).2 with
        | none => exact ⟨_, rfl⟩
        | some texture =>
          cases (DemandSampler sampler_hash st.samplers sampler_info host.sampler_ok).2 with
          | none => exact ⟨_, rfl⟩
          | some sampler =>
            simp only [hview]
            obtain ⟨vs, v, hv⟩ := DemandView_some
              (st.views texture) (regs.swizzle binding.fetch_constant % 2 ^ 16) st.next_view hswz
            rw [hv]
            exact ⟨_, rfl⟩

theorem setupBindingsLoop_total (hash : TextureInfo → Nat) (sampler_hash : SamplerInfo → Nat)
    (regs : RegisterFile) (host : Host) (bs : List TextureBinding)
    (hview : host.view_ok = true)
    (hassert : host.asserts = false ∨ ∀ b ∈ bs, regs.fetch_type b.fetch_constant = 0 ∨
      regs.fetch_type b.fetch_constant = 2)
    (hswz : ∀ b ∈ bs, viewComponents (regs.swizzle b.fetch_constant % 2 ^ 16) ≠ none) :
    ∀ (st : DrawState) (any_failed : Bool),
      ∃ r, setupBindingsLoop hash sampler_hash regs host st any_failed bs = some r := by
  induction bs with
  | nil => intro st any_failed; exact ⟨_, rfl⟩
  | cons b bs ih =>
    intro st any_failed
    have ih' := ih
      (hassert.imp id (fun h x hx => h x (List.mem_cons_of_mem b hx)))
      (fun x hx => hswz x (List.mem_cons_of_mem b hx))
    simp only [setupBindingsLoop]
    split_ifs
    · obtain ⟨r1, hr1⟩ := SetupTextureBinding_total hash sampler_hash regs host
        { st with setup_calls := st.setup_calls ++ [b] } b hview
        (hassert.imp id (fun h => h b (List.mem_cons_self b bs)))
        (hswz b (List.mem_cons_self b bs))
      rw [hr1]
      exact ih' _ _
    · exact ih' _ _

theorem length_le_of_nodup_lt (l : List Nat) (n : Nat) (hn : l.Nodup) (hlt : ∀ x ∈ l, x < n) :
    l.length ≤ n := by
  have hsub : l ⊆ List.range n := fun x hx => List.mem_range.2 (hlt x hx)
  have := (List.subperm_of_subset hn hsub).length_le
  simpa using this

/-- C15.  Fetch-slot de-duplication.  Let all fetch-constant indices of the
vertex and pixel bindings be below 32.  When `PrepareTextureSet` returns, the
bindings `SetupTextureBinding` was called for are, in order, the first
occurrence of each fetch-constant index in the vertex bindings followed by the
pixel bindings, whatever each call reported; the recorded image elements have
slots among those indices, in that order, pairwise distinct, and there are at
most 32 of them.  It does return when the host creates the views, every
swizzle is inside the component table, and assertions are off or every type
tag is 0 or 2. -/
theorem prepare_texture_set_dedups_slots (hash : TextureInfo → Nat)
    (sampler_hash : SamplerInfo → Nat) (regs : RegisterFile) (host : Host) (st : DrawState)
    (vertex_bindings pixel_bindings : List TextureBinding)
    (hlt : ∀ b ∈ vertex_bindings ++ pixel_bindings, b.fetch_constant < 32) :
    (∀ r, PrepareTextureSet hash sampler_hash regs host st vertex_bindings pixel_bindings =
        some r →
      r.1.setup_calls =
        st.setup_calls ++ firstOccurrences [] (vertex_bindings ++ pixel_bindings) ∧
      (r.1.update_set_info.image_infos.map (fun e => e.tf_binding)).Sublist
        ((firstOccurrences [] (vertex_bindings ++ pixel_bindings)).map
          (fun b => b.fetch_constant)) ∧
      (r.1.update_set_info.image_infos.map (fun e => e.tf_binding)).Nodup ∧
      r.1.update_set_info.image_infos.length ≤ 32) ∧
    (host.view_ok = true →
      (host.asserts = false ∨ ∀ b ∈ vertex_bindings ++ pixel_bindings,
        regs.fetch_type b.fetch_constant = 0 ∨ regs.fetch_type b.fetch_constant = 2) →
      (∀ b ∈ vertex_bindings ++ pixel_bindings,
        viewComponents (regs.swizzle b.fetch_constant % 2 ^ 16) ≠ none) →
      ∃ r, PrepareTextureSet hash sampler_hash regs host st vertex_bindings pixel_bindings =
        some r) := by
  have hlv : ∀ b ∈ vertex_bindings, b.fetch_constant < 32 :=
    fun b hb => hlt b (List.mem_append_left _ hb)
  have hlp : ∀ b ∈ pixel_bindings, b.fetch_constant < 32 :=
    fun b hb => hlt b (List.mem_append_right _ hb)
  have hm0 : MaskMarks 0 [] := by
    intro i _
    simp
  constructor
  · intro r hr
    unfold PrepareTextureSet SetupTextureBindings at hr
    simp only at hr
    cases h1 : setupBindingsLoop hash sampler_hash regs host
        { st with update_set_info := { has_setup_fetch_mask := 0, image_infos := [] } }
        false vertex_bindings with
    | none => rw [h1] at hr; simp at hr
    | some r1 =>
      rw [h1] at hr
      simp only at hr
      obtain ⟨a1, ⟨seen1, a2, a3⟩, add1, a4, a5⟩ :=
        setupBindingsLoop_calls hash sampler_hash regs host vertex_bindings _ false [] r1
          hm0 hlv h1
      simp only at a1 a4
      cases h2 : setupBindingsLoop hash sampler_hash regs host r1.1 false pixel_bindings with
      | none => rw [h2] at hr; simp at hr
      | some r2 =>
        rw [h2] at hr
        simp only at hr
        obtain ⟨b1, -, add2, b4, b5⟩ :=
          setupBindingsLoop_calls hash sampler_hash regs host pixel_bindings r1.1 false seen1 r2
            a2 hlp h2
        have happ := firstOccurrences_append vertex_bindings pixel_bindings [] seen1 a3
        have hcalls : r2.1.setup_calls =
            st.setup_calls ++ firstOccurrences [] (vertex_bindings ++ pixel_bindings) := by
          rw [b1, a1, happ, List.append_assoc]
        have hinfos : r2.1.update_set_info.image_infos = add1 ++ add2 := by
          rw [b4, a4]; simp
        have hsub : (r2.1.update_set_info.image_infos.map (fun e => e.tf_binding)).Sublist
            ((firstOccurrences [] (vertex_bindings ++ pixel_bindings)).map
              (fun b => b.fetch_constant)) := by
          rw [hinfos, happ, List.map_append, List.map_append]
          exact List.Sublist.append a5 b5
        obtain ⟨n1, n2⟩ := firstOccurrences_nodup (vertex_bindings ++ pixel_bindings) []
        have hnodup := n1.sublist hsub
        have hlen : r2.1.update_set_info.image_infos.length ≤ 32 := by
          have := length_le_of_nodup_lt _ 32 hnodup (by
            intro x hx
            obtain ⟨b, hb, hbe⟩ := List.mem_map.1 (hsub.subset hx)
            rw [← hbe]
            exact hlt b (n2 b hb).2)
          simpa using this
        split_ifs at hr
        · simp only [Option.some.injEq] at hr
          subst hr
          exact ⟨hcalls, hsub, hnodup, hlen⟩
        · simp only [Option.some.injEq] at hr
          subst hr
          exact ⟨hcalls, hsub, hnodup, hlen⟩
  · intro hview hassert hswz
    unfold PrepareTextureSet SetupTextureBindings
    simp only
    obtain ⟨r1, h1⟩ := setupBindingsLoop_total hash sampler_hash regs host vertex_bindings hview
      (hassert.imp id (fun h b hb => h b (List.mem_append_left _ hb)))
      (fun b hb => hswz b (List.mem_append_left _ hb))
      { st with update_set_info := { has_setup_fetch_mask := 0, image_infos := [] } } false
    obtain ⟨r2, h2⟩ := setupBindingsLoop_total hash sampler_hash regs host pixel_bindings hview
      (hassert.imp id (fun h b hb => h b (List.mem_append_right _ hb)))
      (fun b hb => hswz b (List.mem_append_right _ hb)) r1.1 false
    rw [h1]
    simp only
    rw [h2]
    simp only
    split_ifs
    · exact ⟨_, rfl⟩
    · exact ⟨_, rfl⟩


/-- Witness of C15: the vertex bindings use the fetch constants 1 and 0, the
pixel bindings 1 and 2.  `SetupTextureBinding` runs for 1, 0 and 2; the
elements recorded are those of the slots 1 and 2 (constant 0 is disabled). -/
theorem prepare_texture_set_dedups_slots_witness :
    (PrepareTextureSet hashAddress samplerHashFilter regsSample hostSample drawEmpty
      [⟨1, 0⟩, ⟨0, 0⟩] [⟨1, 1⟩, ⟨2, 0⟩]).map (fun r => r.1.setup_calls) =
        some [⟨1, 0⟩, ⟨0, 0⟩, ⟨2, 0⟩] ∧
    (PrepareTextureSet hashAddress samplerHashFilter regsSample hostSample drawEmpty
      [⟨1, 0⟩, ⟨0, 0⟩] [⟨1, 1⟩, ⟨2, 0⟩]).map
        (fun r => r.1.update_set_info.image_infos.map (fun e => e.tf_binding)) =
        some [1, 2] ∧
    ((∀ r, PrepareTextureSet hashAddress samplerHashFilter regsSample hostSample drawEmpty
        [⟨1, 0⟩, ⟨0, 0⟩] [⟨1, 1⟩, ⟨2, 0⟩] = some r →
      r.1.setup_calls =
        drawEmpty.setup_calls ++
          firstOccurrences [] ([⟨1, 0⟩, ⟨0, 0⟩] ++ [⟨1, 1⟩, ⟨2, 0⟩]) ∧
      (r.1.update_set_info.image_infos.map (fun e => e.tf_binding)).Sublist
        ((firstOccurrences [] ([⟨1, 0⟩, ⟨0, 0⟩] ++ [⟨1, 1⟩, ⟨2, 0⟩])).map
          (fun b => b.fetch_constant)) ∧
      (r.1.update_set_info.image_infos.map (fun e => e.tf_binding)).Nodup ∧
      r.1.update_set_info.image_infos.length ≤ 32) ∧
    (hostSample.view_ok = true →
      (hostSample.asserts = false ∨
        ∀ b ∈ ([⟨1, 0⟩, ⟨0, 0⟩] : List TextureBinding) ++ [⟨1, 1⟩, ⟨2, 0⟩],
          regsSample.fetch_type b.fetch_constant = 0 ∨
          regsSample.fetch_type b.fetch_constant = 2) →
      (∀ b ∈ ([⟨1, 0⟩, ⟨0, 0⟩] : List TextureBinding) ++ [⟨1, 1⟩, ⟨2, 0⟩],
        viewComponents (regsSample.swizzle b.fetch_constant % 2 ^ 16) ≠ none) →
      ∃ r, PrepareTextureSet hashAddress samplerHashFilter regsSample hostSample drawEmpty
        [⟨1, 0⟩, ⟨0, 0⟩] [⟨1, 1⟩, ⟨2, 0⟩] = some r)) :=
  ⟨by decide, by decide,
    prepare_texture_set_dedups_slots hashAddress samplerHashFilter regsSample hostSample
      drawEmpty [⟨1, 0⟩, ⟨0, 0⟩] [⟨1, 1⟩, ⟨2, 0⟩] (by decide)⟩

/-! ## The watch invariant -/

/-- Changes of the heap that keep every stored handle, or clear the handle of
a texture that is not allocated yet, keep the watches consistent. -/
theorem WatchesOk_of_same_handles {s r : Cache} (h : WatchesOk s)
    (hw : r.watches = s.watches) (hn : r.next_watch = s.next_watch)
    (ht : s.next_texture ≤ r.next_texture)
    (hh : ∀ u, (r.tex u).access_watch_handle = (s.tex u).access_watch_handle ∨
      ((r.tex u).access_watch_handle = 0 ∧ s.next_texture ≤ u)) : WatchesOk r := by
  obtain ⟨a, b, c, d⟩ := h
  refine ⟨hn ▸ a, hw ▸ b, ?_, ?_⟩
  · intro w hmem
    rw [hw] at hmem
    obtain ⟨c1, c2, c3, c4⟩ := c w hmem
    refine ⟨c1, hn ▸ c2, Nat.lt_of_lt_of_le c3 ht, ?_⟩
    rcases hh w.texture with h1 | ⟨-, h1⟩
    · rw [h1]; exact c4
    · omega
  · intro t hne
    rcases hh t with h1 | ⟨h1, -⟩
    · rw [h1] at hne ⊢
      rw [hw]
      exact d t hne
    · exact absurd h1 hne

/-- Cancelling the watch a texture stores and clearing its handle keeps the
watches consistent and leaves no watch with the texture as payload. -/
theorem WatchesOk_release {s r : Cache} (t : Nat) (h : WatchesOk s)
    (hw : r.watches = s.watches.filter (fun w => w.handle ≠ (s.tex t).access_watch_handle))
    (hn : r.next_watch = s.next_watch) (ht : r.next_texture = s.next_texture)
    (h0 : (r.tex t).access_watch_handle = 0)
    (hh : ∀ u, u ≠ t → (r.tex u).access_watch_handle = (s.tex u).access_watch_handle) :
    WatchesOk r ∧ ∀ w ∈ r.watches, w.texture ≠ t := by
  obtain ⟨a, b, c, d⟩ := h
  have hmem : ∀ w, w ∈ r.watches ↔ w ∈ s.watches ∧ w.handle ≠ (s.tex t).access_watch_handle := by
    intro w
    rw [hw, List.mem_filter]
    simp
  have hpay : ∀ w ∈ r.watches, w.texture ≠ t := by
    intro w hwm heq
    obtain ⟨h1, h2⟩ := (hmem w).1 hwm
    apply h2
    rw [← heq]
    exact (c w h1).2.2.2.symm
  refine ⟨⟨hn ▸ a, ?_, ?_, ?_⟩, hpay⟩
  · rw [hw]
    exact b.sublist (List.Sublist.map _ (List.filter_sublist _))
  · intro w hwm
    obtain ⟨h1, -⟩ := (hmem w).1 hwm
    obtain ⟨c1, c2, c3, c4⟩ := c w h1
    refine ⟨c1, hn ▸ c2, ht ▸ c3, ?_⟩
    rw [hh _ (hpay w hwm)]
    exact c4
  · intro u hne
    by_cases hu : u = t
    · subst hu; exact absurd h0 hne
    · rw [hh u hu] at hne ⊢
      obtain ⟨w, w1, w2, w3⟩ := d u hne
      refine ⟨w, (hmem w).2 ⟨w1, ?_⟩, w2, w3⟩
      intro hc
      by_cases ht0 : (s.tex t).access_watch_handle = 0
      · have := (c w w1).1
        omega
      · obtain ⟨w', v1, v2, v3⟩ := d t ht0
        have hsame : w = w' := by
          have hinj := List.inj_on_of_nodup_map b
          exact hinj w1 v1 (by rw [hc, v2])
        apply hu
        rw [← w3, hsame, v3]

/-- Registering a watch for a texture that is the payload of no watch, and
storing its handle in the texture, keeps the watches consistent. -/
theorem WatchesOk_register {s r : Cache} (t : Nat) (k : Bool) (h : WatchesOk s)
    (hfree : ∀ w ∈ s.watches, w.texture ≠ t)
    (hw : r.watches = s.watches ++ [{ handle := s.next_watch, texture := t, resolve := k }])
    (hn : r.next_watch = s.next_watch + 1) (ht : s.next_texture ≤ r.next_texture)
    (hlt : t < r.next_texture)
    (h0 : (r.tex t).access_watch_handle = s.next_watch)
    (hh : ∀ u, u ≠ t → (r.tex u).access_watch_handle = (s.tex u).access_watch_handle) :
    WatchesOk r := by
  obtain ⟨a, b, c, d⟩ := h
  refine ⟨by omega, ?_, ?_, ?_⟩
  · rw [hw, List.map_append]
    refine List.Nodup.append b (by simp) ?_
    intro x hx hx'
    simp only [List.map_cons, List.map_nil, List.mem_singleton] at hx'
    obtain ⟨w, w1, w2⟩ := List.mem_map.1 hx
    have := (c w w1).2.1
    omega
  · intro w hwm
    rw [hw] at hwm
    rcases List.mem_append.1 hwm with hwm | hwm
    · obtain ⟨c1, c2, c3, c4⟩ := c w hwm
      refine ⟨c1, by omega, Nat.lt_of_lt_of_le c3 ht, ?_⟩
      rw [hh _ (hfree w hwm)]
      exact c4
    · simp only [List.mem_singleton] at hwm
      subst hwm
      exact ⟨a, by simp [hn], hlt, h0⟩
  · intro u hne
    by_cases hu : u = t
    · subst hu
      exact ⟨{ handle := s.next_watch, texture := u, resolve := k },
        by rw [hw]; simp, h0.symm, rfl⟩
    · rw [hh u hu] at hne ⊢
      obtain ⟨w, w1, w2, w3⟩ := d u hne
      exact ⟨w, by rw [hw]; exact List.mem_append_left _ w1, w2, w3⟩

theorem filter_handle_zero {s : Cache} (h : WatchesOk s) :
    s.watches.filter (fun w => w.handle ≠ 0) = s.watches := by
  apply List.filter_eq_self.2
  intro w hw
  have := (h.2.2.1 w hw).1
  simp only [ne_eq, decide_not, Bool.not_eq_true', decide_eq_false_iff_not]
  omega

theorem no_watch_of_handle_zero {s : Cache} (h : WatchesOk s) (t : Nat)
    (h0 : (s.tex t).access_watch_handle = 0) : ∀ w ∈ s.watches, w.texture ≠ t := by
  intro w hw heq
  obtain ⟨c1, -, -, c4⟩ := h.2.2.1 w hw
  rw [heq, h0] at c4
  omega

theorem WatchesOk_released {s r : Cache} (t : Nat) (h : WatchesOk s)
    (hw : r.watches = s.watches.filter (fun w => w.handle ≠ (s.tex t).access_watch_handle))
    (hn : r.next_watch = s.next_watch) (ht : r.next_texture = s.next_texture)
    (h0 : (r.tex t).access_watch_handle = 0)
    (hh : ∀ u, u ≠ t → (r.tex u).access_watch_handle = (s.tex u).access_watch_handle) :
    WatchesOk r :=
  (WatchesOk_release t h hw hn ht h0 hh).1

theorem WatchesOk_FreeTexture (signaled : Nat → Bool) (s : Cache) (t : Nat)
    (h : WatchesOk s) : WatchesOk (FreeTexture signaled s t).1 := by
  unfold FreeTexture
  split_ifs with h1 h2
  · exact h
  · apply WatchesOk_released t h
    · simp [CancelAccessWatch]
    · rfl
    · rfl
    · simp [CancelAccessWatch]
    · intro u hu
      simp [CancelAccessWatch, Function.update_noteq hu]
  · exact WatchesOk_of_same_handles h rfl rfl (Nat.le_refl _) (fun u => Or.inl rfl)

theorem WatchesOk_scavengePendingDelete (signaled : Nat → Bool) (l : List Nat) :
    ∀ s : Cache, WatchesOk s → WatchesOk (scavengePendingDelete signaled s l) := by
  induction l with
  | nil =>
    intro s h
    exact WatchesOk_of_same_handles h rfl rfl (Nat.le_refl _) (fun u => Or.inl rfl)
  | cons t l ih =>
    intro s h
    have hf := WatchesOk_FreeTexture signaled s t h
    unfold scavengePendingDelete
    split_ifs
    · exact ih _ hf
    · exact WatchesOk_of_same_handles hf rfl rfl (Nat.le_refl _) (fun u => Or.inl rfl)

theorem WatchesOk_Scavenge (hash : TextureInfo → Nat) (signaled : Nat → Bool) (s : Cache)
    (h : WatchesOk s) : WatchesOk (Scavenge hash signaled s) := by
  have h1 : WatchesOk (scavengeSets signaled s s.in_flight_sets_) := by
    rw [scavengeSets_eq]
    exact WatchesOk_of_same_handles h rfl rfl (Nat.le_refl _) (fun u => Or.inl rfl)
  have h2 := WatchesOk_scavengePendingDelete signaled
    (scavengeSets signaled s s.in_flight_sets_).pending_delete_textures_ _ h1
  simp only [Scavenge, scavengeSwapAndDrain_eq, scavengeInvalidatedResolve_eq]
  exact WatchesOk_of_same_handles h2 rfl rfl (Nat.le_refl _) (fun u => Or.inl rfl)

theorem WatchesOk_fireWatch (s : Cache) (handle : Nat) (h : WatchesOk s) :
    WatchesOk (fireWatch s handle) := by
  unfold fireWatch
  cases hf : s.watches.find? (fun w => w.handle = handle) with
  | none => exact h
  | some w =>
    have hmem : w ∈ s.watches := List.mem_of_find?_eq_some hf
    have hhandle : w.handle = handle := by
      have := List.find?_some hf
      simpa using this
    have hstored : (s.tex w.texture).access_watch_handle = handle := by
      rw [(h.2.2.1 w hmem).2.2.2, hhandle]
    simp only
    apply WatchesOk_released w.texture h
    · rw [hstored]
      simp only [watchCallback, CancelAccessWatch]
      split_ifs <;> rfl
    · simp only [watchCallback, CancelAccessWatch]
      split_ifs <;> rfl
    · simp only [watchCallback, CancelAccessWatch]
      split_ifs <;> rfl
    · simp only [watchCallback, CancelAccessWatch]
      split_ifs <;> simp
    · intro u hu
      simp only [watchCallback, CancelAccessWatch]
      split_ifs <;> simp [Function.update_noteq hu]

theorem promote_watch_fields (hash : TextureInfo → Nat) (s : Cache)
    (texture_info : TextureInfo) (t : Nat) (rest : List Nat) :
    (promote hash s texture_info t rest).watches =
      (if (s.tex t).access_watch_handle ≠ 0 then
          s.watches.filter (fun w => w.handle ≠ (s.tex t).access_watch_handle)
        else s.watches) ++ [{ handle := s.next_watch, texture := t, resolve := false }] ∧
    (promote hash s texture_info t rest).next_watch = s.next_watch + 1 ∧
    ((promote hash s texture_info t rest).tex t).access_watch_handle = s.next_watch := by
  unfold promote
  simp only [AddPhysicalAccessWatch, CancelAccessWatch]
  by_cases h0 : (s.tex t).access_watch_handle = 0
  · simp [h0]
  · simp [h0]

theorem WatchesOk_promote (hash : TextureInfo → Nat) (s : Cache)
    (texture_info : TextureInfo) (t : Nat) (rest : List Nat) (h : WatchesOk s)
    (hlt : t < s.next_texture) : WatchesOk (promote hash s texture_info t rest) := by
  obtain ⟨f1, f2, f3⟩ := promote_watch_fields hash s texture_info t rest
  obtain ⟨-, -, g3, -, -, -, g7⟩ := promote_fields hash s texture_info t rest
  obtain ⟨hmid, hfree⟩ := WatchesOk_release
    (r := { s with
      watches := s.watches.filter (fun w => w.handle ≠ (s.tex t).access_watch_handle)
      tex := Function.update s.tex t { s.tex t with access_watch_handle := 0 } })
    t h rfl rfl rfl (by simp) (fun u hu => by simp [Function.update_noteq hu])
  refine WatchesOk_register t false hmid hfree ?_ f2 (by rw [g3]) (by rw [g3]; exact hlt)
    f3 ?_
  · rw [f1]
    by_cases h0 : (s.tex t).access_watch_handle = 0
    · simp only [h0, ne_eq, not_true_eq_false, if_false]
      rw [filter_handle_zero h]
    · simp only [ne_eq, h0, not_false_eq_true, if_true]
  · intro u hu
    rw [g7 u hu]
    simp [Function.update_noteq hu]

theorem demandCreate_watch_fields (hash : TextureInfo → Nat) (s : Cache)
    (texture_info : TextureInfo) (command_buffer host_ok : Bool) (t : Nat)
    (h : (demandCreate hash s texture_info command_buffer host_ok).2 = some t) :
    (demandCreate hash s texture_info command_buffer host_ok).1.watches =
      s.watches ++ [{ handle := s.next_watch, texture := s.next_texture, resolve := false }] ∧
    (demandCreate hash s texture_info command_buffer host_ok).1.next_watch =
      s.next_watch + 1 ∧
    ((demandCreate hash s texture_info command_buffer host_ok).1.tex
      s.next_texture).access_watch_handle = s.next_watch ∧
    (∀ u, u ≠ s.next_texture →
      (demandCreate hash s texture_info command_buffer host_ok).1.tex u = s.tex u) := by
  unfold demandCreate at h ⊢
  by_cases hc : command_buffer = true
  · by_cases hd : texture_info.dimension = Dimension.k2D
    · by_cases hk : host_ok = true
      · simp only [hc, hd, hk, AllocateTexture, AddPhysicalAccessWatch]
        refine ⟨by simp, by simp, by simp, ?_⟩
        intro u hu
        simp [Function.update_noteq hu]
      · simp [hc, hd, hk, AllocateTexture] at h
    · simp [hc, hd] at h
  · simp [hc] at h

theorem WatchesOk_demandMiss (hash : TextureInfo → Nat) (texture_info : TextureInfo)
    (command_buffer host_ok : Bool) {s : Cache} (h : WatchesOk s) (ht : TablesOk s) :
    WatchesOk (demandMiss hash s texture_info command_buffer host_ok).1 := by
  unfold demandMiss
  cases hm : takeResolveMatch (resolveMatches s.tex texture_info) s.resolve_textures_ with
  | some r =>
    obtain ⟨t, rest⟩ := r
    obtain ⟨pre, post, e1, -⟩ := takeResolveMatch_some _ _ t rest hm
    have hlt : t < s.next_texture := ht.2.2.2 t (by rw [e1]; simp)
    exact WatchesOk_promote hash s texture_info t rest h hlt
  | none =>
    show WatchesOk (demandCreate hash s texture_info command_buffer host_ok).1
    cases hr : (demandCreate hash s texture_info command_buffer host_ok).2 with
    | none =>
      rw [demandCreate_none hash s texture_info command_buffer host_ok hr]
      exact h
    | some t =>
      obtain ⟨-, -, -, g4, -⟩ :=
        demandCreate_fields hash s texture_info command_buffer host_ok t hr
      obtain ⟨w1, w2, w3, w4⟩ :=
        demandCreate_watch_fields hash s texture_info command_buffer host_ok t hr
      refine WatchesOk_register s.next_texture false h ?_ w1 w2 (by rw [g4]; omega)
        (by rw [g4]; omega) w3 ?_
      · intro w hw heq
        have := (h.2.2.1 w hw).2.2.1
        omega
      · intro u hu
        rw [w4 u hu]

theorem WatchesOk_Demand (hash : TextureInfo → Nat) (signaled : Nat → Bool)
    (texture_info : TextureInfo) (command_buffer host_ok : Bool) {s : Cache}
    (h : WatchesOk s) (ht : TablesOk s) :
    WatchesOk (Demand hash signaled s texture_info command_buffer host_ok).1 := by
  unfold Demand
  cases scanExact s.tex texture_info (mapFind (hash texture_info) s.textures_) with
  | none => exact WatchesOk_demandMiss hash texture_info command_buffer host_ok h ht
  | some t =>
    by_cases hp : (s.tex t).pending_invalidation = true
    · simp only [hp, if_true]
      exact WatchesOk_demandMiss hash texture_info command_buffer host_ok
        (WatchesOk_Scavenge hash signaled s h) (TablesOk_Scavenge hash signaled ht)
    · simp only [hp]
      exact h

theorem WatchesOk_DemandResolveTexture (s : Cache) (texture_info : TextureInfo)
    (out_offset host_ok : Bool) (r : Cache × Nat × Option (Nat × Nat))
    (hr : DemandResolveTexture s texture_info out_offset host_ok = some r) (h : WatchesOk s) :
    WatchesOk r.1 := by
  rcases DemandResolveTexture_fields s texture_info out_offset host_ok r hr with
    ⟨h1, -⟩ | ⟨hl, -, -, -, h4, h5, h6⟩
  · rw [h1]; exact h
  · have hw : r.1.watches =
        s.watches ++ [{ handle := s.next_watch, texture := s.next_texture, resolve := true }] ∧
        r.1.next_watch = s.next_watch + 1 := by
      unfold DemandResolveTexture at hr
      rw [hl] at hr
      by_cases hk : host_ok = true
      · simp only [hk, AllocateTexture, if_true, AddPhysicalAccessWatch, Option.some.injEq] at hr
        rw [← hr]
        exact ⟨rfl, rfl⟩
      · simp [hk, AllocateTexture] at hr
    refine WatchesOk_register s.next_texture true h ?_ hw.1 hw.2 (by rw [h4]; omega)
      (by rw [h4]; omega) (by rw [h5]) ?_
    · intro w hwm heq
      have := (h.2.2.1 w hwm).2.2.1
      omega
    · intro u hu
      rw [h6 u hu]

theorem WatchesOk_of_reachable (hash : TextureInfo → Nat) (s : Cache)
    (h : Reachable hash s) : WatchesOk s := by
  induction h with
  | empty =>
    refine ⟨by decide, by simp [Cache.empty], ?_, ?_⟩
    · intro w hw; simp [Cache.empty] at hw
    · intro t ht; simp [Cache.empty, Texture.zero] at ht
  | step s s' hs hstep ih =>
    have ht := TablesOk_of_reachable hash s hs
    cases hstep with
    | demand signaled _ texture_info command_buffer host_ok =>
      exact WatchesOk_Demand hash signaled texture_info command_buffer host_ok ih ht
    | demandResolve _ texture_info out_offset host_ok r hr =>
      exact WatchesOk_DemandResolveTexture s texture_info out_offset host_ok r hr ih
    | watch _ handle => exact WatchesOk_fireWatch s handle ih
    | scavenge signaled _ => exact WatchesOk_Scavenge hash signaled s ih
    | bind _ texture fence =>
      refine WatchesOk_of_same_handles ih rfl rfl (Nat.le_refl _) (fun u => Or.inl ?_)
      by_cases hu : u = texture
      · subst hu; simp [setInFlightFence]
      · simp [setInFlightFence, Function.update_noteq hu]

theorem length_le_one_of_nodup_const (l : List Nat) (c : Nat) (hn : l.Nodup)
    (hc : ∀ x ∈ l, x = c) : l.length ≤ 1 := by
  have hsub : l ⊆ [c] := fun x hx => by rw [hc x hx]; exact List.mem_singleton_self c
  have := (List.subperm_of_subset hn hsub).length_le
  simpa using this

/-! ## C12 -/

/-- Single-watch invariant of the runs in which every watch fires between two
operations of the cache.  In every such reachable state, with the memory
system holding the set of registered watches (a watch leaves it when it is
cancelled or fires): each texture is the payload of at most one registered
watch; a texture that stores a non-zero `access_watch_handle` is the payload of
the registered watch with that handle; every registered watch is the one its
payload stores; and when `Demand` promotes the resolve texture `R`, the watches
with payload `R` afterwards are exactly the newly registered one, so a watch
`R` had before is no longer registered. -/
theorem each_texture_has_one_watch (hash : TextureInfo → Nat) (s : Cache)
    (h : Reachable hash s) :
    (∀ t, (s.watches.filter (fun w => w.texture = t)).length ≤ 1) ∧
    (∀ t, (s.tex t).access_watch_handle ≠ 0 →
      ∃ w ∈ s.watches, w.texture = t ∧ w.handle = (s.tex t).access_watch_handle) ∧
    (∀ w ∈ s.watches, (s.tex w.texture).access_watch_handle = w.handle) ∧
    (∀ (texture_info : TextureInfo) (R : Nat) (rest : List Nat),
      takeResolveMatch (resolveMatches s.tex texture_info) s.resolve_textures_ =
        some (R, rest) →
      (promote hash s texture_info R rest).watches.filter (fun w => w.texture = R) =
        [{ handle := s.next_watch, texture := R, resolve := false }] ∧
      ∀ w ∈ s.watches, w.texture = R →
        w ∉ (promote hash s texture_info R rest).watches) := by
  have hw := WatchesOk_of_reachable hash s h
  obtain ⟨a, b, c, d⟩ := hw
  refine ⟨?_, ?_, fun w hwm => (c w hwm).2.2.2, ?_⟩
  · intro t
    have hlen := length_le_one_of_nodup_const
      ((s.watches.filter (fun w => w.texture = t)).map (fun w => w.handle))
      (s.tex t).access_watch_handle
      (b.sublist (List.Sublist.map _ (List.filter_sublist _)))
      (by
        intro x hx
        obtain ⟨w, w1, w2⟩ := List.mem_map.1 hx
        rw [List.mem_filter] at w1
        have heq : w.texture = t := by simpa using w1.2
        rw [← w2, ← heq]
        exact ((c w w1.1).2.2.2).symm)
    simpa using hlen
  · intro t ht
    obtain ⟨w, w1, w2, w3⟩ := d t ht
    exact ⟨w, w1, w3, w2⟩
  · intro texture_info R rest _
    obtain ⟨f1, -, -⟩ := promote_watch_fields hash s texture_info R rest
    have hold : ∀ w ∈ (if (s.tex R).access_watch_handle ≠ 0 then
          s.watches.filter (fun w => w.handle ≠ (s.tex R).access_watch_handle)
        else s.watches), w.texture ≠ R := by
      intro w hwm heq
      by_cases h0 : (s.tex R).access_watch_handle = 0
      · simp only [h0, ne_eq, not_true_eq_false, if_false] at hwm
        exact no_watch_of_handle_zero ⟨a, b, c, d⟩ R h0 w hwm heq
      · simp only [ne_eq, h0, not_false_eq_true, if_true, List.mem_filter, decide_not,
          Bool.not_eq_true', decide_eq_false_iff_not] at hwm
        apply hwm.2
        rw [← heq]
        exact ((c w hwm.1).2.2.2).symm
    constructor
    · rw [f1, List.filter_append]
      have : (if (s.tex R).access_watch_handle ≠ 0 then
            s.watches.filter (fun w => w.handle ≠ (s.tex R).access_watch_handle)
          else s.watches).filter (fun w => w.texture = R) = [] := by
        apply List.filter_eq_nil_iff.2
        intro w hwm
        simpa using hold w hwm
      rw [this]
      simp
    · intro w hwm heq hin
      rw [f1] at hin
      rcases List.mem_append.1 hin with hin | hin
      · exact hold w hin heq
      · simp only [List.mem_singleton] at hin
        have := (c w hwm).2.1
        rw [hin] at this
        simp at this

/-- An instance: `cachePromoted`, where the promoted texture 0 is watched by
watch 3 (its first watch 1 was cancelled) and the resolve texture 1 by watch 2. -/
theorem each_texture_has_one_watch_witness :
    Reachable hashAddress cachePromoted ∧
    cachePromoted.watches = [⟨2, 1, true⟩, ⟨3, 0, false⟩] ∧
    (cachePromoted.tex 0).access_watch_handle = 3 ∧
    (∀ t, (cachePromoted.watches.filter (fun w => w.texture = t)).length ≤ 1) :=
  ⟨cachePromoted_reachable, by decide, by decide,
    (each_texture_has_one_watch hashAddress cachePromoted cachePromoted_reachable).1⟩

/-! ## The main table: keys and descriptions -/

theorem MainTableOk_of_sublist (hash : TextureInfo → Nat) {s r : Cache}
    (h : MainTableOk hash s) (h1 : r.textures_.Sublist s.textures_)
    (h2 : ∀ e ∈ r.textures_, (r.tex e.2).texture_info = (s.tex e.2).texture_info) :
    MainTableOk hash r := by
  refine ⟨h.1.sublist (List.Sublist.map _ h1), ?_⟩
  intro e he
  rw [h2 e he]
  exact h.2 e (h1.subset he)

theorem MainTableOk_assign (hash : TextureInfo → Nat) {s r : Cache}
    (texture_info : TextureInfo) (t : Nat) (h : MainTableOk hash s)
    (h1 : r.textures_ = mapAssign (hash texture_info) t s.textures_)
    (h2 : (r.tex t).texture_info = texture_info)
    (h3 : ∀ u, u ≠ t → r.tex u = s.tex u)
    (h4 : ∀ e ∈ s.textures_, e.2 ≠ t) : MainTableOk hash r := by
  refine ⟨?_, ?_⟩
  · rw [h1, mapAssign_keys]
    split_ifs with hk
    · exact h.1
    · refine List.Nodup.append h.1 (List.nodup_singleton _) ?_
      intro x hx hx'
      simp only [List.mem_singleton] at hx'
      exact hk (hx' ▸ hx)
  · intro e he
    rw [h1] at he
    rcases mem_mapAssign _ _ _ _ he with he | he
    · rw [he]
      simp only
      rw [h2]
    · rw [h3 _ (h4 e he)]
      exact h.2 e he

theorem MainTableOk_demandMiss (hash : TextureInfo → Nat) (texture_info : TextureInfo)
    (command_buffer host_ok : Bool) {s : Cache} (h : MainTableOk hash s) (ht : TablesOk s) :
    MainTableOk hash (demandMiss hash s texture_info command_buffer host_ok).1 := by
  unfold demandMiss
  cases hm : takeResolveMatch (resolveMatches s.tex texture_info) s.resolve_textures_ with
  | some r =>
    obtain ⟨t, rest⟩ := r
    obtain ⟨pre, post, e1, -⟩ := takeResolveMatch_some _ _ t rest hm
    obtain ⟨f1, -, -, f4, -, -, f7⟩ := promote_fields hash s texture_info t rest
    have hmem : t ∈ s.resolve_textures_ := by rw [e1]; simp
    exact MainTableOk_assign hash texture_info t h f1 f4 f7
      (fun e he heq => ht.1 e he (heq ▸ hmem))
  | none =>
    show MainTableOk hash (demandCreate hash s texture_info command_buffer host_ok).1
    cases hr : (demandCreate hash s texture_info command_buffer host_ok).2 with
    | none =>
      rw [demandCreate_none hash s texture_info command_buffer host_ok hr]
      exact h
    | some t =>
      obtain ⟨g1, g2, -, -, g5⟩ :=
        demandCreate_fields hash s texture_info command_buffer host_ok t hr
      obtain ⟨-, -, -, w4⟩ :=
        demandCreate_watch_fields hash s texture_info command_buffer host_ok t hr
      refine MainTableOk_assign hash texture_info t h g2 g5 (fun u hu => w4 u (g1 ▸ hu)) ?_
      intro e he heq
      have := ht.2.2.1 e he
      omega

theorem MainTableOk_Scavenge (hash : TextureInfo → Nat) (signaled : Nat → Bool) {s : Cache}
    (h : MainTableOk hash s) : MainTableOk hash (Scavenge hash signaled s) := by
  obtain ⟨-, -, -, -, -, h6, -, h8⟩ := Scavenge_fields hash signaled s
  exact MainTableOk_of_sublist hash h h6 (fun e _ => (h8 e.2).1)

theorem MainTableOk_of_reachable (hash : TextureInfo → Nat) (s : Cache)
    (h : Reachable hash s) : MainTableOk hash s := by
  induction h with
  | empty => simp [MainTableOk, Cache.empty]
  | step s s' hs hstep ih =>
    have ht := TablesOk_of_reachable hash s hs
    cases hstep with
    | demand signaled _ texture_info command_buffer host_ok =>
      unfold Demand
      cases scanExact s.tex texture_info (mapFind (hash texture_info) s.textures_) with
      | none => exact MainTableOk_demandMiss hash texture_info command_buffer host_ok ih ht
      | some t =>
        by_cases hp : (s.tex t).pending_invalidation = true
        · simp only [hp, if_true]
          exact MainTableOk_demandMiss hash texture_info command_buffer host_ok
            (MainTableOk_Scavenge hash signaled ih) (TablesOk_Scavenge hash signaled ht)
        · simp only [hp]
          exact ih
    | demandResolve _ texture_info out_offset host_ok r hr =>
      rcases DemandResolveTexture_fields s texture_info out_offset host_ok r hr with
        ⟨h1, -⟩ | ⟨-, -, h2, -, -, -, h6⟩
      · rw [h1]; exact ih
      · refine MainTableOk_of_sublist hash ih (h2 ▸ List.Sublist.refl _) ?_
        intro e he
        rw [h2] at he
        have := ht.2.2.1 e he
        rw [h6 e.2 (by omega)]
    | watch _ handle =>
      obtain ⟨h1, -, -, -, h5⟩ := fireWatch_fields s handle
      exact MainTableOk_of_sublist hash ih (h1 ▸ List.Sublist.refl _) (fun e _ => h5 e.2)
    | scavenge signaled _ => exact MainTableOk_Scavenge hash signaled ih
    | bind _ texture fence =>
      refine MainTableOk_of_sublist hash ih (List.Sublist.refl _) ?_
      intro e _
      by_cases hu : e.2 = texture
      · rw [hu]; simp [setInFlightFence]
      · simp [setInFlightFence, Function.update_noteq hu]

/-! ## C18 -/

theorem cacheOneTouched_reachable : Reachable hashAddress cacheOneTouched :=
  Reachable.step _ _
    (Reachable.step _ _
      (Reachable.step _ _ Reachable.empty
        (Step.demand nonePassed Cache.empty info256 true true))
      (Step.demand nonePassed cacheUploaded info64 true true))
    (Step.watch _ 1)

theorem row_of_offset (op p y a : Nat) (hpos : 0 < p) (hp : p ≤ op) :
    (y * op ≤ a ∧ a < y * op + p) ↔ (a / op = y ∧ a % op < p) := by
  have hop : 0 < op := Nat.lt_of_lt_of_le hpos hp
  have hdm := Nat.div_add_mod a op
  have hr := Nat.mod_lt a hop
  constructor
  · rintro ⟨h1, h2⟩
    have hq : a / op = y := by
      rcases Nat.lt_trichotomy (a / op) y with hlt | heq | hgt
      · have : op * (a / op + 1) ≤ op * y := Nat.mul_le_mul_left op hlt
        rw [Nat.mul_add, Nat.mul_one, Nat.mul_comm op y] at this
        omega
      · exact heq
      · have : op * (y + 1) ≤ op * (a / op) := Nat.mul_le_mul_left op hgt
        rw [Nat.mul_add, Nat.mul_one, Nat.mul_comm op y] at this
        omega
    refine ⟨hq, ?_⟩
    rw [hq, Nat.mul_comm op y] at hdm
    omega
  · rintro ⟨hq, hlt⟩
    rw [hq, Nat.mul_comm op y] at hdm
    omega

theorem TextureSwap_row (endianness : Endian) (dest : Nat → Nat) (d : Nat)
    (src : Nat → Nat) (q p a : Nat) (he : endianness ≠ Endian.k16in32) (h4 : p % 4 = 0) :
    TextureSwap endianness dest d src q p a =
      if d ≤ a ∧ a < d + p then src (q + endianSource endianness (a - d)) else dest a := by
  rw [TextureSwap_apply]
  cases endianness with
  | kUnspecified => rfl
  | k8in16 =>
    have : 2 * (p / 2) = p := by omega
    simp only [this]
  | k8in32 =>
    have : 4 * (p / 4) = p := by omega
    simp only [this]
  | k16in32 => exact absurd rfl he

/-- The row loop of lines 811-817 for a tag other than 16-in-32 and a row
length `pitch` that is a multiple of 4 and at most the output pitch: the byte
at the offset `a` of the destination is written exactly when `a` lies in the
first `pitch` bytes of one of the rows `y`, ..., `y + rows - 1`, and then with
the guest byte its tag names in the same row of the source. -/
theorem uploadRows_apply (src : TextureInfo) (guest : Nat → Nat) (pitch : Nat)
    (he : src.endianness ≠ Endian.k16in32) (h4 : pitch % 4 = 0)
    (hp : pitch ≤ src.size_2d.output_pitch) :
    ∀ (rows y : Nat) (dest : Nat → Nat) (a : Nat),
      uploadRows src guest pitch rows y dest a =
        if y ≤ a / src.size_2d.output_pitch ∧ a / src.size_2d.output_pitch < y + rows ∧
            a % src.size_2d.output_pitch < pitch then
          guest (a / src.size_2d.output_pitch * src.size_2d.input_pitch +
            endianSource src.endianness (a % src.size_2d.output_pitch))
        else dest a := by
  intro rows
  induction rows with
  | zero =>
    intro y dest a
    simp only [uploadRows]
    rw [if_neg (by omega)]
  | succ rows ih =>
    intro y dest a
    simp only [uploadRows]
    rw [ih, TextureSwap_row _ _ _ _ _ _ _ he h4]
    by_cases hpos : 0 < pitch
    · have hrow := row_of_offset src.size_2d.output_pitch pitch y a hpos hp
      have hdm := Nat.div_add_mod a src.size_2d.output_pitch
      by_cases hc : a / src.size_2d.output_pitch = y ∧ a % src.size_2d.output_pitch < pitch
      · have hc' := hrow.2 hc
        rw [if_neg (by omega), if_pos hc', if_pos (by omega)]
        have hsub : a - y * src.size_2d.output_pitch = a % src.size_2d.output_pitch := by
          rw [hc.1, Nat.mul_comm src.size_2d.output_pitch y] at hdm
          omega
        rw [hsub, hc.1]
      · have hc' : ¬ (y * src.size_2d.output_pitch ≤ a ∧
            a < y * src.size_2d.output_pitch + pitch) := fun h => hc (hrow.1 h)
        rw [if_neg hc']
        by_cases h1 : y + 1 ≤ a / src.size_2d.output_pitch ∧
            a / src.size_2d.output_pitch < y + 1 + rows ∧ a % src.size_2d.output_pitch < pitch
        · rw [if_pos h1, if_pos (by omega)]
        · rw [if_neg h1, if_neg]
          intro h2
          apply h1
          refine ⟨?_, by omega, h2.2.2⟩
          by_contra hlt
          apply hc
          exact ⟨by omega, h2.2.2⟩
    · have h0 : pitch = 0 := by omega
      subst h0
      rw [if_neg (by omega), if_neg (by omega), if_neg (by omega)]

/-- The mismatched-pitch path of `UploadTexture2D` for a tag other than
16-in-32 when the smaller pitch is a multiple of 4: for each row below
min(block_height, logical_height) the first min(input_pitch, output_pitch)
bytes of the row are written with the guest bytes their tag names, and every
other byte of the staging allocation is as before. -/
theorem uploadLinear_rows (src : TextureInfo) (guest staging : Nat → Nat) (a : Nat)
    (hne : src.size_2d.input_pitch ≠ src.size_2d.output_pitch)
    (he : src.endianness ≠ Endian.k16in32)
    (h4 : min src.size_2d.input_pitch src.size_2d.output_pitch % 4 = 0) :
    uploadLinear src guest staging a =
      if a / src.size_2d.output_pitch <
            min src.size_2d.block_height src.size_2d.logical_height ∧
          a % src.size_2d.output_pitch <
            min src.size_2d.input_pitch src.size_2d.output_pitch then
        guest (a / src.size_2d.output_pitch * src.size_2d.input_pitch +
          endianSource src.endianness (a % src.size_2d.output_pitch))
      else staging a := by
  unfold uploadLinear
  rw [if_neg hne, uploadRows_apply src guest _ he h4 (Nat.min_le_right _ _)]
  simp

/-! ## C21 -/

theorem cacheStalePromoted_reachable : Reachable hashAddress cacheStalePromoted :=
  Reachable.step _ _ (cacheTouched_reachable hashAddress)
    (Step.demand nonePassed cacheTouched info256 false true)

theorem cacheStaleScavenged_reachable : Reachable hashAddress cacheStaleScavenged :=
  Reachable.step _ _ cacheStalePromoted_reachable
    (Step.scavenge nonePassed cacheStalePromoted)

theorem cacheStaleTwice_reachable : Reachable hashAddress cacheStaleTwice :=
  Reachable.step _ _
    (Reachable.step _ _ cacheStalePromoted_reachable (Step.watch cacheStalePromoted 2))
    (Step.scavenge nonePassed _)

/-- C21 (failing input).  `DemandResolveTexture(info256)` makes the resolve
texture 0, its watch fires, and `Demand(info256)` promotes texture 0 to the
main table although it is queued in `invalidated_resolve_textures_` (the
defect of C1).  After `Scavenge` texture 0 is in `pending_delete_textures_`
and still in the main table, and nothing was deleted so far.  If the watch the
promotion registered fires before that `Scavenge`, both pending lists name
texture 0 and `Scavenge` puts it in `pending_delete_textures_` twice.  Both
states are reachable by `DemandResolveTexture`, watch callbacks, `Demand` and
`Scavenge`. -/
theorem pending_delete_texture_still_cached :
    Reachable hashAddress cacheStaleScavenged ∧
    cacheStaleScavenged.pending_delete_textures_ = [0] ∧
    cacheStaleScavenged.textures_ = [(0x1000, 0)] ∧
    cacheStaleScavenged.deleted_textures = [] ∧
    Reachable hashAddress cacheStaleTwice ∧
    cacheStaleTwice.pending_delete_textures_ = [0, 0] ∧
    cacheStaleTwice.deleted_textures = [] :=
  ⟨cacheStaleScavenged_reachable, by decide, by decide, by decide,
    cacheStaleTwice_reachable, by decide, by decide⟩

/-! ## C22 -/

theorem bytesPerBlock_samples :
    bytesPerBlock info256.format_info = 4 ∧ bytesPerBlock info256dxt.format_info = 8 := by
  decide

theorem log2_values :
    Nat.log2 1 = 0 ∧ Nat.log2 2 = 1 ∧ Nat.log2 4 = 2 ∧ Nat.log2 8 = 3 ∧ Nat.log2 16 = 4 := by
  refine ⟨?_, ?_, ?_, ?_, ?_⟩ <;> simp [Nat.log2]

/-- C23.  For `bytes_per_block` one of 1, 2, 4, 8, 16 the value `bpp` of lines
834-835 is the base-2 logarithm of `bytes_per_block` (0, 1, 2, 3, 4 in that
order), so `2 ^ bpp = bytes_per_block`, and shifting a byte offset right by
`bpp` divides it by `bytes_per_block`. -/
theorem tiled_bpp_is_log2 (bytes_per_block : Nat)
    (h : bytes_per_block ∈ [1, 2, 4, 8, 16]) :
    tiledBpp bytes_per_block = Nat.log2 bytes_per_block ∧
    2 ^ tiledBpp bytes_per_block = bytes_per_block ∧
    (∀ offset : Nat, offset >>> tiledBpp bytes_per_block = offset / bytes_per_block) ∧
    [tiledBpp 1, tiledBpp 2, tiledBpp 4, tiledBpp 8, tiledBpp 16] = [0, 1, 2, 3, 4] := by
  obtain ⟨l1, l2, l4, l8, l16⟩ := log2_values
  have e1 : tiledBpp 1 = 0 := by decide
  have e2 : tiledBpp 2 = 1 := by decide
  have e4 : tiledBpp 4 = 2 := by decide
  have e8 : tiledBpp 8 = 3 := by decide
  have e16 : tiledBpp 16 = 4 := by decide
  have hv : [tiledBpp 1, tiledBpp 2, tiledBpp 4, tiledBpp 8, tiledBpp 16] = [0, 1, 2, 3, 4] := by
    rw [e1, e2, e4, e8, e16]
  simp only [List.mem_cons, List.mem_singleton, List.not_mem_nil, or_false] at h
  rcases h with h | h | h | h | h <;> subst h
  · exact ⟨by rw [e1, l1], by rw [e1]; rfl, fun x => by rw [e1, Nat.shiftRight_eq_div_pow], hv⟩
  · exact ⟨by rw [e2, l2], by rw [e2]; rfl, fun x => by rw [e2, Nat.shiftRight_eq_div_pow], hv⟩
  · exact ⟨by rw [e4, l4], by rw [e4]; rfl, fun x => by rw [e4, Nat.shiftRight_eq_div_pow], hv⟩
  · exact ⟨by rw [e8, l8], by rw [e8]; rfl, fun x => by rw [e8, Nat.shiftRight_eq_div_pow], hv⟩
  · exact ⟨by rw [e16, l16], by rw [e16]; rfl, fun x => by rw [e16, Nat.shiftRight_eq_div_pow], hv⟩

/-- Witness of C23: 16 bytes per block give the size class 4. -/
theorem tiled_bpp_is_log2_witness :
    tiledBpp 16 = Nat.log2 16 ∧ 2 ^ tiledBpp 16 = 16 ∧
    (∀ offset : Nat, offset >>> tiledBpp 16 = offset / 16) ∧
    [tiledBpp 1, tiledBpp 2, tiledBpp 4, tiledBpp 8, tiledBpp 16] = [0, 1, 2, 3, 4] :=
  tiled_bpp_is_log2 16 (by decide)

/-! ## C9: a texture queued twice -/

theorem cacheQueuedTwice_reachable : Reachable hashAddress cacheQueuedTwice :=
  Reachable.step _ _
    (Reachable.step _ _
      (Reachable.step _ _
        (Reachable.step _ _
          (Reachable.step _ _ cacheStalePromoted_reachable
            (Step.demand nonePassed cacheStalePromoted info64 true true))
          (Step.bind _ 1 5))
        (Step.watch _ 2))
      (Step.watch _ 3))
    (Step.scavenge nonePassed cacheTwoTouched)

/-- C9 (failing input).  In the reachable state `cacheQueuedTwice` the list
`pending_delete_textures_` is `[0, 1, 0]`: texture 0 was promoted while touched
and is queued once for each of its two watches, texture 1 is queued between.
Texture 0 has no fence, texture 1 has fence 5, which is not signaled, and no
texture has been deleted.  `Scavenge` deletes texture 0, stops at texture 1
and leaves `[1, 0]`: the rest of the list holds the texture that was just
destroyed. -/
theorem scavenge_destroys_listed_texture :
    Reachable hashAddress cacheQueuedTwice ∧
    cacheQueuedTwice.pending_delete_textures_ = [0, 1, 0] ∧
    (cacheQueuedTwice.tex 0).in_flight_fence = none ∧
    (cacheQueuedTwice.tex 1).in_flight_fence = some 5 ∧
    nonePassed 5 = false ∧
    cacheQueuedTwice.deleted_textures = [] ∧
    (Scavenge hashAddress nonePassed cacheQueuedTwice).deleted_textures = [0] ∧
    (Scavenge hashAddress nonePassed cacheQueuedTwice).pending_delete_textures_ = [1, 0] :=
  ⟨cacheQueuedTwice_reachable, by decide, by decide, by decide, by decide, by decide,
    by decide, by decide⟩

/-! ## C12: the watch fires before its handle is stored -/

theorem DemandResolveTextureWindow_untouched (s : Cache) (texture_info : TextureInfo)
    (out_offset host_ok : Bool) :
    DemandResolveTextureWindow s texture_info out_offset host_ok false =
      DemandResolveTexture s texture_info out_offset host_ok := by
  unfold DemandResolveTextureWindow DemandResolveTexture
  simp

/-- C12 (failing input).  `DemandResolveTexture(info256)` on the empty cache,
with a guest write into the range after `AddPhysicalAccessWatch` returned and
before line 331 stored the handle: the callback clears the handle and the watch
leaves the memory system, then the handle 1 is stored.  The texture 0 that the
call returns stores the non-zero handle 1 while no watch is registered.
Without the write the call leaves watch 1 registered for texture 0. -/
theorem watch_fired_before_handle_stored :
    (DemandResolveTextureWindow Cache.empty info256 false true true).map (fun r => r.2.1) =
      some 0 ∧
    cacheEarlyTouch.resolve_textures_ = [0] ∧
    (cacheEarlyTouch.tex 0).access_watch_handle = 1 ∧
    cacheEarlyTouch.watches = [] ∧
    (cacheEarlyTouch.tex 0).pending_invalidation = true ∧
    cacheEarlyTouch.invalidated_resolve_textures_ = [0] ∧
    (cacheResolved.tex 0).access_watch_handle = 1 ∧
    cacheResolved.watches = [{ handle := 1, texture := 0, resolve := true }] := by
  decide

/-! ## C18: an entry left behind by a reused address -/

/-- In `cacheDangling` texture 0 is deleted and the main table still holds its
entry under the hash of `info256`.  `Demand(info64)` visits no entry, and when
`new Texture()` returns the address 0 again the main table holds the address
under both hashes.  After the new watch fired, `Scavenge` erases the key of
`info64` only: the named texture 0 is still in the main table. -/
theorem scavenge_keeps_reused_address :
    cacheDangling.deleted_textures = [0] ∧
    cacheDangling.textures_ = [(0x1000, 0)] ∧
    mapFind (hashAddress info64) cacheDangling.textures_ = [] ∧
    cacheDangling.resolve_textures_ = [] ∧
    cacheReused.textures_ = [(0x1000, 0), (0x80000, 0)] ∧
    (cacheReused.tex 0).texture_info = info64 ∧
    cacheReused.invalidated_textures_ = false ∧
    cacheReused.invalidated_textures_sets_0 = [0] ∧
    (Scavenge hashAddress nonePassed cacheReused).pending_delete_textures_ = [0] ∧
    (Scavenge hashAddress nonePassed cacheReused).textures_ = [(0x1000, 0)] := by
  decide

end xe.gpu.vulkan
